import Mathlib

/-!
Verification development for the passivbot strategy kernel
(`src/passivbot/utils/funcs/njit.py`).

The numeric model is exact rational arithmetic (`ℚ`).  The source operates
on IEEE-754 doubles; every arithmetic operation of the source is embedded
as the corresponding exact rational operation.  `np.round(x, 10)` (numpy
round-half-to-even at ten decimals) is embedded exactly as round-half-even
at scale `10^10`.  The source's floats have no `NaN` in this model, so
`nan_to_0` is the identity; division by zero, which the source lets flow
as `inf`/`nan` junk values inside solver heuristics, is total division on
`ℚ` (yielding `0`).  Python exceptions (`raise`, `assert`, index errors)
are embedded with `Except String`.
-/

namespace Passivbot

attribute [local semireducible] Rat.mul Rat.inv Rat.add Rat.sub

/-- Round half to even of a rational to an integer (numpy / python `round`
with zero decimals). -/
def rhe (x : ℚ) : ℤ :=
  if x - ⌊x⌋ < 1/2 then ⌊x⌋
  else if (1:ℚ)/2 < x - ⌊x⌋ then ⌊x⌋ + 1
  else if ⌊x⌋ % 2 = 0 then ⌊x⌋ else ⌊x⌋ + 1

/-- Embedding of `np.round(x, 10)`: round half to even at ten decimals. -/
def np_round10 (x : ℚ) : ℚ := (rhe (x * 10 ^ 10) : ℚ) / 10 ^ 10

/-- Source `round_up(n, step)` = `np.round(np.ceil(np.round(n / step, 10)) * step, 10)`
with `safety_rounding = 10` as at every call site. -/
def round_up (n step : ℚ) : ℚ := np_round10 ((⌈np_round10 (n / step)⌉ : ℚ) * step)

/-- Source `round_dn(n, step)` = `np.round(np.floor(np.round(n / step, 10)) * step, 10)`. -/
def round_dn (n step : ℚ) : ℚ := np_round10 ((⌊np_round10 (n / step)⌋ : ℚ) * step)

/-- Source `round_(n, step)` = `np.round(np.round(n / step) * step, 10)`. -/
def round_ (n step : ℚ) : ℚ := np_round10 ((rhe (n / step) : ℚ) * step)

/-- Source `calc_diff(x, y) = abs(x - y) / abs(y)`. -/
def calc_diff (x y : ℚ) : ℚ := |x - y| / |y|

/-- Source `nan_to_0`.  The rational embedding has no NaN (the float NaNs
the source guards against arise from `0/0`, which is already `0` on `ℚ`),
so this is the identity. -/
def nan_to_0 (x : ℚ) : ℚ := x

/-- Source `calc_min_entry_qty`. -/
def calc_min_entry_qty (price : ℚ) (inverse : Bool) (qty_step min_qty min_cost : ℚ) : ℚ :=
  if inverse then min_qty
  else max min_qty (round_up (if 0 < price then min_cost / price else 0) qty_step)

/-- Source `cost_to_qty`. -/
def cost_to_qty (cost price : ℚ) (inverse : Bool) (c_mult : ℚ) : ℚ :=
  if inverse then cost * price / c_mult
  else if 0 < price then cost / price else 0

/-- Source `qty_to_cost`. -/
def qty_to_cost (qty price : ℚ) (inverse : Bool) (c_mult : ℚ) : ℚ :=
  if inverse then (if 0 < price then |qty / price| else 0) * c_mult
  else |qty * price|

/-- Source `calc_long_pnl`. -/
def calc_long_pnl (entry_price close_price qty : ℚ) (inverse : Bool) (c_mult : ℚ) : ℚ :=
  if inverse then
    if entry_price = 0 ∨ close_price = 0 then 0
    else |qty| * c_mult * (1 / entry_price - 1 / close_price)
  else |qty| * (close_price - entry_price)

/-- Source `calc_short_pnl`. -/
def calc_short_pnl (entry_price close_price qty : ℚ) (inverse : Bool) (c_mult : ℚ) : ℚ :=
  if inverse then
    if entry_price = 0 ∨ close_price = 0 then 0
    else |qty| * c_mult * (1 / close_price - 1 / entry_price)
  else |qty| * (entry_price - close_price)

/-- Source `calc_equity`: balance plus per-side unrealised PnL; a side
contributes only when both its `pprice` and `psize` are non-zero (python
float truthiness). -/
def calc_equity (balance long_psize long_pprice short_psize short_pprice last_price : ℚ)
    (inverse : Bool) (c_mult : ℚ) : ℚ :=
  balance
    + (if long_pprice ≠ 0 ∧ long_psize ≠ 0 then
        calc_long_pnl long_pprice last_price long_psize inverse c_mult else 0)
    + (if short_pprice ≠ 0 ∧ short_psize ≠ 0 then
        calc_short_pnl short_pprice last_price short_psize inverse c_mult else 0)

/-- Source `calc_new_psize_pprice`. -/
def calc_new_psize_pprice (psize pprice qty price qty_step : ℚ) : ℚ × ℚ :=
  if qty = 0 then (psize, pprice)
  else
    let new_psize := round_ (psize + qty) qty_step
    if new_psize = 0 then (0, 0)
    else (new_psize, nan_to_0 pprice * (psize / new_psize) + price * (qty / new_psize))

/-- Source `calc_wallet_exposure_if_filled`. -/
def calc_wallet_exposure_if_filled (balance psize pprice qty price : ℚ) (inverse : Bool)
    (c_mult qty_step : ℚ) : ℚ :=
  let psize' := round_ |psize| qty_step
  let qty' := round_ |qty| qty_step
  let np := calc_new_psize_pprice psize' pprice qty' price qty_step
  qty_to_cost np.1 np.2 inverse c_mult / balance

/-- Source `calc_upnl`. -/
def calc_upnl (long_psize long_pprice short_psize short_pprice last_price : ℚ)
    (inverse : Bool) (c_mult : ℚ) : ℚ :=
  calc_long_pnl long_pprice last_price long_psize inverse c_mult
    + calc_short_pnl short_pprice last_price short_psize inverse c_mult

/-- Source `calc_bankruptcy_price`. -/
def calc_bankruptcy_price (balance long_psize long_pprice short_psize short_pprice : ℚ)
    (inverse : Bool) (c_mult : ℚ) : ℚ :=
  let long_pprice := nan_to_0 long_pprice
  let short_pprice := nan_to_0 short_pprice
  let long_psize' := long_psize * c_mult
  let abs_short_psize := |short_psize| * c_mult
  if inverse then
    let short_cost := if 0 < short_pprice then abs_short_psize / short_pprice else 0
    let long_cost := if 0 < long_pprice then long_psize' / long_pprice else 0
    let denominator := short_cost - long_cost - balance
    if denominator = 0 then 0
    else max 0 ((abs_short_psize - long_psize') / denominator)
  else
    let denominator := long_psize' - abs_short_psize
    if denominator = 0 then 0
    else max 0 ((-balance + long_psize' * long_pprice - abs_short_psize * short_pprice)
      / denominator)

/-- Source `calc_initial_entry_qty`. -/
def calc_initial_entry_qty (balance initial_entry_price : ℚ) (inverse : Bool)
    (qty_step min_qty min_cost c_mult wallet_exposure_limit initial_qty_pct : ℚ) : ℚ :=
  max (calc_min_entry_qty initial_entry_price inverse qty_step min_qty min_cost)
    (round_ (cost_to_qty (balance * wallet_exposure_limit * initial_qty_pct)
      initial_entry_price inverse c_mult) qty_step)

/-- Source `calc_long_entry_qty`. -/
def calc_long_entry_qty (psize pprice entry_price eprice_pprice_diff : ℚ) : ℚ :=
  -(psize * (entry_price * eprice_pprice_diff + entry_price - pprice)
    / (entry_price * eprice_pprice_diff))

/-- Source `calc_short_entry_qty`. -/
def calc_short_entry_qty (psize pprice entry_price eprice_pprice_diff : ℚ) : ℚ :=
  -((psize * (entry_price * (eprice_pprice_diff - 1) + pprice))
    / (entry_price * eprice_pprice_diff))

/-! ### Step-multiple lemmas -/

/-- A value is an exact integer multiple of a step. -/
def isMul (step x : ℚ) : Prop := ∃ k : ℤ, x = k * step

theorem rhe_intCast (z : ℤ) : rhe (z : ℚ) = z := by
  simp [rhe]

theorem np_round10_int_mul {step : ℚ} {z : ℤ} (hz : step * 10 ^ 10 = (z : ℚ)) (m : ℤ) :
    np_round10 ((m : ℚ) * step) = (m : ℚ) * step := by
  have h1 : (m : ℚ) * step * 10 ^ 10 = ((m * z : ℤ) : ℚ) := by
    push_cast
    rw [mul_assoc, hz]
  rw [np_round10, h1, rhe_intCast]
  push_cast
  rw [← hz, mul_div_assoc, mul_div_cancel_right₀ _ (by norm_num : ((10 : ℚ) ^ 10) ≠ 0)]

theorem isMul_round_ {step : ℚ} (hz : ∃ z : ℤ, step * 10 ^ 10 = (z : ℚ)) (n : ℚ) :
    isMul step (round_ n step) := by
  obtain ⟨z, hz⟩ := hz
  refine ⟨rhe (n / step), ?_⟩
  rw [round_, np_round10_int_mul hz]

theorem isMul_round_up {step : ℚ} (hz : ∃ z : ℤ, step * 10 ^ 10 = (z : ℚ)) (n : ℚ) :
    isMul step (round_up n step) := by
  obtain ⟨z, hz⟩ := hz
  refine ⟨⌈np_round10 (n / step)⌉, ?_⟩
  rw [round_up, np_round10_int_mul hz]

theorem isMul_round_dn {step : ℚ} (hz : ∃ z : ℤ, step * 10 ^ 10 = (z : ℚ)) (n : ℚ) :
    isMul step (round_dn n step) := by
  obtain ⟨z, hz⟩ := hz
  refine ⟨⌊np_round10 (n / step)⌋, ?_⟩
  rw [round_dn, np_round10_int_mul hz]

theorem isMul_zero (step : ℚ) : isMul step 0 := ⟨0, by simp⟩

theorem isMul_neg {step x : ℚ} (h : isMul step x) : isMul step (-x) := by
  obtain ⟨k, hk⟩ := h
  exact ⟨-k, by push_cast [hk]; ring⟩

theorem isMul_add {step x y : ℚ} (hx : isMul step x) (hy : isMul step y) :
    isMul step (x + y) := by
  obtain ⟨k, hk⟩ := hx
  obtain ⟨m, hm⟩ := hy
  exact ⟨k + m, by push_cast [hk, hm]; ring⟩

theorem isMul_sub {step x y : ℚ} (hx : isMul step x) (hy : isMul step y) :
    isMul step (x - y) := by
  rw [sub_eq_add_neg]
  exact isMul_add hx (isMul_neg hy)

theorem isMul_min {step x y : ℚ} (hx : isMul step x) (hy : isMul step y) :
    isMul step (min x y) := by
  rcases le_total x y with h | h
  · rwa [min_eq_left h]
  · rwa [min_eq_right h]

theorem isMul_max {step x y : ℚ} (hx : isMul step x) (hy : isMul step y) :
    isMul step (max x y) := by
  rcases le_total x y with h | h
  · rwa [max_eq_right h]
  · rwa [max_eq_left h]

theorem isMul_abs {step x : ℚ} (h : isMul step x) : isMul step |x| := by
  rcases abs_cases x with ⟨he, _⟩ | ⟨he, _⟩
  · rwa [he]
  · rw [he]; exact isMul_neg h

theorem round_eq_self_of_isMul {step x : ℚ} (hs : 0 < step)
    (hz : ∃ z : ℤ, step * 10 ^ 10 = (z : ℚ)) (h : isMul step x) : round_ x step = x := by
  obtain ⟨z, hz⟩ := hz
  obtain ⟨k, hk⟩ := h
  subst hk
  have hstep : step ≠ 0 := ne_of_gt hs
  have hdiv : (k : ℚ) * step / step = (k : ℚ) := by field_simp
  rw [round_, hdiv, rhe_intCast, np_round10_int_mul hz]

theorem isMul_calc_min_entry_qty {qty_step min_qty : ℚ}
    (hz : ∃ z : ℤ, qty_step * 10 ^ 10 = (z : ℚ)) (hm : isMul qty_step min_qty)
    (price : ℚ) (inverse : Bool) (min_cost : ℚ) :
    isMul qty_step (calc_min_entry_qty price inverse qty_step min_qty min_cost) := by
  unfold calc_min_entry_qty
  cases inverse
  · simpa using isMul_max hm (isMul_round_up hz _)
  · simpa using hm

/-! ### List helpers, interpolation, price grids -/

/-- Embedding of `np.linspace(a, b, n)` (endpoint included). -/
def linspace (a b : ℚ) (n : ℕ) : List ℚ :=
  if n = 0 then []
  else if n = 1 then [a]
  else (List.range n).map (fun i => a + (b - a) * i / ((n : ℚ) - 1))

/-- Minimum of a list of rationals (`np.ndarray.min`; `0` for the empty list,
which the source never hits on a defined path). -/
def listMin (l : List ℚ) : ℚ := l.foldl min (l.headD 0)

/-- Maximum of a list of rationals. -/
def listMax (l : List ℚ) : ℚ := l.foldl max (l.headD 0)

/-- Source `basespace(start, end, base, n)`: linear spacing when `base == 1`,
otherwise `base^i` normalised to `[0, 1]` and mapped onto `[start, end]`. -/
def basespace (start end_ base : ℚ) (n : ℕ) : List ℚ :=
  if base = 1 then linspace start end_ n
  else
    let a := (List.range n).map (fun i => base ^ i)
    let mn := listMin a
    let mx := listMax a
    a.map (fun x => (x - mn) / (mx - mn) * (end_ - start) + start)

/-- Source `interpolate(x, xs, ys)`: Lagrange interpolation evaluated at `x`. -/
def interpolate (x : ℚ) (xs ys : List ℚ) : ℚ :=
  ((List.range xs.length).map (fun j =>
    ((List.range xs.length).foldl (fun pr m =>
      if m = j then pr else pr * ((x - xs.getD m 0) / (xs.getD j 0 - xs.getD m 0))) 1)
      * ys.getD j 0)).sum

/-- Lexicographic minimum of a list of pairs; embeds `sorted(list)[0]` for a
python list of 2-tuples (the source applies it only to non-empty lists). -/
def minPairLex : List (ℚ × ℚ) → ℚ × ℚ
  | [] => (0, 0)
  | x :: xs => xs.foldl (fun b y => if y.1 < b.1 ∨ (y.1 = b.1 ∧ y.2 < b.2) then y else b) x

theorem foldl_minPair_mem (xs : List (ℚ × ℚ)) :
    ∀ b : ℚ × ℚ,
      xs.foldl (fun b y => if y.1 < b.1 ∨ (y.1 = b.1 ∧ y.2 < b.2) then y else b) b ∈ b :: xs := by
  induction xs with
  | nil => intro b; simp
  | cons y ys ih =>
    intro b
    have h := ih (if y.1 < b.1 ∨ (y.1 = b.1 ∧ y.2 < b.2) then y else b)
    rcases List.mem_cons.mp h with h1 | h1
    · by_cases hc : y.1 < b.1 ∨ (y.1 = b.1 ∧ y.2 < b.2)
      · rw [List.foldl_cons, h1, if_pos hc]
        simp
      · rw [List.foldl_cons, h1, if_neg hc]
        simp
    · rw [List.foldl_cons]
      right
      exact List.mem_cons_of_mem y h1

theorem minPairLex_mem (x : ℚ × ℚ) (xs : List (ℚ × ℚ)) : minPairLex (x :: xs) ∈ x :: xs :=
  foldl_minPair_mem xs x

/-! ### Numerical inverters (§4.3) -/

/-- Error function of `find_entry_qty_bringing_wallet_exposure_to_target`:
the wallet exposure that would result from filling `g` at `entry_price`. -/
def fewe_val (balance psize pprice entry_price : ℚ) (inverse : Bool)
    (c_mult qty_step : ℚ) (g : ℚ) : ℚ :=
  calc_wallet_exposure_if_filled balance psize pprice g entry_price inverse c_mult qty_step

/-- First guess of `find_entry_qty_bringing_wallet_exposure_to_target`:
`round_(abs(psize) * wallet_exposure_target / wallet_exposure, qty_step)`. -/
def fewe_first_guess (balance psize pprice wallet_exposure_target : ℚ) (inverse : Bool)
    (qty_step c_mult : ℚ) : ℚ :=
  round_ (|psize| * wallet_exposure_target
    / (qty_to_cost psize pprice inverse c_mult / balance)) qty_step

/-- Tie-break step of the entry solver: when the last two guesses coincide,
replace the newest guess (`guesses[-1] = abs(round_(max(g*1.1, g+step)))`) and
recompute its value; the recorded error list is left untouched as in the
source. -/
def fewe_tiebreak (balance psize pprice entry_price : ℚ) (inverse : Bool)
    (qty_step c_mult : ℚ) (gs vs : List ℚ) : List ℚ × List ℚ :=
  if gs.headD 0 = gs.tail.headD 0 then
    let g' := |round_ (max (gs.tail.headD 0 * (11/10)) (gs.tail.headD 0 + qty_step)) qty_step|
    (g' :: gs.tail, fewe_val balance psize pprice entry_price inverse c_mult qty_step g' :: vs.tail)
  else (gs, vs)

/-- Interpolated next guess of the entry solver
(`max(0, round_(interpolate(target, vals[-2:], guesses[-2:])))`). -/
def fewe_next (target : ℚ) (qty_step : ℚ) (gs vs : List ℚ) : ℚ :=
  max 0 (round_ (interpolate target [vs.tail.headD 0, vs.headD 0]
    [gs.tail.headD 0, gs.headD 0]) qty_step)

/-- Iteration loop of `find_entry_qty_bringing_wallet_exposure_to_target`
(`for _ in range(15)`).  The guess/value/error lists are kept newest-first. -/
def fewe_loop (balance psize pprice target entry_price : ℚ) (inverse : Bool)
    (qty_step c_mult : ℚ) : ℕ → List ℚ → List ℚ → List ℚ → List ℚ × List ℚ × List ℚ
  | 0, gs, vs, es => (gs, vs, es)
  | fuel + 1, gs, vs, es =>
    let r := fewe_tiebreak balance psize pprice entry_price inverse qty_step c_mult gs vs
    let g3 := fewe_next target qty_step r.1 r.2
    let v3 := fewe_val balance psize pprice entry_price inverse c_mult qty_step g3
    let e3 := |v3 - target| / target
    if e3 < 1/25 then (g3 :: r.1, v3 :: r.2, e3 :: es)
    else fewe_loop balance psize pprice target entry_price inverse qty_step c_mult fuel
      (g3 :: r.1) (v3 :: r.2) (e3 :: es)

/-- Source `find_entry_qty_bringing_wallet_exposure_to_target`. -/
def find_entry_qty_bringing_wallet_exposure_to_target
    (balance psize pprice wallet_exposure_target entry_price : ℚ) (inverse : Bool)
    (qty_step c_mult : ℚ) : ℚ :=
  let wallet_exposure := qty_to_cost psize pprice inverse c_mult / balance
  if wallet_exposure_target * (99/100) ≤ wallet_exposure then 0
  else
    let g0 := fewe_first_guess balance psize pprice wallet_exposure_target inverse qty_step c_mult
    let v0 := fewe_val balance psize pprice entry_price inverse c_mult qty_step g0
    let e0 := |v0 - wallet_exposure_target| / wallet_exposure_target
    let g1 := max 0 (round_ (max (g0 * (6/5)) (g0 + qty_step)) qty_step)
    let v1 := fewe_val balance psize pprice entry_price inverse c_mult qty_step g1
    let e1 := |v1 - wallet_exposure_target| / wallet_exposure_target
    let r := fewe_loop balance psize pprice wallet_exposure_target entry_price inverse
      qty_step c_mult 15 [g1, g0] [v1, v0] [e1, e0]
    (minPairLex ((r.2.2.reverse).zip (r.1.reverse))).2

/-- Error function of `find_long_close_qty_bringing_wallet_exposure_to_target`. -/
def flcq_val (balance psize pprice close_price : ℚ) (inverse : Bool) (c_mult : ℚ) (g : ℚ) : ℚ :=
  qty_to_cost (|psize| - g) pprice inverse c_mult
    / (balance + calc_long_pnl pprice close_price g inverse c_mult)

/-- Iteration loop of `find_long_close_qty_bringing_wallet_exposure_to_target`.
Note the larger tie-break expansion (`*2`, `+10*qty_step`) than the short
counterpart, and that the tie-break leaves the recorded error stale as in the
source. -/
def flcq_tiebreak (balance psize pprice close_price : ℚ) (inverse : Bool)
    (qty_step c_mult : ℚ) (gs vs : List ℚ) : List ℚ × List ℚ :=
  if gs.headD 0 = gs.tail.headD 0 ∨ vs.headD 0 = vs.tail.headD 0 then
    let g' := min psize
      (|round_ (max (gs.tail.headD 0 * 2) (gs.tail.headD 0 + qty_step * 10)) qty_step|)
    (g' :: gs.tail, flcq_val balance psize pprice close_price inverse c_mult g' :: vs.tail)
  else (gs, vs)

/-- Clamped interpolated next guess of the long-close solver. -/
def flcq_next (psize target : ℚ) (qty_step : ℚ) (gs vs : List ℚ) : ℚ :=
  min psize (max 0 (round_ (interpolate target [vs.tail.headD 0, vs.headD 0]
    [gs.tail.headD 0, gs.headD 0]) qty_step))

def flcq_loop (balance psize pprice target close_price : ℚ) (inverse : Bool)
    (qty_step c_mult : ℚ) : ℕ → List ℚ → List ℚ → List ℚ → List ℚ × List ℚ × List ℚ
  | 0, gs, vs, es => (gs, vs, es)
  | fuel + 1, gs, vs, es =>
    let r := flcq_tiebreak balance psize pprice close_price inverse qty_step c_mult gs vs
    let g3 := flcq_next psize target qty_step r.1 r.2
    let v3 := flcq_val balance psize pprice close_price inverse c_mult g3
    let e3 := |v3 - target| / target
    if e3 < 1/25 then (g3 :: r.1, v3 :: r.2, e3 :: es)
    else flcq_loop balance psize pprice target close_price inverse qty_step c_mult fuel
      (g3 :: r.1) (v3 :: r.2) (e3 :: es)

/-- Source `find_long_close_qty_bringing_wallet_exposure_to_target`. -/
def find_long_close_qty_bringing_wallet_exposure_to_target
    (balance psize pprice wallet_exposure_target close_price : ℚ) (inverse : Bool)
    (qty_step c_mult : ℚ) : ℚ :=
  let wallet_exposure := qty_to_cost psize pprice inverse c_mult / balance
  if wallet_exposure ≤ wallet_exposure_target * (1001/1000) then 0
  else
    let g0 := min psize (max 0 (round_ (psize * (wallet_exposure_target / wallet_exposure))
      qty_step))
    let v0 := flcq_val balance psize pprice close_price inverse c_mult g0
    let e0 := |v0 - wallet_exposure_target| / wallet_exposure_target
    let g1a := min psize (max 0 (round_ (max (g0 * (6/5)) (g0 + qty_step)) qty_step))
    let g1 := if g1a = g0
      then min psize (max 0 (round_ (min (g1a * (4/5)) (g1a - qty_step)) qty_step))
      else g1a
    let v1 := flcq_val balance psize pprice close_price inverse c_mult g1
    let e1 := |v1 - wallet_exposure_target| / wallet_exposure_target
    let r := flcq_loop balance psize pprice wallet_exposure_target close_price inverse
      qty_step c_mult 15 [g1, g0] [v1, v0] [e1, e0]
    (minPairLex ((r.2.2.reverse).zip (r.1.reverse))).2

/-- Error function of `find_short_close_qty_bringing_wallet_exposure_to_target`. -/
def fscq_val (balance psize pprice close_price : ℚ) (inverse : Bool) (c_mult : ℚ) (g : ℚ) : ℚ :=
  qty_to_cost (|psize| - g) pprice inverse c_mult
    / (balance + calc_short_pnl pprice close_price g inverse c_mult)

/-- Iteration loop of `find_short_close_qty_bringing_wallet_exposure_to_target`
(smaller tie-break expansion `*1.1`, `+qty_step`). -/
def fscq_tiebreak (balance abs_psize pprice close_price : ℚ) (inverse : Bool)
    (qty_step c_mult : ℚ) (gs vs : List ℚ) : List ℚ × List ℚ :=
  if gs.headD 0 = gs.tail.headD 0 ∨ vs.headD 0 = vs.tail.headD 0 then
    let g' := min abs_psize
      (|round_ (max (gs.tail.headD 0 * (11/10)) (gs.tail.headD 0 + qty_step)) qty_step|)
    (g' :: gs.tail, fscq_val balance abs_psize pprice close_price inverse c_mult g' :: vs.tail)
  else (gs, vs)

/-- Clamped interpolated next guess of the short-close solver. -/
def fscq_next (abs_psize target : ℚ) (qty_step : ℚ) (gs vs : List ℚ) : ℚ :=
  min abs_psize (max 0 (round_ (interpolate target [vs.tail.headD 0, vs.headD 0]
    [gs.tail.headD 0, gs.headD 0]) qty_step))

def fscq_loop (balance abs_psize pprice target close_price : ℚ) (inverse : Bool)
    (qty_step c_mult : ℚ) : ℕ → List ℚ → List ℚ → List ℚ → List ℚ × List ℚ × List ℚ
  | 0, gs, vs, es => (gs, vs, es)
  | fuel + 1, gs, vs, es =>
    let r := fscq_tiebreak balance abs_psize pprice close_price inverse qty_step c_mult gs vs
    let g3 := fscq_next abs_psize target qty_step r.1 r.2
    let v3 := fscq_val balance abs_psize pprice close_price inverse c_mult g3
    let e3 := |v3 - target| / target
    if e3 < 1/25 then (g3 :: r.1, v3 :: r.2, e3 :: es)
    else fscq_loop balance abs_psize pprice target close_price inverse qty_step c_mult fuel
      (g3 :: r.1) (v3 :: r.2) (e3 :: es)

/-- Source `find_short_close_qty_bringing_wallet_exposure_to_target`. -/
def find_short_close_qty_bringing_wallet_exposure_to_target
    (balance psize pprice wallet_exposure_target close_price : ℚ) (inverse : Bool)
    (qty_step c_mult : ℚ) : ℚ :=
  let wallet_exposure := qty_to_cost psize pprice inverse c_mult / balance
  if wallet_exposure ≤ wallet_exposure_target * (1001/1000) then 0
  else
    let abs_psize := |psize|
    let g0 := min abs_psize (max 0 (round_ (abs_psize *
      (wallet_exposure_target / wallet_exposure)) qty_step))
    let v0 := fscq_val balance abs_psize pprice close_price inverse c_mult g0
    let e0 := |v0 - wallet_exposure_target| / wallet_exposure_target
    let g1a := min abs_psize (max 0 (round_ (max (g0 * (6/5)) (g0 + qty_step)) qty_step))
    let g1 := if g1a = g0
      then min abs_psize (max 0 (round_ (min (g1a * (4/5)) (g1a - qty_step)) qty_step))
      else g1a
    let v1 := fscq_val balance abs_psize pprice close_price inverse c_mult g1
    let e1 := |v1 - wallet_exposure_target| / wallet_exposure_target
    let r := fscq_loop balance abs_psize pprice wallet_exposure_target close_price inverse
      qty_step c_mult 15 [g1, g0] [v1, v0] [e1, e0]
    (minPairLex ((r.2.2.reverse).zip (r.1.reverse))).2

/-! ### Entry-grid builder (§4.4) -/

/-- One ladder node `[qty, price, psize, pprice, wallet_exposure]`. -/
structure GridRow where
  qty : ℚ
  price : ℚ
  psize : ℚ
  pprice : ℚ
  we : ℚ
deriving DecidableEq, Inhabited

/-- Loop of `eval_long_entry_grid` over nodes `1..`: per-node drift-solved
quantity, zeroed below the minimum entry quantity, accumulated through
`calc_new_psize_pprice`. -/
def eval_long_entry_grid_go (balance : ℚ) (inverse : Bool)
    (qty_step min_qty min_cost c_mult eprice_pprice_diff weighting : ℚ) :
    List ℚ → ℚ → ℚ → ℚ → List GridRow
  | [], _, _, _ => []
  | p :: rest, psize, pprice, prev_we =>
    let adjusted := eprice_pprice_diff * (1 + prev_we * weighting)
    let qty0 := round_ (calc_long_entry_qty psize pprice p adjusted) qty_step
    let qty := if qty0 < calc_min_entry_qty p inverse qty_step min_qty min_cost then 0 else qty0
    let np := calc_new_psize_pprice psize pprice qty p qty_step
    let we := qty_to_cost np.1 np.2 inverse c_mult / balance
    ⟨qty, p, np.1, np.2, we⟩ ::
      eval_long_entry_grid_go balance inverse qty_step min_qty min_cost c_mult
        eprice_pprice_diff weighting rest np.1 np.2 we

/-- Body of `eval_long_entry_grid` on an explicit grid-price list. -/
def eval_long_entry_grid_on (balance initial_entry_price : ℚ) (inverse : Bool)
    (qty_step min_qty min_cost c_mult wallet_exposure_limit : ℚ)
    (initial_qty_pct eprice_pprice_diff weighting : ℚ) (prev_pprice : Option ℚ) :
    List ℚ → List GridRow
  | [] => []
  | p0 :: rest =>
    let q0 := max (calc_min_entry_qty p0 inverse qty_step min_qty min_cost)
      (round_ (cost_to_qty (balance * wallet_exposure_limit * initial_qty_pct)
        initial_entry_price inverse c_mult) qty_step)
    let pp0 := prev_pprice.getD p0
    let we0 := qty_to_cost q0 pp0 inverse c_mult / balance
    ⟨q0, p0, q0, pp0, we0⟩ ::
      eval_long_entry_grid_go balance inverse qty_step min_qty min_cost c_mult
        eprice_pprice_diff weighting rest q0 pp0 we0

/-- Source `eval_long_entry_grid`. -/
def eval_long_entry_grid (balance initial_entry_price : ℚ) (inverse : Bool)
    (qty_step price_step min_qty min_cost c_mult grid_span wallet_exposure_limit : ℚ)
    (max_n_entry_orders : ℕ) (initial_qty_pct eprice_pprice_diff weighting eprice_exp_base : ℚ)
    (eprices : Option (List ℚ)) (prev_pprice : Option ℚ) : List GridRow :=
  eval_long_entry_grid_on balance initial_entry_price inverse qty_step min_qty min_cost
    c_mult wallet_exposure_limit initial_qty_pct eprice_pprice_diff weighting prev_pprice
    (match eprices with
      | none => (basespace initial_entry_price (initial_entry_price * (1 - grid_span))
          eprice_exp_base max_n_entry_orders).map (fun p => round_dn p price_step)
      | some l => l)

/-- Loop of `eval_short_entry_grid` over nodes `1..`. -/
def eval_short_entry_grid_go (balance : ℚ) (inverse : Bool)
    (qty_step min_qty min_cost c_mult eprice_pprice_diff weighting : ℚ) :
    List ℚ → ℚ → ℚ → ℚ → List GridRow
  | [], _, _, _ => []
  | p :: rest, psize, pprice, prev_we =>
    let adjusted := eprice_pprice_diff * (1 + prev_we * weighting)
    let qty0 := round_ (calc_short_entry_qty psize pprice p adjusted) qty_step
    let qty := if -qty0 < calc_min_entry_qty p inverse qty_step min_qty min_cost then 0 else qty0
    let np := calc_new_psize_pprice psize pprice qty p qty_step
    let we := qty_to_cost np.1 np.2 inverse c_mult / balance
    ⟨qty, p, np.1, np.2, we⟩ ::
      eval_short_entry_grid_go balance inverse qty_step min_qty min_cost c_mult
        eprice_pprice_diff weighting rest np.1 np.2 we

/-- Body of `eval_short_entry_grid` on an explicit grid-price list. -/
def eval_short_entry_grid_on (balance initial_entry_price : ℚ) (inverse : Bool)
    (qty_step min_qty min_cost c_mult wallet_exposure_limit : ℚ)
    (initial_qty_pct eprice_pprice_diff weighting : ℚ) (prev_pprice : Option ℚ) :
    List ℚ → List GridRow
  | [] => []
  | p0 :: rest =>
    let q0 := -(max (calc_min_entry_qty p0 inverse qty_step min_qty min_cost)
      (round_ (cost_to_qty (balance * wallet_exposure_limit * initial_qty_pct)
        initial_entry_price inverse c_mult) qty_step))
    let pp0 := prev_pprice.getD p0
    let we0 := qty_to_cost q0 pp0 inverse c_mult / balance
    ⟨q0, p0, q0, pp0, we0⟩ ::
      eval_short_entry_grid_go balance inverse qty_step min_qty min_cost c_mult
        eprice_pprice_diff weighting rest q0 pp0 we0

/-- Source `eval_short_entry_grid`. -/
def eval_short_entry_grid (balance initial_entry_price : ℚ) (inverse : Bool)
    (qty_step price_step min_qty min_cost c_mult grid_span wallet_exposure_limit : ℚ)
    (max_n_entry_orders : ℕ) (initial_qty_pct eprice_pprice_diff weighting eprice_exp_base : ℚ)
    (eprices : Option (List ℚ)) (prev_pprice : Option ℚ) : List GridRow :=
  eval_short_entry_grid_on balance initial_entry_price inverse qty_step min_qty min_cost
    c_mult wallet_exposure_limit initial_qty_pct eprice_pprice_diff weighting prev_pprice
    (match eprices with
      | none => (basespace initial_entry_price (initial_entry_price * (1 + grid_span))
          eprice_exp_base max_n_entry_orders).map (fun p => round_up p price_step)
      | some l => l)

/-- Terminal cumulative wallet exposure of the ladder built with a given
weighting guess; `IndexError` (`grid[-1]`) when the ladder is empty. -/
def fepdwew_eval (is_long : Bool) (balance initial_entry_price : ℚ) (inverse : Bool)
    (qty_step price_step min_qty min_cost c_mult grid_span wallet_exposure_limit : ℚ)
    (max_n_entry_orders : ℕ) (initial_qty_pct eprice_pprice_diff eprice_exp_base : ℚ)
    (eprices : Option (List ℚ)) (prev_pprice : Option ℚ) (guess : ℚ) : Except String ℚ :=
  let grid := if is_long then
      eval_long_entry_grid balance initial_entry_price inverse qty_step price_step min_qty
        min_cost c_mult grid_span wallet_exposure_limit max_n_entry_orders initial_qty_pct
        eprice_pprice_diff guess eprice_exp_base eprices prev_pprice
    else
      eval_short_entry_grid balance initial_entry_price inverse qty_step price_step min_qty
        min_cost c_mult grid_span wallet_exposure_limit max_n_entry_orders initial_qty_pct
        eprice_pprice_diff guess eprice_exp_base eprices prev_pprice
  match grid.getLast? with
  | none => Except.error "index error: empty grid"
  | some r => Except.ok r.we

/-- Bisection loop of `find_eprice_pprice_diff_wallet_exposure_weighting`;
`best` is `(diff, guess, val)`. -/
def fepdwew_loop (wallet_exposure_limit error_tolerance : ℚ) (max_n_iters : ℕ)
    (f : ℚ → Except String ℚ) :
    ℕ → ℕ → ℚ → ℚ → ℚ → ℚ × ℚ → ℚ × ℚ → ℚ × ℚ × ℚ → Except String ℚ
  | 0, _, _, _, _, _, _, best => Except.ok best.2.1
  | fuel + 1, i, old_guess, guess, val, too_low, too_high, best =>
    let i' := i + 1
    let diff := |val - wallet_exposure_limit| / wallet_exposure_limit
    let best' := if diff < best.1 then (diff, guess, val) else best
    if diff < error_tolerance then Except.ok best'.2.1
    else if max_n_iters ≤ i' ∨ |old_guess - guess| / guess < error_tolerance * (1/10) then
      Except.ok best'.2.1
    else
      let guess' := (too_high.1 + too_low.1) / 2
      match f guess' with
      | Except.error e => Except.error e
      | Except.ok val' =>
        if val' < wallet_exposure_limit then
          fepdwew_loop wallet_exposure_limit error_tolerance max_n_iters f fuel i' guess
            guess' val' too_low (guess', val') best'
        else
          fepdwew_loop wallet_exposure_limit error_tolerance max_n_iters f fuel i' guess
            guess' val' (guess', val') too_high best'

/-- Source `find_eprice_pprice_diff_wallet_exposure_weighting`: brackets the
weighting between `0` and `1e3`/`1e4`/`1e5`, then interpolates/bisects. -/
def find_eprice_pprice_diff_wallet_exposure_weighting (is_long : Bool)
    (balance initial_entry_price : ℚ) (inverse : Bool)
    (qty_step price_step min_qty min_cost c_mult grid_span wallet_exposure_limit : ℚ)
    (max_n_entry_orders : ℕ) (initial_qty_pct eprice_pprice_diff eprice_exp_base : ℚ)
    (max_n_iters : ℕ) (error_tolerance : ℚ)
    (eprices : Option (List ℚ)) (prev_pprice : Option ℚ) : Except String ℚ := do
  let f := fun g => fepdwew_eval is_long balance initial_entry_price inverse qty_step price_step
    min_qty min_cost c_mult grid_span wallet_exposure_limit max_n_entry_orders initial_qty_pct
    eprice_pprice_diff eprice_exp_base eprices prev_pprice g
  let val0 ← f 0
  if val0 < wallet_exposure_limit then return 0
  let too_low := ((0 : ℚ), val0)
  let v1 ← f 1000
  let gv ← (if wallet_exposure_limit < v1 then do
      let v2 ← f 10000
      if wallet_exposure_limit < v2 then do
        let v3 ← f 100000
        if wallet_exposure_limit < v3 then pure none
        else pure (some ((100000 : ℚ), v3))
      else pure (some ((10000 : ℚ), v2))
    else pure (some ((1000 : ℚ), v1)))
  match gv with
  | none => return 100000
  | some too_high =>
    let guesses := [too_low.2, too_high.2]
    let vals := [too_low.1, too_high.1]
    let guess := interpolate wallet_exposure_limit vals guesses
    let val ← f guess
    let best := (|val - wallet_exposure_limit| / wallet_exposure_limit, guess, val)
    if val < wallet_exposure_limit then
      fepdwew_loop wallet_exposure_limit error_tolerance max_n_iters f (max_n_iters + 1) 0 0
        guess val too_low (guess, val) best
    else
      fepdwew_loop wallet_exposure_limit error_tolerance max_n_iters f (max_n_iters + 1) 0 0
        guess val (guess, val) too_high best

/-- Source `calc_whole_long_entry_grid` with the secondary allocation already
normalised (`process` body). -/
def calc_whole_long_entry_grid_core (balance initial_entry_price : ℚ) (inverse : Bool)
    (qty_step price_step min_qty min_cost c_mult grid_span wallet_exposure_limit : ℚ)
    (max_n_entry_orders : ℕ)
    (initial_qty_pct eprice_pprice_diff secondary_allocation secondary_pprice_diff
      eprice_exp_base : ℚ)
    (eprices : Option (List ℚ)) (prev_pprice : Option ℚ) : Except String (List GridRow) := do
  let pwea := 1 - secondary_allocation
  let pwel := wallet_exposure_limit * pwea
  let w ← find_eprice_pprice_diff_wallet_exposure_weighting true balance initial_entry_price
    inverse qty_step price_step min_qty min_cost c_mult grid_span pwel max_n_entry_orders
    (initial_qty_pct / pwea) eprice_pprice_diff eprice_exp_base 20 (1/100) eprices prev_pprice
  let grid := eval_long_entry_grid balance initial_entry_price inverse qty_step price_step
    min_qty min_cost c_mult grid_span pwel max_n_entry_orders (initial_qty_pct / pwea)
    eprice_pprice_diff w eprice_exp_base eprices prev_pprice
  if 0 < secondary_allocation then
    match grid.getLast? with
    | none => Except.error "index error: empty grid"
    | some lastRow =>
      let entry_price := min (round_dn (lastRow.pprice * (1 - secondary_pprice_diff)) price_step)
        lastRow.price
      let qty := find_entry_qty_bringing_wallet_exposure_to_target balance lastRow.psize
        lastRow.pprice wallet_exposure_limit entry_price inverse qty_step c_mult
      let np := calc_new_psize_pprice lastRow.psize lastRow.pprice qty entry_price qty_step
      let nwe := qty_to_cost np.1 np.2 inverse c_mult / balance
      Except.ok ((grid ++ [GridRow.mk qty entry_price np.1 np.2 nwe]).filter (fun r => 0 < r.qty))
  else
    Except.ok (grid.filter (fun r => 0 < r.qty))

/-- Source `calc_whole_long_entry_grid`: secondary allocations `≤ 0.05` are
zeroed, `≥ 1.0` raise. -/
def calc_whole_long_entry_grid (balance initial_entry_price : ℚ) (inverse : Bool)
    (qty_step price_step min_qty min_cost c_mult grid_span wallet_exposure_limit : ℚ)
    (max_n_entry_orders : ℕ)
    (initial_qty_pct eprice_pprice_diff secondary_allocation secondary_pprice_diff
      eprice_exp_base : ℚ)
    (eprices : Option (List ℚ)) (prev_pprice : Option ℚ) : Except String (List GridRow) :=
  if secondary_allocation ≤ 1/20 then
    calc_whole_long_entry_grid_core balance initial_entry_price inverse qty_step price_step
      min_qty min_cost c_mult grid_span wallet_exposure_limit max_n_entry_orders
      initial_qty_pct eprice_pprice_diff 0 secondary_pprice_diff eprice_exp_base
      eprices prev_pprice
  else if 1 ≤ secondary_allocation then
    Except.error "secondary_allocation cannot be >= 1.0"
  else
    calc_whole_long_entry_grid_core balance initial_entry_price inverse qty_step price_step
      min_qty min_cost c_mult grid_span wallet_exposure_limit max_n_entry_orders
      initial_qty_pct eprice_pprice_diff secondary_allocation secondary_pprice_diff
      eprice_exp_base eprices prev_pprice

/-- Source `calc_whole_short_entry_grid` (normalised body). -/
def calc_whole_short_entry_grid_core (balance initial_entry_price : ℚ) (inverse : Bool)
    (qty_step price_step min_qty min_cost c_mult grid_span wallet_exposure_limit : ℚ)
    (max_n_entry_orders : ℕ)
    (initial_qty_pct eprice_pprice_diff secondary_allocation secondary_pprice_diff
      eprice_exp_base : ℚ)
    (eprices : Option (List ℚ)) (prev_pprice : Option ℚ) : Except String (List GridRow) := do
  let pwea := 1 - secondary_allocation
  let pwel := wallet_exposure_limit * pwea
  let w ← find_eprice_pprice_diff_wallet_exposure_weighting false balance initial_entry_price
    inverse qty_step price_step min_qty min_cost c_mult grid_span pwel max_n_entry_orders
    (initial_qty_pct / pwea) eprice_pprice_diff eprice_exp_base 20 (1/100) eprices prev_pprice
  let grid := eval_short_entry_grid balance initial_entry_price inverse qty_step price_step
    min_qty min_cost c_mult grid_span pwel max_n_entry_orders (initial_qty_pct / pwea)
    eprice_pprice_diff w eprice_exp_base eprices prev_pprice
  if 0 < secondary_allocation then
    match grid.getLast? with
    | none => Except.error "index error: empty grid"
    | some lastRow =>
      let entry_price := max (round_up (lastRow.pprice * (1 + secondary_pprice_diff)) price_step)
        lastRow.price
      let qty := -(find_entry_qty_bringing_wallet_exposure_to_target balance lastRow.psize
        lastRow.pprice wallet_exposure_limit entry_price inverse qty_step c_mult)
      let np := calc_new_psize_pprice lastRow.psize lastRow.pprice qty entry_price qty_step
      let nwe := qty_to_cost np.1 np.2 inverse c_mult / balance
      Except.ok ((grid ++ [GridRow.mk qty entry_price np.1 np.2 nwe]).filter (fun r => r.qty < 0))
  else
    Except.ok (grid.filter (fun r => r.qty < 0))

/-- Source `calc_whole_short_entry_grid`. -/
def calc_whole_short_entry_grid (balance initial_entry_price : ℚ) (inverse : Bool)
    (qty_step price_step min_qty min_cost c_mult grid_span wallet_exposure_limit : ℚ)
    (max_n_entry_orders : ℕ)
    (initial_qty_pct eprice_pprice_diff secondary_allocation secondary_pprice_diff
      eprice_exp_base : ℚ)
    (eprices : Option (List ℚ)) (prev_pprice : Option ℚ) : Except String (List GridRow) :=
  if secondary_allocation ≤ 1/20 then
    calc_whole_short_entry_grid_core balance initial_entry_price inverse qty_step price_step
      min_qty min_cost c_mult grid_span wallet_exposure_limit max_n_entry_orders
      initial_qty_pct eprice_pprice_diff 0 secondary_pprice_diff eprice_exp_base
      eprices prev_pprice
  else if 1 ≤ secondary_allocation then
    Except.error "secondary_allocation cannot be >= 1.0"
  else
    calc_whole_short_entry_grid_core balance initial_entry_price inverse qty_step price_step
      min_qty min_cost c_mult grid_span wallet_exposure_limit max_n_entry_orders
      initial_qty_pct eprice_pprice_diff secondary_allocation secondary_pprice_diff
      eprice_exp_base eprices prev_pprice

/-! ### Grid approximation for non-empty positions -/

/-- Index of the lexicographic minimum of a list (`sorted([(v, i)])[0]`):
returns `(min value, first index attaining it)`. -/
def argminIdx (l : List ℚ) : ℚ × ℕ :=
  match l.enum with
  | [] => (0, 0)
  | (i, x) :: xs =>
    xs.foldl (fun b y => if y.2 < b.1 ∨ (y.2 = b.1 ∧ y.1 < b.2) then (y.2, y.1) else b) (x, i)

/-- Scan of `approximate_long_grid`: first index whose cumulative size
exceeds the bound, capped at `len - 1`
(`while k < len(grid) - 1 and grid[k][2] <= psize * 0.99999: k += 1`). -/
def scanKAux (bound : ℚ) (n : ℕ) : List GridRow → ℕ → ℕ
  | [], k => k
  | r :: rest, k => if k < n - 1 ∧ r.psize ≤ bound then scanKAux bound n rest (k + 1) else k

/-- Long-side partial-fill scan. -/
def scanK (grid : List GridRow) (psize : ℚ) : ℕ :=
  scanKAux (psize * (99999/100000)) grid.length grid 0

/-- Short-side partial-fill scan (`abs(grid[k][2]) <= abs_psize * 0.99999`). -/
def scanKShortAux (bound : ℚ) (n : ℕ) : List GridRow → ℕ → ℕ
  | [], k => k
  | r :: rest, k => if k < n - 1 ∧ |r.psize| ≤ bound then scanKShortAux bound n rest (k + 1) else k

/-- Short-side partial-fill scan entry point. -/
def scanKShort (grid : List GridRow) (abs_psize : ℚ) : ℕ :=
  scanKShortAux (abs_psize * (99999/100000)) grid.length grid 0

/-- Inner `eval_` of `approximate_long_grid`: build the full ladder from a
rounded initial-price guess and locate the node closest to the position. -/
def along_eval (balance : ℚ) (inverse : Bool)
    (qty_step price_step min_qty min_cost c_mult grid_span wallet_exposure_limit : ℚ)
    (max_n_entry_orders : ℕ)
    (initial_qty_pct eprice_pprice_diff secondary_allocation secondary_pprice_diff
      eprice_exp_base : ℚ)
    (ientry_price_guess psize_ : ℚ) : Except String (List GridRow × ℚ × ℕ) := do
  let g := round_ ientry_price_guess price_step
  let grid ← calc_whole_long_entry_grid balance g inverse qty_step price_step min_qty min_cost
    c_mult grid_span wallet_exposure_limit max_n_entry_orders initial_qty_pct
    eprice_pprice_diff secondary_allocation secondary_pprice_diff eprice_exp_base none none
  match grid with
  | [] => Except.error "index error: empty grid"
  | _ =>
    let r := argminIdx (grid.map (fun r => |r.psize - psize_| / psize_))
    Except.ok (grid, r.1, r.2)

/-- Inner `eval_` of `approximate_short_grid`. -/
def ashort_eval (balance : ℚ) (inverse : Bool)
    (qty_step price_step min_qty min_cost c_mult grid_span wallet_exposure_limit : ℚ)
    (max_n_entry_orders : ℕ)
    (initial_qty_pct eprice_pprice_diff secondary_allocation secondary_pprice_diff
      eprice_exp_base : ℚ)
    (ientry_price_guess psize_ : ℚ) : Except String (List GridRow × ℚ × ℕ) := do
  let g := round_ ientry_price_guess price_step
  let grid ← calc_whole_short_entry_grid balance g inverse qty_step price_step min_qty min_cost
    c_mult grid_span wallet_exposure_limit max_n_entry_orders initial_qty_pct
    eprice_pprice_diff secondary_allocation secondary_pprice_diff eprice_exp_base none none
  match grid with
  | [] => Except.error "index error: empty grid"
  | _ =>
    let r := argminIdx (grid.map (fun r => abs (|r.psize| - |psize_|) / |psize_|))
    Except.ok (grid, r.1, r.2)

/-- Five-round partial-fill stabiliser of `approximate_long_grid`
(`for _ in range(5)`). -/
def along_loop (balance psize pprice : ℚ) (inverse : Bool)
    (qty_step price_step min_qty min_cost c_mult grid_span wallet_exposure_limit : ℚ)
    (max_n_entry_orders : ℕ)
    (initial_qty_pct eprice_pprice_diff secondary_allocation secondary_pprice_diff
      eprice_exp_base : ℚ) :
    ℕ → List GridRow → ℕ → Except String (List GridRow × ℕ)
  | 0, grid, k => Except.ok (grid, k)
  | fuel + 1, grid, k => do
    let rk := grid.getD k default
    let remaining_qty := round_ (rk.psize - psize) qty_step
    let np := calc_new_psize_pprice psize pprice remaining_qty rk.price qty_step
    let r1 ← along_eval balance inverse qty_step price_step min_qty min_cost c_mult grid_span
      wallet_exposure_limit max_n_entry_orders initial_qty_pct eprice_pprice_diff
      secondary_allocation secondary_pprice_diff eprice_exp_base np.2 np.1
    if r1.1.length ≤ k then
      along_loop balance psize pprice inverse qty_step price_step min_qty min_cost c_mult
        grid_span wallet_exposure_limit max_n_entry_orders initial_qty_pct eprice_pprice_diff
        secondary_allocation secondary_pprice_diff eprice_exp_base fuel r1.1 (r1.1.length - 1)
    else do
      let r2 ← along_eval balance inverse qty_step price_step min_qty min_cost c_mult grid_span
        wallet_exposure_limit max_n_entry_orders initial_qty_pct eprice_pprice_diff
        secondary_allocation secondary_pprice_diff eprice_exp_base
        (np.2 * (np.2 / (r1.1.getD k default).pprice)) np.1
      along_loop balance psize pprice inverse qty_step price_step min_qty min_cost c_mult
        grid_span wallet_exposure_limit max_n_entry_orders initial_qty_pct eprice_pprice_diff
        secondary_allocation secondary_pprice_diff eprice_exp_base fuel r2.1 (scanK r2.1 psize)

/-- Five-round partial-fill stabiliser of `approximate_short_grid`. -/
def ashort_loop (balance psize pprice : ℚ) (inverse : Bool)
    (qty_step price_step min_qty min_cost c_mult grid_span wallet_exposure_limit : ℚ)
    (max_n_entry_orders : ℕ)
    (initial_qty_pct eprice_pprice_diff secondary_allocation secondary_pprice_diff
      eprice_exp_base : ℚ) :
    ℕ → List GridRow → ℕ → Except String (List GridRow × ℕ)
  | 0, grid, k => Except.ok (grid, k)
  | fuel + 1, grid, k => do
    let rk := grid.getD k default
    let remaining_qty := round_ (rk.psize - psize) qty_step
    let np := calc_new_psize_pprice psize pprice remaining_qty rk.price qty_step
    let r1 ← ashort_eval balance inverse qty_step price_step min_qty min_cost c_mult grid_span
      wallet_exposure_limit max_n_entry_orders initial_qty_pct eprice_pprice_diff
      secondary_allocation secondary_pprice_diff eprice_exp_base np.2 np.1
    if r1.1.length ≤ k then
      ashort_loop balance psize pprice inverse qty_step price_step min_qty min_cost c_mult
        grid_span wallet_exposure_limit max_n_entry_orders initial_qty_pct eprice_pprice_diff
        secondary_allocation secondary_pprice_diff eprice_exp_base fuel r1.1 (r1.1.length - 1)
    else do
      let r2 ← ashort_eval balance inverse qty_step price_step min_qty min_cost c_mult grid_span
        wallet_exposure_limit max_n_entry_orders initial_qty_pct eprice_pprice_diff
        secondary_allocation secondary_pprice_diff eprice_exp_base
        (np.2 * (np.2 / (r1.1.getD k default).pprice)) np.1
      ashort_loop balance psize pprice inverse qty_step price_step min_qty min_cost c_mult
        grid_span wallet_exposure_limit max_n_entry_orders initial_qty_pct eprice_pprice_diff
        secondary_allocation secondary_pprice_diff eprice_exp_base fuel r2.1
        (scanKShort r2.1 |psize|)

/-- Source `approximate_long_grid`. -/
def approximate_long_grid (balance psize pprice : ℚ) (inverse : Bool)
    (qty_step price_step min_qty min_cost c_mult grid_span wallet_exposure_limit : ℚ)
    (max_n_entry_orders : ℕ)
    (initial_qty_pct eprice_pprice_diff secondary_allocation secondary_pprice_diff
      eprice_exp_base : ℚ) (crop : Bool) : Except String (List GridRow) := do
  if pprice = 0 then Except.error "cannot make grid without pprice"
  else if psize = 0 then
    calc_whole_long_entry_grid balance pprice inverse qty_step price_step min_qty min_cost
      c_mult grid_span wallet_exposure_limit max_n_entry_orders initial_qty_pct
      eprice_pprice_diff secondary_allocation secondary_pprice_diff eprice_exp_base none none
  else do
    let ra ← along_eval balance inverse qty_step price_step min_qty min_cost c_mult grid_span
      wallet_exposure_limit max_n_entry_orders initial_qty_pct eprice_pprice_diff
      secondary_allocation secondary_pprice_diff eprice_exp_base pprice psize
    let rb ← along_eval balance inverse qty_step price_step min_qty min_cost c_mult grid_span
      wallet_exposure_limit max_n_entry_orders initial_qty_pct eprice_pprice_diff
      secondary_allocation secondary_pprice_diff eprice_exp_base
      (pprice * (pprice / (ra.1.getD ra.2.2 default).pprice)) psize
    if rb.2.1 < 1/100 then do
      let rc ← along_eval balance inverse qty_step price_step min_qty min_cost c_mult grid_span
        wallet_exposure_limit max_n_entry_orders initial_qty_pct eprice_pprice_diff
        secondary_allocation secondary_pprice_diff eprice_exp_base
        ((rb.1.headD default).price * (pprice / (rb.1.getD rb.2.2 default).pprice)) psize
      Except.ok (if crop then rc.1.drop (rc.2.2 + 1) else rc.1)
    else
      let grid := rb.1
      let k := scanK grid psize
      if k = 0 then
        match grid with
        | [] => Except.error "index error: empty grid"
        | r0 :: rest =>
          let min_ientry_qty := calc_min_entry_qty r0.price inverse qty_step min_qty min_cost
          let q := max min_ientry_qty (round_ (r0.qty - psize) qty_step)
          let ps := round_ (psize + q) qty_step
          let we := qty_to_cost ps r0.pprice inverse c_mult / balance
          Except.ok ({ r0 with qty := q, psize := ps, we := we } :: rest)
      else if k = grid.length then
        Except.ok (if crop then [] else grid)
      else do
        let rl ← along_loop balance psize pprice inverse qty_step price_step min_qty min_cost
          c_mult grid_span wallet_exposure_limit max_n_entry_orders initial_qty_pct
          eprice_pprice_diff secondary_allocation secondary_pprice_diff eprice_exp_base
          5 grid k
        let grid2 := rl.1
        let k2 := rl.2
        let rk := grid2.getD k2 default
        let min_entry_qty := calc_min_entry_qty rk.price inverse qty_step min_qty min_cost
        let q := max min_entry_qty (round_ (rk.psize - psize) qty_step)
        let grid3 := grid2.set k2 { rk with qty := q }
        Except.ok (if crop then grid3.drop k2 else grid3)

/-- Source `approximate_short_grid`. -/
def approximate_short_grid (balance psize pprice : ℚ) (inverse : Bool)
    (qty_step price_step min_qty min_cost c_mult grid_span wallet_exposure_limit : ℚ)
    (max_n_entry_orders : ℕ)
    (initial_qty_pct eprice_pprice_diff secondary_allocation secondary_pprice_diff
      eprice_exp_base : ℚ) (crop : Bool) : Except String (List GridRow) := do
  let abs_psize := |psize|
  if pprice = 0 then Except.error "cannot make grid without pprice"
  else if psize = 0 then
    calc_whole_short_entry_grid balance pprice inverse qty_step price_step min_qty min_cost
      c_mult grid_span wallet_exposure_limit max_n_entry_orders initial_qty_pct
      eprice_pprice_diff secondary_allocation secondary_pprice_diff eprice_exp_base none none
  else do
    let ra ← ashort_eval balance inverse qty_step price_step min_qty min_cost c_mult grid_span
      wallet_exposure_limit max_n_entry_orders initial_qty_pct eprice_pprice_diff
      secondary_allocation secondary_pprice_diff eprice_exp_base pprice psize
    let rb ← ashort_eval balance inverse qty_step price_step min_qty min_cost c_mult grid_span
      wallet_exposure_limit max_n_entry_orders initial_qty_pct eprice_pprice_diff
      secondary_allocation secondary_pprice_diff eprice_exp_base
      (pprice * (pprice / (ra.1.getD ra.2.2 default).pprice)) psize
    if rb.2.1 < 1/100 then do
      let rc ← ashort_eval balance inverse qty_step price_step min_qty min_cost c_mult grid_span
        wallet_exposure_limit max_n_entry_orders initial_qty_pct eprice_pprice_diff
        secondary_allocation secondary_pprice_diff eprice_exp_base
        ((rb.1.headD default).price * (pprice / (rb.1.getD rb.2.2 default).pprice)) psize
      Except.ok (if crop then rc.1.drop (rc.2.2 + 1) else rc.1)
    else
      let grid := rb.1
      let k := scanKShort grid abs_psize
      if k = 0 then
        match grid with
        | [] => Except.error "index error: empty grid"
        | r0 :: rest =>
          let min_ientry_qty := calc_min_entry_qty r0.price inverse qty_step min_qty min_cost
          let q := -(max min_ientry_qty (round_ (|r0.qty| - abs_psize) qty_step))
          let ps := round_ (psize + q) qty_step
          let we := qty_to_cost ps r0.pprice inverse c_mult / balance
          Except.ok ({ r0 with qty := q, psize := ps, we := we } :: rest)
      else if k = grid.length then
        Except.ok (if crop then [] else grid)
      else do
        let rl ← ashort_loop balance psize pprice inverse qty_step price_step min_qty min_cost
          c_mult grid_span wallet_exposure_limit max_n_entry_orders initial_qty_pct
          eprice_pprice_diff secondary_allocation secondary_pprice_diff eprice_exp_base
          5 grid k
        let grid2 := rl.1
        let k2 := rl.2
        let rk := grid2.getD k2 default
        let min_entry_qty := calc_min_entry_qty rk.price inverse qty_step min_qty min_cost
        let q := -(max min_entry_qty (round_ (|rk.psize| - abs_psize) qty_step))
        let grid3 := grid2.set k2 { rk with qty := q }
        Except.ok (if crop then grid3.drop k2 else grid3)

/-! ### Runtime planners (§4.5) -/

/-- An order `(qty, price, tag)`. -/
structure Order where
  qty : ℚ
  price : ℚ
  tag : String
deriving DecidableEq, Inhabited

instance {α β : Type} [DecidableEq α] [DecidableEq β] : DecidableEq (Except α β) := fun a b =>
  match a, b with
  | Except.error x, Except.error y =>
    if h : x = y then Decidable.isTrue (by rw [h])
    else Decidable.isFalse (fun hc => h (Except.error.inj hc))
  | Except.ok x, Except.ok y =>
    if h : x = y then Decidable.isTrue (by rw [h])
    else Decidable.isFalse (fun hc => h (Except.ok.inj hc))
  | Except.error _, Except.ok _ => Decidable.isFalse (fun hc => Except.noConfusion hc)
  | Except.ok _, Except.error _ => Decidable.isFalse (fun hc => Except.noConfusion hc)

/-- Ladder loop of `calc_long_close_grid` over `close_prices[:-1]`
(`break` when the remaining size drops below the per-price minimum). -/
def lcg_ladder (inverse : Bool) (qty_step min_qty min_cost default_close_qty : ℚ) :
    List ℚ → ℚ → List Order → List Order × ℚ
  | [], psz, acc => (acc, psz)
  | price :: rest, psz, acc =>
    let mcq := calc_min_entry_qty price inverse qty_step min_qty min_cost
    if psz < mcq then (acc, psz)
    else
      let cq := min psz (max mcq default_close_qty)
      lcg_ladder inverse qty_step min_qty min_cost default_close_qty rest
        (round_ (psz - cq) qty_step) (acc ++ [Order.mk (-cq) price "long_nclose"])

/-- Auto-unstuck block of `calc_long_close_grid`: either returns the whole
position as one `long_unstuck_close` (`Sum.inl`), or the (possibly empty)
unstuck-close prefix together with the remaining rounded position size. -/
def lcg_unstuck (balance psize pprice lowest_ask ema_band_upper : ℚ) (inverse : Bool)
    (qty_step price_step min_qty min_cost c_mult exposure_limit : ℚ)
    (auto_unstuck_exposure_threshold auto_unstuck_ema_dist : ℚ) (head psize_ : ℚ) :
    List Order ⊕ (List Order × ℚ) :=
  let exposure := qty_to_cost psize pprice inverse c_mult / balance
  let threshold := exposure_limit * (1 - auto_unstuck_exposure_threshold)
  if auto_unstuck_exposure_threshold ≠ 0 ∧ threshold < exposure then
    let ucp := max lowest_ask
      (round_up (ema_band_upper * (1 + auto_unstuck_ema_dist)) price_step)
    if ucp < head then
      let ucq := find_long_close_qty_bringing_wallet_exposure_to_target balance psize_
        pprice (threshold * (101/100)) ucp inverse qty_step c_mult
      let meq := calc_min_entry_qty ucp inverse qty_step min_qty min_cost
      if meq ≤ ucq then
        let psize2 := round_ (psize_ - ucq) qty_step
        if psize2 < meq then
          Sum.inl [Order.mk (-(round_dn psize qty_step)) ucp "long_unstuck_close"]
        else Sum.inr ([Order.mk (-ucq) ucp "long_unstuck_close"], psize2)
      else Sum.inr ([], psize_)
    else Sum.inr ([], psize_)
  else Sum.inr ([], psize_)

/-- Source `calc_long_close_grid`. -/
def calc_long_close_grid (balance psize pprice lowest_ask ema_band_upper : ℚ) (inverse : Bool)
    (qty_step price_step min_qty min_cost c_mult exposure_limit min_markup markup_range : ℚ)
    (n_close_orders : ℕ) (auto_unstuck_exposure_threshold auto_unstuck_ema_dist : ℚ) :
    List Order :=
  if psize = 0 then [Order.mk 0 0 ""]
  else
    let minm := pprice * (1 + min_markup)
    let close_prices := ((linspace minm (pprice * (1 + min_markup + markup_range))
      n_close_orders).map (fun p => round_up p price_step)).filter (fun p => lowest_ask ≤ p)
    let psize_ := round_dn psize qty_step
    if close_prices = [] then [Order.mk (-psize) lowest_ask "long_nclose"]
    else
      let head := close_prices.headD 0
      match lcg_unstuck balance psize pprice lowest_ask ema_band_upper inverse qty_step
        price_step min_qty min_cost c_mult exposure_limit auto_unstuck_exposure_threshold
        auto_unstuck_ema_dist head psize_ with
      | Sum.inl ret => ret
      | Sum.inr cp =>
        if close_prices.length = 1 then
          if calc_min_entry_qty head inverse qty_step min_qty min_cost ≤ cp.2 then
            cp.1 ++ [Order.mk (-cp.2) head "long_nclose"]
          else cp.1
        else
          let default_close_qty := round_dn (cp.2 / close_prices.length) qty_step
          let r := lcg_ladder inverse qty_step min_qty min_cost default_close_qty
            close_prices.dropLast cp.2 cp.1
          let lastp := close_prices.getLast?.getD 0
          let mcq := calc_min_entry_qty lastp inverse qty_step min_qty min_cost
          if mcq ≤ r.2 then r.1 ++ [Order.mk (-r.2) lastp "long_nclose"]
          else
            match r.1.getLast? with
            | some lastc =>
              r.1.dropLast ++ [Order.mk (-(round_ (|lastc.qty| + r.2) qty_step))
                lastc.price lastc.tag]
            | none => r.1

/-- Ladder loop of `calc_short_close_grid` over all `close_prices` (the
adaptive enough-left guard breaks the loop). -/
def scg_ladder (balance : ℚ) (inverse : Bool)
    (qty_step c_mult wallet_exposure_limit initial_qty_pct min_close_qty default_qty : ℚ) :
    List ℚ → ℚ → List Order → List Order × ℚ
  | [], rem, acc => (acc, rem)
  | cp :: rest, rem, acc =>
    if rem < max (max min_close_qty
        (cost_to_qty balance cp inverse c_mult * wallet_exposure_limit * initial_qty_pct
          * (1/2))) (default_qty * (1/2)) then (acc, rem)
    else
      let cq := min rem (max default_qty min_close_qty)
      scg_ladder balance inverse qty_step c_mult wallet_exposure_limit initial_qty_pct
        min_close_qty default_qty rest (round_ (rem - cq) qty_step)
        (acc ++ [Order.mk cq cp "short_nclose"])

/-- Auto-unstuck block of `calc_short_close_grid`: the (possibly empty)
unstuck-close prefix together with the remaining absolute position size. -/
def scg_unstuck (balance short_psize short_pprice highest_bid ema_band_lower : ℚ)
    (inverse : Bool)
    (qty_step price_step min_qty min_cost c_mult wallet_exposure_limit : ℚ)
    (auto_unstuck_wallet_exposure_threshold auto_unstuck_ema_dist : ℚ)
    (p0 abs_short_psize : ℚ) : List Order × ℚ :=
  let wallet_exposure := qty_to_cost short_psize short_pprice inverse c_mult / balance
  let threshold := wallet_exposure_limit * (1 - auto_unstuck_wallet_exposure_threshold)
  if auto_unstuck_wallet_exposure_threshold ≠ 0 ∧ threshold < wallet_exposure then
    let aup := min highest_bid
      (round_dn (ema_band_lower * (1 - auto_unstuck_ema_dist)) price_step)
    if p0 < aup then
      let auq := find_short_close_qty_bringing_wallet_exposure_to_target balance
        short_psize short_pprice (threshold * (101/100)) aup inverse qty_step c_mult
      if calc_min_entry_qty aup inverse qty_step min_qty min_cost ≤ auq then
        ([Order.mk auq aup "short_unstuck_close"],
          max 0 (round_ (abs_short_psize - auq) qty_step))
      else ([], abs_short_psize)
    else ([], abs_short_psize)
  else ([], abs_short_psize)

/-- Source `calc_short_close_grid`. -/
def calc_short_close_grid (balance short_psize short_pprice highest_bid ema_band_lower : ℚ)
    (spot inverse : Bool)
    (qty_step price_step min_qty min_cost c_mult wallet_exposure_limit initial_qty_pct
      min_markup markup_range : ℚ) (n_close_orders : ℕ)
    (auto_unstuck_wallet_exposure_threshold auto_unstuck_ema_dist : ℚ) : List Order :=
  if short_psize = 0 then [Order.mk 0 0 ""]
  else
    let minm := short_pprice * (1 - min_markup)
    let abs_short_psize := |short_psize|
    if spot ∧ round_dn abs_short_psize qty_step
        < calc_min_entry_qty minm inverse qty_step min_qty min_cost then [Order.mk 0 0 ""]
    else if abs_short_psize < cost_to_qty balance short_pprice inverse c_mult
        * wallet_exposure_limit * initial_qty_pct * (1/2) then
      let breakeven_markup : ℚ := if spot then 21/10000 else 41/100000
      let close_price := min highest_bid
        (round_dn (short_pprice * (1 - breakeven_markup)) price_step)
      [Order.mk (round_ abs_short_psize qty_step) close_price "short_nclose"]
    else
      let close_prices := ((linspace minm (short_pprice * (1 - min_markup - markup_range))
        n_close_orders).map (fun p => round_dn p price_step)).filter (fun p => p ≤ highest_bid)
      match close_prices with
      | [] => [Order.mk (round_ abs_short_psize qty_step) highest_bid "short_nclose"]
      | [p] => [Order.mk (round_ abs_short_psize qty_step) p "short_nclose"]
      | p0 :: _ :: _ =>
        let ur := scg_unstuck balance short_psize short_pprice highest_bid ema_band_lower
          inverse qty_step price_step min_qty min_cost c_mult wallet_exposure_limit
          auto_unstuck_wallet_exposure_threshold auto_unstuck_ema_dist p0 abs_short_psize
        let closes0 := ur.1
        let abs_psize1 := ur.2
        let min_close_qty := calc_min_entry_qty p0 inverse qty_step min_qty min_cost
        let default_qty0 := round_dn (abs_psize1 / close_prices.length) qty_step
        if default_qty0 = 0 then [Order.mk (round_ abs_psize1 qty_step) p0 "short_nclose"]
        else
          let default_qty := max min_close_qty default_qty0
          let r := scg_ladder balance inverse qty_step c_mult wallet_exposure_limit
            initial_qty_pct min_close_qty default_qty close_prices
            (round_ abs_psize1 qty_step) closes0
          if r.2 = 0 then r.1
          else
            match r.1.getLast? with
            | some lastc =>
              r.1.dropLast ++ [Order.mk (round_ (lastc.qty + r.2) qty_step)
                lastc.price lastc.tag]
            | none => [Order.mk abs_psize1 p0 "short_nclose"]

/-- Ladder walk of `calc_long_entry_grid` step 6: skip stale nodes, stop past
the exposure limit, cap at `highest_bid`, deduplicate consecutive same-price
nodes, tag the terminal grid node as secondary re-entry when applicable. -/
def long_grid_walk (highest_bid pprice psize wallet_exposure_limit secondary_allocation : ℚ)
    (inverse : Bool) (qty_step min_qty min_cost : ℚ) (n : ℕ) :
    ℕ → List GridRow → List Order → List Order
  | _, [], acc => acc
  | i, r :: rest, acc =>
    if r.psize < psize * (21/20) ∨ pprice * (9995/10000) < r.price then
      long_grid_walk highest_bid pprice psize wallet_exposure_limit secondary_allocation
        inverse qty_step min_qty min_cost n (i + 1) rest acc
    else if wallet_exposure_limit * (101/100) < r.we then acc
    else
      let ep := min highest_bid r.price
      let meq := calc_min_entry_qty ep inverse qty_step min_qty min_cost
      let q := max meq r.qty
      let comment := if i = n - 1 ∧ 1/20 < secondary_allocation then "long_secondary_rentry"
        else "long_primary_rentry"
      let acc' := match acc.getLast? with
        | none => acc ++ [Order.mk q ep comment]
        | some lastO => if lastO.price ≠ ep then acc ++ [Order.mk q ep comment] else acc
      long_grid_walk highest_bid pprice psize wallet_exposure_limit secondary_allocation
        inverse qty_step min_qty min_cost n (i + 1) rest acc'

/-- Ladder walk of `calc_short_entry_grid` (no exposure-limit break on the
short side, mirroring the source). -/
def short_grid_walk (lowest_ask pprice psize wallet_exposure_limit secondary_allocation : ℚ)
    (inverse : Bool) (qty_step min_qty min_cost : ℚ) (n : ℕ) :
    ℕ → List GridRow → List Order → List Order
  | _, [], acc => acc
  | i, r :: rest, acc =>
    if psize * (21/20) < r.psize ∨ r.price < pprice * (9995/10000) then
      short_grid_walk lowest_ask pprice psize wallet_exposure_limit secondary_allocation
        inverse qty_step min_qty min_cost n (i + 1) rest acc
    else
      let ep := max lowest_ask r.price
      let meq := calc_min_entry_qty ep inverse qty_step min_qty min_cost
      let q := -(max meq |r.qty|)
      let comment := if i = n - 1 ∧ 1/20 < secondary_allocation then "short_secondary_rentry"
        else "short_primary_rentry"
      let acc' := match acc.getLast? with
        | none => acc ++ [Order.mk q ep comment]
        | some lastO => if lastO.price ≠ ep then acc ++ [Order.mk q ep comment] else acc
      short_grid_walk lowest_ask pprice psize wallet_exposure_limit secondary_allocation
        inverse qty_step min_qty min_cost n (i + 1) rest acc'

/-- Source `calc_long_entry_grid`. -/
def calc_long_entry_grid (balance psize pprice highest_bid ema_band_lower : ℚ)
    (inverse do_long : Bool)
    (qty_step price_step min_qty min_cost c_mult grid_span wallet_exposure_limit : ℚ)
    (max_n_entry_orders : ℕ)
    (initial_qty_pct initial_eprice_ema_dist eprice_pprice_diff secondary_allocation
      secondary_pprice_diff eprice_exp_base auto_unstuck_wallet_exposure_threshold
      auto_unstuck_ema_dist : ℚ) : Except String (List Order) :=
  let min_entry_qty := calc_min_entry_qty highest_bid inverse qty_step min_qty min_cost
  if do_long ∨ min_entry_qty < psize then
    if psize = 0 then
      let entry_price := min highest_bid
        (round_dn (ema_band_lower * (1 - initial_eprice_ema_dist)) price_step)
      let entry_qty := calc_initial_entry_qty balance entry_price inverse qty_step min_qty
        min_cost c_mult wallet_exposure_limit initial_qty_pct
      Except.ok [Order.mk entry_qty entry_price "long_ientry"]
    else
      let wallet_exposure := qty_to_cost psize pprice inverse c_mult / balance
      if wallet_exposure_limit ≤ wallet_exposure then Except.ok [Order.mk 0 0 ""]
      else if auto_unstuck_wallet_exposure_threshold ≠ 0 ∧
          wallet_exposure_limit * (1 - auto_unstuck_wallet_exposure_threshold) * (99/100)
            < wallet_exposure then
        let aep := min highest_bid
          (round_dn (ema_band_lower * (1 - auto_unstuck_ema_dist)) price_step)
        let auq := find_entry_qty_bringing_wallet_exposure_to_target balance psize pprice
          wallet_exposure_limit aep inverse qty_step c_mult
        Except.ok [Order.mk auq aep "long_unstuck_entry"]
      else
        match approximate_long_grid balance psize pprice inverse qty_step price_step min_qty
          min_cost c_mult grid_span wallet_exposure_limit max_n_entry_orders initial_qty_pct
          eprice_pprice_diff secondary_allocation secondary_pprice_diff eprice_exp_base
          true with
        | Except.error e => Except.error e
        | Except.ok [] => Except.ok [Order.mk 0 0 ""]
        | Except.ok (r0 :: rest) =>
          if calc_diff r0.pprice r0.price < 1/100000 then
            let entry_price := min highest_bid
              (round_dn (ema_band_lower * (1 - initial_eprice_ema_dist)) price_step)
            let meq := calc_min_entry_qty entry_price inverse qty_step min_qty min_cost
            let max_entry_qty := round_ (cost_to_qty (balance * wallet_exposure_limit
              * initial_qty_pct) entry_price inverse c_mult) qty_step
            let entry_qty := max meq (min max_entry_qty r0.qty)
            Except.ok [Order.mk entry_qty entry_price "long_ientry"]
          else
            let entries := long_grid_walk highest_bid pprice psize wallet_exposure_limit
              secondary_allocation inverse qty_step min_qty min_cost (r0 :: rest).length 0
              (r0 :: rest) []
            Except.ok (if entries = [] then [Order.mk 0 0 ""] else entries)
  else Except.ok [Order.mk 0 0 ""]

/-- Source `calc_short_entry_grid`. -/
def calc_short_entry_grid (balance psize pprice lowest_ask ema_band_upper : ℚ)
    (inverse do_short : Bool)
    (qty_step price_step min_qty min_cost c_mult grid_span wallet_exposure_limit : ℚ)
    (max_n_entry_orders : ℕ)
    (initial_qty_pct initial_eprice_ema_dist eprice_pprice_diff secondary_allocation
      secondary_pprice_diff eprice_exp_base auto_unstuck_wallet_exposure_threshold
      auto_unstuck_ema_dist : ℚ) : Except String (List Order) :=
  let min_entry_qty := calc_min_entry_qty lowest_ask inverse qty_step min_qty min_cost
  let abs_psize := |psize|
  if do_short ∨ min_entry_qty < abs_psize then
    if psize = 0 then
      let entry_price := max lowest_ask
        (round_up (ema_band_upper * (1 + initial_eprice_ema_dist)) price_step)
      let entry_qty := calc_initial_entry_qty balance entry_price inverse qty_step min_qty
        min_cost c_mult wallet_exposure_limit initial_qty_pct
      Except.ok [Order.mk (-entry_qty) entry_price "short_ientry"]
    else
      let wallet_exposure := qty_to_cost psize pprice inverse c_mult / balance
      if wallet_exposure_limit ≤ wallet_exposure then Except.ok [Order.mk 0 0 ""]
      else if auto_unstuck_wallet_exposure_threshold ≠ 0 ∧
          wallet_exposure_limit * (1 - auto_unstuck_wallet_exposure_threshold) * (99/100)
            < wallet_exposure then
        let aep := max lowest_ask
          (round_up (ema_band_upper * (1 + auto_unstuck_ema_dist)) price_step)
        let auq := find_entry_qty_bringing_wallet_exposure_to_target balance psize pprice
          wallet_exposure_limit aep inverse qty_step c_mult
        Except.ok [Order.mk (-auq) aep "short_unstuck_entry"]
      else
        match approximate_short_grid balance psize pprice inverse qty_step price_step min_qty
          min_cost c_mult grid_span wallet_exposure_limit max_n_entry_orders initial_qty_pct
          eprice_pprice_diff secondary_allocation secondary_pprice_diff eprice_exp_base
          true with
        | Except.error e => Except.error e
        | Except.ok [] => Except.ok [Order.mk 0 0 ""]
        | Except.ok (r0 :: rest) =>
          if calc_diff r0.pprice r0.price < 1/100000 then
            let entry_price := max lowest_ask
              (round_up (ema_band_upper * (1 + initial_eprice_ema_dist)) price_step)
            let meq := calc_min_entry_qty entry_price inverse qty_step min_qty min_cost
            let max_entry_qty := round_ (cost_to_qty (balance * wallet_exposure_limit
              * initial_qty_pct) entry_price inverse c_mult) qty_step
            let entry_qty := -(max meq (min max_entry_qty |r0.qty|))
            Except.ok [Order.mk entry_qty entry_price "short_ientry"]
          else
            let entries := short_grid_walk lowest_ask pprice psize wallet_exposure_limit
              secondary_allocation inverse qty_step min_qty min_cost (r0 :: rest).length 0
              (r0 :: rest) []
            Except.ok (if entries = [] then [Order.mk 0 0 ""] else entries)
  else Except.ok [Order.mk 0 0 ""]

/-! ### The tick simulator `njit_backtest` -/

/-- Source `calc_ema`. -/
def calc_ema (alpha alpha_ prev_ema new_val : ℚ) : ℚ := prev_ema * alpha_ + new_val * alpha

/-- Componentwise `calc_ema` on the three-span EMA vector. -/
def calc_ema3 (al al_ e : ℚ × ℚ × ℚ) (x : ℚ) : ℚ × ℚ × ℚ :=
  (calc_ema al.1 al_.1 e.1 x, calc_ema al.2.1 al_.2.1 e.2.1 x,
    calc_ema al.2.2 al_.2.2 e.2.2 x)

/-- `2.0 / (spans + 1.0)` componentwise. -/
def alphas3 (spans : ℚ × ℚ × ℚ) : ℚ × ℚ × ℚ :=
  (2 / (spans.1 + 1), 2 / (spans.2.1 + 1), 2 / (spans.2.2 + 1))

/-- `1.0 - alphas` componentwise. -/
def alphas3_ (spans : ℚ × ℚ × ℚ) : ℚ × ℚ × ℚ :=
  (1 - 2 / (spans.1 + 1), 1 - 2 / (spans.2.1 + 1), 1 - 2 / (spans.2.2 + 1))

/-- `min` of the three-span EMA vector (`min(emas)`). -/
def min3 (e : ℚ × ℚ × ℚ) : ℚ := min e.1 (min e.2.1 e.2.2)

/-- `max` of the three-span EMA vector (`max(emas)`). -/
def max3 (e : ℚ × ℚ × ℚ) : ℚ := max e.1 (max e.2.1 e.2.2)

/-- Source `calc_emas_last` on a three-span vector: seed with `xs[0]`, fold
`calc_ema` over the remaining samples. -/
def calc_emas_last3 (xs : List ℚ) (spans : ℚ × ℚ × ℚ) : ℚ × ℚ × ℚ :=
  match xs with
  | [] => (0, 0, 0)
  | x :: rest => rest.foldl (fun e y => calc_ema3 (alphas3 spans) (alphas3_ spans) e y)
      (x, x, x)

/-- Rational square root through `Nat.sqrt` on numerator and denominator:
exact whenever both are perfect squares, which holds for every span product
used in the concrete runs below (the source takes a float `** 0.5`). -/
def qsqrt (x : ℚ) : ℚ := (Nat.sqrt x.num.toNat : ℚ) / (Nat.sqrt x.den : ℚ)

/-- One fill record of `njit_backtest`
`(k, timestamp, pnl, fee_paid, balance, equity, qty, price, psize, pprice, type)`. -/
structure Fill where
  k : ℕ
  ts : ℚ
  pnl : ℚ
  fee : ℚ
  balance : ℚ
  equity : ℚ
  qty : ℚ
  price : ℚ
  psize : ℚ
  pprice : ℚ
  tag : String
deriving DecidableEq, Inhabited

/-- One stats record of `njit_backtest` (14 fields). -/
structure Stats where
  ts : ℚ
  balance : ℚ
  equity : ℚ
  bkr_price : ℚ
  long_psize : ℚ
  long_pprice : ℚ
  short_psize : ℚ
  short_pprice : ℚ
  price : ℚ
  closest_bkr : ℚ
  balance_long : ℚ
  balance_short : ℚ
  equity_long : ℚ
  equity_short : ℚ
deriving DecidableEq, Inhabited

/-- Static parameters of `njit_backtest`; per-side parameter arrays are pairs
`(long, short)`. -/
structure BTParams where
  starting_balance : ℚ
  latency_simulation_ms : ℚ
  maker_fee : ℚ
  spot : Bool
  hedge_mode : Bool
  inverse : Bool
  do_long : Bool
  do_short : Bool
  qty_step : ℚ
  price_step : ℚ
  min_qty : ℚ
  min_cost : ℚ
  c_mult : ℚ
  ema_span_max : ℚ × ℚ
  ema_span_min : ℚ × ℚ
  eprice_exp_base : ℚ × ℚ
  eprice_pprice_diff : ℚ × ℚ
  grid_span : ℚ × ℚ
  initial_eprice_ema_dist : ℚ × ℚ
  initial_qty_pct : ℚ × ℚ
  markup_range : ℚ × ℚ
  max_n_entry_orders : ℕ × ℕ
  min_markup : ℚ × ℚ
  n_close_orders : ℕ × ℕ
  wallet_exposure_limit : ℚ × ℚ
  secondary_allocation : ℚ × ℚ
  secondary_pprice_diff : ℚ × ℚ
  auto_unstuck_ema_dist : ℚ × ℚ
  auto_unstuck_wallet_exposure_threshold : ℚ × ℚ
deriving DecidableEq

/-- The mutable state of the `njit_backtest` main loop. -/
structure BState where
  balance : ℚ
  balance_long : ℚ
  balance_short : ℚ
  equity : ℚ
  long_psize : ℚ
  long_pprice : ℚ
  short_psize : ℚ
  short_pprice : ℚ
  fills : List Fill
  stats : List Stats
  long_entries : List Order
  long_closes : List Order
  short_entries : List Order
  short_closes : List Order
  bkr_price : ℚ
  next_entry_ts_long : ℚ
  next_entry_ts_short : ℚ
  next_close_ts_long : ℚ
  next_close_ts_short : ℚ
  next_stats_update : ℚ
  closest_bkr : ℚ
  emas_long : ℚ × ℚ × ℚ
  emas_short : ℚ × ℚ × ℚ
  long_wallet_exposure : ℚ
  short_wallet_exposure : ℚ
deriving DecidableEq

/-- EMA refresh at the head of each loop iteration. -/
def ema_step (p : BTParams) (alL al_L alS al_S : ℚ × ℚ × ℚ) (st : BState) (price : ℚ) :
    BState :=
  let st1 := if p.do_long then { st with emas_long := calc_ema3 alL al_L st.emas_long price }
    else st
  if p.do_short then { st1 with emas_short := calc_ema3 alS al_S st1.emas_short price }
  else st1

/-- Stats block: when the stats timer has expired, recompute equity; if
`equity / starting_balance < 0.2` signal early termination (returning `true`)
WITHOUT appending; otherwise append the 14-field record and re-arm the timer. -/
def stats_step (p : BTParams) (st : BState) (ts price : ℚ) : Bool × BState :=
  if st.next_stats_update ≤ ts then
    let equity := st.balance + calc_upnl st.long_psize st.long_pprice st.short_psize
      st.short_pprice price p.inverse p.c_mult
    let equity_long := st.balance_long + calc_long_pnl st.long_pprice price st.long_psize
      p.inverse p.c_mult
    let equity_short := st.balance_short + calc_short_pnl st.short_pprice price
      st.short_psize p.inverse p.c_mult
    if equity / p.starting_balance < 1/5 then (true, { st with equity := equity })
    else (false,
      { st with
        equity := equity
        stats := st.stats ++ [Stats.mk ts st.balance equity st.bkr_price st.long_psize
          st.long_pprice st.short_psize st.short_pprice price st.closest_bkr
          st.balance_long st.balance_short equity_long equity_short]
        next_stats_update := ts + 60 * 1000 })
  else (false, st)

/-- Grid-refresh block: the four planner refreshes, each re-armed ten minutes
ahead; a disabled side gets the single empty order. -/
def grids_step (p : BTParams) (ts prev_price : ℚ) (st : BState) : Except String BState := do
  let st ←
    if st.next_entry_ts_long ≤ ts then do
      let le ←
        if p.do_long then
          calc_long_entry_grid st.balance st.long_psize st.long_pprice prev_price
            (min3 st.emas_long) p.inverse p.do_long p.qty_step p.price_step p.min_qty
            p.min_cost p.c_mult p.grid_span.1 p.wallet_exposure_limit.1
            p.max_n_entry_orders.1 p.initial_qty_pct.1 p.initial_eprice_ema_dist.1
            p.eprice_pprice_diff.1 p.secondary_allocation.1 p.secondary_pprice_diff.1
            p.eprice_exp_base.1 p.auto_unstuck_wallet_exposure_threshold.1
            p.auto_unstuck_ema_dist.1
        else Except.ok [Order.mk 0 0 ""]
      Except.ok { st with long_entries := le, next_entry_ts_long := ts + 1000 * 60 * 10 }
    else Except.ok st
  let st ←
    if st.next_entry_ts_short ≤ ts then do
      let se ←
        if p.do_short then
          calc_short_entry_grid st.balance st.short_psize st.short_pprice prev_price
            (max3 st.emas_short) p.inverse p.do_short p.qty_step p.price_step p.min_qty
            p.min_cost p.c_mult p.grid_span.2 p.wallet_exposure_limit.2
            p.max_n_entry_orders.2 p.initial_qty_pct.2 p.initial_eprice_ema_dist.2
            p.eprice_pprice_diff.2 p.secondary_allocation.2 p.secondary_pprice_diff.2
            p.eprice_exp_base.2 p.auto_unstuck_wallet_exposure_threshold.2
            p.auto_unstuck_ema_dist.2
        else Except.ok [Order.mk 0 0 ""]
      Except.ok { st with short_entries := se, next_entry_ts_short := ts + 1000 * 60 * 10 }
    else Except.ok st
  let st :=
    if st.next_close_ts_long ≤ ts then
      let lc :=
        if p.do_long then
          calc_long_close_grid st.balance st.long_psize st.long_pprice prev_price
            (max3 st.emas_long) p.inverse p.qty_step p.price_step p.min_qty p.min_cost
            p.c_mult p.wallet_exposure_limit.1 p.min_markup.1 p.markup_range.1
            p.n_close_orders.1 p.auto_unstuck_wallet_exposure_threshold.1
            p.auto_unstuck_ema_dist.1
        else [Order.mk 0 0 ""]
      { st with long_closes := lc, next_close_ts_long := ts + 1000 * 60 * 10 }
    else st
  let st :=
    if st.next_close_ts_short ≤ ts then
      let sc :=
        if p.do_short then
          calc_short_close_grid st.balance st.short_psize st.short_pprice prev_price
            (min3 st.emas_short) p.spot p.inverse p.qty_step p.price_step p.min_qty
            p.min_cost p.c_mult p.wallet_exposure_limit.2 p.initial_qty_pct.2
            p.min_markup.2 p.markup_range.2 p.n_close_orders.2
            p.auto_unstuck_wallet_exposure_threshold.2 p.auto_unstuck_ema_dist.2
        else [Order.mk 0 0 ""]
      { st with short_closes := sc, next_close_ts_short := ts + 1000 * 60 * 10 }
    else st
  Except.ok st

/-- Liquidation block: for each side with a non-zero position, zero balance,
equity and the position pair, then append a `*_bankruptcy` fill whose qty field
is the already-zeroed `-psize` while pnl and fee come from the pre-wipe
position. -/
def liq_wipe (p : BTParams) (k : ℕ) (ts price : ℚ) (st : BState) : BState :=
  let st1 :=
    if st.long_psize ≠ 0 then
      let fee_paid := -(qty_to_cost st.long_psize st.long_pprice p.inverse p.c_mult)
        * p.maker_fee
      let pnl := calc_long_pnl st.long_pprice price (-st.long_psize) p.inverse p.c_mult
      let long_psize2 : ℚ := 0
      { st with
        balance := 0
        equity := 0
        long_psize := long_psize2
        long_pprice := 0
        fills := st.fills ++ [Fill.mk k ts pnl fee_paid 0 0 (-long_psize2) price 0 0
          "long_bankruptcy"] }
    else st
  if st1.short_psize ≠ 0 then
    let fee_paid := -(qty_to_cost st1.short_psize st1.short_pprice p.inverse p.c_mult)
      * p.maker_fee
    let pnl := calc_short_pnl st1.short_pprice price (-st1.short_psize) p.inverse p.c_mult
    let short_psize2 : ℚ := 0
    { st1 with
      balance := 0
      equity := 0
      short_psize := short_psize2
      short_pprice := 0
      fills := st1.fills ++ [Fill.mk k ts pnl fee_paid 0 0 (-short_psize2) price 0 0
        "short_bankruptcy"] }
  else st1

/-- Long-entry fill sweep (`while long_entries and long_entries[0][0] > 0.0 and
prices[k] < long_entries[0][1]`). -/
def long_entry_sweep (p : BTParams) (k : ℕ) (ts price : ℚ) :
    List Order → BState → BState
  | [], st => { st with long_entries := [] }
  | e :: rest, st =>
    if 0 < e.qty ∧ price < e.price then
      let pp := calc_new_psize_pprice st.long_psize st.long_pprice e.qty e.price p.qty_step
      let fee_paid := -(qty_to_cost e.qty e.price p.inverse p.c_mult) * p.maker_fee
      let balance := st.balance + fee_paid
      let equity := calc_equity balance pp.1 pp.2 st.short_psize st.short_pprice price
        p.inverse p.c_mult
      long_entry_sweep p k ts price rest
        { st with
          next_entry_ts_long := min st.next_entry_ts_long (ts + p.latency_simulation_ms)
          next_close_ts_long := min st.next_close_ts_long (ts + p.latency_simulation_ms)
          long_psize := pp.1
          long_pprice := pp.2
          balance := balance
          balance_long := st.balance_long + fee_paid
          equity := equity
          fills := st.fills ++ [Fill.mk k ts 0 fee_paid balance equity e.qty e.price
            pp.1 pp.2 e.tag]
          bkr_price := calc_bankruptcy_price balance pp.1 pp.2 st.short_psize
            st.short_pprice p.inverse p.c_mult
          long_wallet_exposure := qty_to_cost pp.1 pp.2 p.inverse p.c_mult / balance }
    else { st with long_entries := e :: rest }

/-- Short-entry fill sweep.  NOTE: the source passes the short position pair in
BOTH the long and the short slots of `calc_equity` and
`calc_bankruptcy_price`. -/
def short_entry_sweep (p : BTParams) (k : ℕ) (ts price : ℚ) :
    List Order → BState → BState
  | [], st => { st with short_entries := [] }
  | e :: rest, st =>
    if e.qty < 0 ∧ e.price < price then
      let pp := calc_new_psize_pprice st.short_psize st.short_pprice e.qty e.price
        p.qty_step
      let fee_paid := -(qty_to_cost e.qty e.price p.inverse p.c_mult) * p.maker_fee
      let balance := st.balance + fee_paid
      let equity := calc_equity balance pp.1 pp.2 pp.1 pp.2 price p.inverse p.c_mult
      short_entry_sweep p k ts price rest
        { st with
          next_entry_ts_short := min st.next_entry_ts_short (ts + p.latency_simulation_ms)
          next_close_ts_short := min st.next_close_ts_short (ts + p.latency_simulation_ms)
          short_psize := pp.1
          short_pprice := pp.2
          balance := balance
          balance_short := st.balance_short + fee_paid
          equity := equity
          fills := st.fills ++ [Fill.mk k ts 0 fee_paid balance equity e.qty e.price
            pp.1 pp.2 e.tag]
          bkr_price := calc_bankruptcy_price balance pp.1 pp.2 pp.1 pp.2 p.inverse
            p.c_mult
          short_wallet_exposure := qty_to_cost pp.1 pp.2 p.inverse p.c_mult / balance }
    else { st with short_entries := e :: rest }

/-- Long-close fill sweep, with the overshoot clamp that zeroes the pair (and
feeds the zeroed `pprice` into the PnL) when the close quantity exceeds the
position. -/
def long_close_sweep (p : BTParams) (k : ℕ) (ts price : ℚ) :
    List Order → BState → BState
  | [], st => { st with long_closes := [] }
  | c :: rest, st =>
    if 0 < st.long_psize ∧ c.qty < 0 ∧ c.price < price then
      let np0 := round_ (st.long_psize + c.qty) p.qty_step
      let cq := if np0 < 0 then -st.long_psize else c.qty
      let npsize := if np0 < 0 then 0 else np0
      let npprice := if np0 < 0 then 0 else st.long_pprice
      let fee_paid := -(qty_to_cost cq c.price p.inverse p.c_mult) * p.maker_fee
      let pnl := calc_long_pnl npprice c.price cq p.inverse p.c_mult
      let balance := st.balance + fee_paid + pnl
      let equity := calc_equity balance npsize npprice st.short_psize st.short_pprice
        price p.inverse p.c_mult
      long_close_sweep p k ts price rest
        { st with
          next_entry_ts_long := min st.next_entry_ts_long (ts + p.latency_simulation_ms)
          next_close_ts_long := min st.next_close_ts_long (ts + p.latency_simulation_ms)
          long_psize := npsize
          long_pprice := npprice
          balance := balance
          balance_long := st.balance_long + fee_paid + pnl
          equity := equity
          fills := st.fills ++ [Fill.mk k ts pnl fee_paid balance equity cq c.price
            npsize npprice c.tag]
          bkr_price := calc_bankruptcy_price balance npsize npprice st.short_psize
            st.short_pprice p.inverse p.c_mult
          long_wallet_exposure := qty_to_cost npsize npprice p.inverse p.c_mult
            / balance }
    else { st with long_closes := c :: rest }

/-- Short-close fill sweep; like the short-entry sweep it passes the short pair
in both slots of `calc_equity` and `calc_bankruptcy_price`. -/
def short_close_sweep (p : BTParams) (k : ℕ) (ts price : ℚ) :
    List Order → BState → BState
  | [], st => { st with short_closes := [] }
  | c :: rest, st =>
    if st.short_psize < 0 ∧ 0 < c.qty ∧ price < c.price then
      let np0 := round_ (st.short_psize + c.qty) p.qty_step
      let cq := if 0 < np0 then -st.short_psize else c.qty
      let npsize := if 0 < np0 then 0 else np0
      let npprice := if 0 < np0 then 0 else st.short_pprice
      let fee_paid := -(qty_to_cost cq c.price p.inverse p.c_mult) * p.maker_fee
      let pnl := calc_short_pnl npprice c.price cq p.inverse p.c_mult
      let balance := st.balance + fee_paid + pnl
      let equity := calc_equity balance npsize npprice npsize npprice price p.inverse
        p.c_mult
      short_close_sweep p k ts price rest
        { st with
          next_entry_ts_short := min st.next_entry_ts_short (ts + p.latency_simulation_ms)
          next_close_ts_short := min st.next_close_ts_short (ts + p.latency_simulation_ms)
          short_psize := npsize
          short_pprice := npprice
          balance := balance
          balance_short := st.balance_short + fee_paid + pnl
          equity := equity
          fills := st.fills ++ [Fill.mk k ts pnl fee_paid balance equity cq c.price
            npsize npprice c.tag]
          bkr_price := calc_bankruptcy_price balance npsize npprice npsize npprice
            p.inverse p.c_mult
          short_wallet_exposure := qty_to_cost npsize npprice p.inverse p.c_mult
            / balance }
    else { st with short_closes := c :: rest }

/-- End-of-iteration latency re-arm block. -/
def adaptive_step (p : BTParams) (ts price : ℚ) (st : BState) : BState :=
  let lth := if p.auto_unstuck_wallet_exposure_threshold.1 ≠ 0 then
      p.wallet_exposure_limit.1 * (1 - p.auto_unstuck_wallet_exposure_threshold.1)
    else p.wallet_exposure_limit.1 * 10
  let sth := if p.auto_unstuck_wallet_exposure_threshold.2 ≠ 0 then
      p.wallet_exposure_limit.2 * (1 - p.auto_unstuck_wallet_exposure_threshold.2)
    else p.wallet_exposure_limit.2 * 10
  let st1 :=
    if p.do_long then
      if st.long_psize = 0 then
        { st with next_entry_ts_long := min st.next_entry_ts_long (ts + p.latency_simulation_ms) }
      else if st.long_pprice < price then
        { st with next_close_ts_long := min st.next_close_ts_long (ts + p.latency_simulation_ms + 2500) }
      else if lth ≤ st.long_wallet_exposure then
        { st with
          next_close_ts_long := min st.next_close_ts_long (ts + p.latency_simulation_ms + 15000)
          next_entry_ts_long := min st.next_entry_ts_long (ts + p.latency_simulation_ms + 15000) }
      else st
    else st
  if p.do_short then
    if st1.short_psize = 0 then
      { st1 with next_entry_ts_short := min st1.next_entry_ts_short (ts + p.latency_simulation_ms) }
    else if price < st1.short_pprice then
      { st1 with next_close_ts_short := min st1.next_close_ts_short (ts + p.latency_simulation_ms + 2500) }
    else if sth ≤ st1.short_wallet_exposure then
      { st1 with
        next_close_ts_short := min st1.next_close_ts_short (ts + p.latency_simulation_ms + 15000)
        next_entry_ts_short := min st1.next_entry_ts_short (ts + p.latency_simulation_ms + 15000) }
    else st1
  else st1

/-- Outcome of one loop iteration: either the loop continues with the new
state, or the function returns `(fills, stats)`. -/
inductive TickResult where
  | cont (st : BState)
  | stop (fills : List Fill) (stats : List Stats)
deriving DecidableEq

/-- One iteration of the `njit_backtest` main loop at index `k`: EMA update,
`qtys[k] == 0` skip, closest-bankruptcy tracking, stats block, grid refreshes,
liquidation check, the four fill sweeps, latency re-arm. -/
def backtest_tick (p : BTParams) (alL al_L alS al_S : ℚ × ℚ × ℚ) (k : ℕ)
    (ts qty price prev_price : ℚ) (st : BState) : Except String TickResult :=
  let st := ema_step p alL al_L alS al_S st price
  if qty = 0 then Except.ok (TickResult.cont st)
  else
    let st := { st with closest_bkr := min st.closest_bkr (calc_diff st.bkr_price price) }
    let r := stats_step p st ts price
    if r.1 then Except.ok (TickResult.stop r.2.fills r.2.stats)
    else
      match grids_step p ts prev_price r.2 with
      | Except.error e => Except.error e
      | Except.ok st =>
        if st.closest_bkr < 6/100 then
          let stw := liq_wipe p k ts price st
          Except.ok (TickResult.stop stw.fills stw.stats)
        else
          let st := long_entry_sweep p k ts price st.long_entries st
          let st := short_entry_sweep p k ts price st.short_entries st
          let st := long_close_sweep p k ts price st.long_closes st
          let st := short_close_sweep p k ts price st.short_closes st
          Except.ok (TickResult.cont (adaptive_step p ts price st))

/-- The main loop over the remaining ticks `(timestamp, qty, price)`. -/
def backtest_run (p : BTParams) (alL al_L alS al_S : ℚ × ℚ × ℚ) :
    List (ℚ × ℚ × ℚ) → ℕ → ℚ → BState → Except String (List Fill × List Stats)
  | [], _, _, st => Except.ok (st.fills, st.stats)
  | t :: rest, k, prev_price, st =>
    match backtest_tick p alL al_L alS al_S k t.1 t.2.1 t.2.2 prev_price st with
    | Except.error e => Except.error e
    | Except.ok (TickResult.stop fills stats) => Except.ok (fills, stats)
    | Except.ok (TickResult.cont st1) =>
      backtest_run p alL al_L alS al_S rest (k + 1) t.2.2 st1

/-- Clamp a span vector below at `1.0` (`np.where(spans < 1.0, 1.0, spans)`). -/
def clamp1 (s : ℚ × ℚ × ℚ) : ℚ × ℚ × ℚ :=
  (max 1 s.1, max 1 s.2.1, max 1 s.2.2)

/-- Source `njit_backtest` on ticks `(timestamp, qty, price)`.  The failing
`assert` statements are embedded as `Except.error`. -/
def njit_backtest (ticks : List (ℚ × ℚ × ℚ)) (p : BTParams) :
    Except String (List Fill × List Stats) :=
  let prices := ticks.map (fun t => t.2.2)
  let spans_long0 : ℚ × ℚ × ℚ :=
    if p.do_long then
      (p.ema_span_min.1 * 60, qsqrt (p.ema_span_min.1 * p.ema_span_max.1) * 60,
        p.ema_span_max.1 * 60)
    else (1, 1, 1)
  let spans_short0 : ℚ × ℚ × ℚ :=
    if p.do_short then
      (p.ema_span_min.2 * 60, qsqrt (p.ema_span_min.2 * p.ema_span_max.2) * 60,
        p.ema_span_max.2 * 60)
    else (1, 1, 1)
  if ¬ (max3 spans_long0 < (prices.length : ℚ)) then
    Except.error "ema_span_max long larger than len(prices)"
  else if ¬ (max3 spans_short0 < (prices.length : ℚ)) then
    Except.error "ema_span_max short larger than len(prices)"
  else
    let spans_long := clamp1 spans_long0
    let spans_short := clamp1 spans_short0
    let max_span := (rhe (max (max3 spans_long) (max3 spans_short))).toNat
    let emas_long := if p.do_long then calc_emas_last3 (prices.take max_span) spans_long
      else (0, 0, 0)
    let emas_short := if p.do_short then calc_emas_last3 (prices.take max_span) spans_short
      else (0, 0, 0)
    let st0 : BState :=
      { balance := p.starting_balance
        balance_long := p.starting_balance
        balance_short := p.starting_balance
        equity := p.starting_balance
        long_psize := 0
        long_pprice := 0
        short_psize := 0
        short_pprice := 0
        fills := []
        stats := []
        long_entries := [Order.mk 0 0 ""]
        long_closes := [Order.mk 0 0 ""]
        short_entries := [Order.mk 0 0 ""]
        short_closes := [Order.mk 0 0 ""]
        bkr_price := 0
        next_entry_ts_long := 0
        next_entry_ts_short := 0
        next_close_ts_long := 0
        next_close_ts_short := 0
        next_stats_update := 0
        closest_bkr := 1
        emas_long := emas_long
        emas_short := emas_short
        long_wallet_exposure := 0
        short_wallet_exposure := 0 }
    backtest_run p (alphas3 spans_long) (alphas3_ spans_long) (alphas3 spans_short)
      (alphas3_ spans_short) (ticks.drop max_span) max_span
      ((prices.take max_span).getLastD 0) st0

/-! ### Step-multiple invariants of the solvers and grids (claim C4) -/

theorem headD_isMul {step : ℚ} {l : List ℚ} (h : ∀ x ∈ l, isMul step x) :
    isMul step (l.headD 0) := by
  cases l with
  | nil => exact isMul_zero step
  | cons a t => exact h a (List.mem_cons_self a t)

theorem tail_forall_isMul {step : ℚ} {l : List ℚ} (h : ∀ x ∈ l, isMul step x) :
    ∀ x ∈ l.tail, isMul step x := by
  intro x hx
  exact h x (List.mem_of_mem_tail hx)

theorem fewe_tiebreak_guesses (balance psize pprice entry_price : ℚ) (inverse : Bool)
    (qty_step c_mult : ℚ) (hqz : ∃ z : ℤ, qty_step * 10 ^ 10 = (z : ℚ))
    (gs vs : List ℚ) (hgs : ∀ g ∈ gs, isMul qty_step g) :
    ∀ g ∈ (fewe_tiebreak balance psize pprice entry_price inverse qty_step c_mult gs vs).1,
      isMul qty_step g := by
  rw [fewe_tiebreak]
  split
  · intro g hg
    rcases List.mem_cons.mp hg with hg | hg
    · subst hg
      exact isMul_abs (isMul_round_ hqz _)
    · exact tail_forall_isMul hgs g hg
  · exact hgs

theorem fewe_next_isMul {target qty_step : ℚ} (hqz : ∃ z : ℤ, qty_step * 10 ^ 10 = (z : ℚ))
    (gs vs : List ℚ) : isMul qty_step (fewe_next target qty_step gs vs) :=
  isMul_max (isMul_zero _) (isMul_round_ hqz _)

theorem fewe_loop_guesses {balance psize pprice target entry_price : ℚ} {inverse : Bool}
    {qty_step c_mult : ℚ} (hqz : ∃ z : ℤ, qty_step * 10 ^ 10 = (z : ℚ)) :
    ∀ (fuel : ℕ) (gs vs es : List ℚ), (∀ g ∈ gs, isMul qty_step g) →
      ∀ g ∈ (fewe_loop balance psize pprice target entry_price inverse qty_step c_mult
        fuel gs vs es).1, isMul qty_step g := by
  intro fuel
  induction fuel with
  | zero => intro gs vs es hgs; exact hgs
  | succ n ih =>
    intro gs vs es hgs
    simp only [fewe_loop]
    have hgs' := fewe_tiebreak_guesses balance psize pprice entry_price inverse qty_step
      c_mult hqz gs vs hgs
    split
    · intro g hg
      rcases List.mem_cons.mp hg with hg | hg
      · subst hg
        exact fewe_next_isMul hqz _ _
      · exact hgs' g hg
    · apply ih
      intro g hg
      rcases List.mem_cons.mp hg with hg | hg
      · subst hg
        exact fewe_next_isMul hqz _ _
      · exact hgs' g hg

theorem minPairLex_mem_or (l : List (ℚ × ℚ)) : minPairLex l ∈ l ∨ l = [] := by
  cases l with
  | nil => right; rfl
  | cons x xs => left; exact minPairLex_mem x xs

theorem minPairLex_result_isMul {step : ℚ} {es gs : List ℚ}
    (hgs : ∀ g ∈ gs, isMul step g) : isMul step (minPairLex (es.zip gs)).2 := by
  rcases minPairLex_mem_or (es.zip gs) with hmem | hemp
  · exact hgs _ (List.of_mem_zip hmem).2
  · rw [hemp]
    exact isMul_zero step

theorem find_entry_qty_isMul {balance psize pprice target entry_price : ℚ} {inverse : Bool}
    {qty_step c_mult : ℚ} (hqz : ∃ z : ℤ, qty_step * 10 ^ 10 = (z : ℚ)) :
    isMul qty_step (find_entry_qty_bringing_wallet_exposure_to_target balance psize pprice
      target entry_price inverse qty_step c_mult) := by
  rw [find_entry_qty_bringing_wallet_exposure_to_target]
  split
  · exact isMul_zero _
  · apply minPairLex_result_isMul
    intro g hg
    rw [List.mem_reverse] at hg
    refine fewe_loop_guesses hqz 15 _ _ _ ?_ g hg
    intro g' hg'
    rcases List.mem_cons.mp hg' with h1 | h1
    · subst h1
      exact isMul_max (isMul_zero _) (isMul_round_ hqz _)
    · rcases List.mem_cons.mp h1 with h2 | h2
      · subst h2
        exact isMul_round_ hqz _
      · simp at h2

theorem flcq_tiebreak_guesses (balance psize pprice close_price : ℚ) (inverse : Bool)
    (qty_step c_mult : ℚ) (hqz : ∃ z : ℤ, qty_step * 10 ^ 10 = (z : ℚ))
    (hps : isMul qty_step psize) (gs vs : List ℚ) (hgs : ∀ g ∈ gs, isMul qty_step g) :
    ∀ g ∈ (flcq_tiebreak balance psize pprice close_price inverse qty_step c_mult gs vs).1,
      isMul qty_step g := by
  rw [flcq_tiebreak]
  split
  · intro g hg
    rcases List.mem_cons.mp hg with hg | hg
    · subst hg
      exact isMul_min hps (isMul_abs (isMul_round_ hqz _))
    · exact tail_forall_isMul hgs g hg
  · exact hgs

theorem flcq_next_isMul {psize target qty_step : ℚ}
    (hqz : ∃ z : ℤ, qty_step * 10 ^ 10 = (z : ℚ)) (hps : isMul qty_step psize)
    (gs vs : List ℚ) : isMul qty_step (flcq_next psize target qty_step gs vs) :=
  isMul_min hps (isMul_max (isMul_zero _) (isMul_round_ hqz _))

theorem flcq_loop_guesses {balance psize pprice target close_price : ℚ} {inverse : Bool}
    {qty_step c_mult : ℚ} (hqz : ∃ z : ℤ, qty_step * 10 ^ 10 = (z : ℚ))
    (hps : isMul qty_step psize) :
    ∀ (fuel : ℕ) (gs vs es : List ℚ), (∀ g ∈ gs, isMul qty_step g) →
      ∀ g ∈ (flcq_loop balance psize pprice target close_price inverse qty_step c_mult
        fuel gs vs es).1, isMul qty_step g := by
  intro fuel
  induction fuel with
  | zero => intro gs vs es hgs; exact hgs
  | succ n ih =>
    intro gs vs es hgs
    simp only [flcq_loop]
    have hgs' := flcq_tiebreak_guesses balance psize pprice close_price inverse qty_step
      c_mult hqz hps gs vs hgs
    split
    · intro g hg
      rcases List.mem_cons.mp hg with hg | hg
      · subst hg
        exact flcq_next_isMul hqz hps _ _
      · exact hgs' g hg
    · apply ih
      intro g hg
      rcases List.mem_cons.mp hg with hg | hg
      · subst hg
        exact flcq_next_isMul hqz hps _ _
      · exact hgs' g hg

theorem find_long_close_qty_isMul {balance psize pprice target close_price : ℚ}
    {inverse : Bool} {qty_step c_mult : ℚ} (hqz : ∃ z : ℤ, qty_step * 10 ^ 10 = (z : ℚ))
    (hps : isMul qty_step psize) :
    isMul qty_step (find_long_close_qty_bringing_wallet_exposure_to_target balance psize
      pprice target close_price inverse qty_step c_mult) := by
  rw [find_long_close_qty_bringing_wallet_exposure_to_target]
  split
  · exact isMul_zero _
  · apply minPairLex_result_isMul
    intro g hg
    rw [List.mem_reverse] at hg
    refine flcq_loop_guesses hqz hps 15 _ _ _ ?_ g hg
    intro g' hg'
    rcases List.mem_cons.mp hg' with h1 | h1
    · subst h1
      split
      · exact isMul_min hps (isMul_max (isMul_zero _) (isMul_round_ hqz _))
      · exact isMul_min hps (isMul_max (isMul_zero _) (isMul_round_ hqz _))
    · rcases List.mem_cons.mp h1 with h2 | h2
      · subst h2
        exact isMul_min hps (isMul_max (isMul_zero _) (isMul_round_ hqz _))
      · simp at h2

theorem fscq_tiebreak_guesses (balance abs_psize pprice close_price : ℚ) (inverse : Bool)
    (qty_step c_mult : ℚ) (hqz : ∃ z : ℤ, qty_step * 10 ^ 10 = (z : ℚ))
    (hps : isMul qty_step abs_psize) (gs vs : List ℚ)
    (hgs : ∀ g ∈ gs, isMul qty_step g) :
    ∀ g ∈ (fscq_tiebreak balance abs_psize pprice close_price inverse qty_step c_mult gs vs).1,
      isMul qty_step g := by
  rw [fscq_tiebreak]
  split
  · intro g hg
    rcases List.mem_cons.mp hg with hg | hg
    · subst hg
      exact isMul_min hps (isMul_abs (isMul_round_ hqz _))
    · exact tail_forall_isMul hgs g hg
  · exact hgs

theorem fscq_next_isMul {abs_psize target qty_step : ℚ}
    (hqz : ∃ z : ℤ, qty_step * 10 ^ 10 = (z : ℚ)) (hps : isMul qty_step abs_psize)
    (gs vs : List ℚ) : isMul qty_step (fscq_next abs_psize target qty_step gs vs) :=
  isMul_min hps (isMul_max (isMul_zero _) (isMul_round_ hqz _))

theorem fscq_loop_guesses {balance abs_psize pprice target close_price : ℚ} {inverse : Bool}
    {qty_step c_mult : ℚ} (hqz : ∃ z : ℤ, qty_step * 10 ^ 10 = (z : ℚ))
    (hps : isMul qty_step abs_psize) :
    ∀ (fuel : ℕ) (gs vs es : List ℚ), (∀ g ∈ gs, isMul qty_step g) →
      ∀ g ∈ (fscq_loop balance abs_psize pprice target close_price inverse qty_step c_mult
        fuel gs vs es).1, isMul qty_step g := by
  intro fuel
  induction fuel with
  | zero => intro gs vs es hgs; exact hgs
  | succ n ih =>
    intro gs vs es hgs
    simp only [fscq_loop]
    have hgs' := fscq_tiebreak_guesses balance abs_psize pprice close_price inverse qty_step
      c_mult hqz hps gs vs hgs
    split
    · intro g hg
      rcases List.mem_cons.mp hg with hg | hg
      · subst hg
        exact fscq_next_isMul hqz hps _ _
      · exact hgs' g hg
    · apply ih
      intro g hg
      rcases List.mem_cons.mp hg with hg | hg
      · subst hg
        exact fscq_next_isMul hqz hps _ _
      · exact hgs' g hg

theorem find_short_close_qty_isMul {balance psize pprice target close_price : ℚ}
    {inverse : Bool} {qty_step c_mult : ℚ} (hqz : ∃ z : ℤ, qty_step * 10 ^ 10 = (z : ℚ))
    (hps : isMul qty_step psize) :
    isMul qty_step (find_short_close_qty_bringing_wallet_exposure_to_target balance psize
      pprice target close_price inverse qty_step c_mult) := by
  rw [find_short_close_qty_bringing_wallet_exposure_to_target]
  split
  · exact isMul_zero _
  · have habs : isMul qty_step |psize| := isMul_abs hps
    apply minPairLex_result_isMul
    intro g hg
    rw [List.mem_reverse] at hg
    refine fscq_loop_guesses hqz habs 15 _ _ _ ?_ g hg
    intro g' hg'
    rcases List.mem_cons.mp hg' with h1 | h1
    · subst h1
      split
      · exact isMul_min habs (isMul_max (isMul_zero _) (isMul_round_ hqz _))
      · exact isMul_min habs (isMul_max (isMul_zero _) (isMul_round_ hqz _))
    · rcases List.mem_cons.mp h1 with h2 | h2
      · subst h2
        exact isMul_min habs (isMul_max (isMul_zero _) (isMul_round_ hqz _))
      · simp at h2

/-- Rows of a ladder whose quantity and price are exact step multiples. -/
def rowOK (qty_step price_step : ℚ) (r : GridRow) : Prop :=
  isMul qty_step r.qty ∧ isMul price_step r.price

theorem rowOK_default (qty_step price_step : ℚ) : rowOK qty_step price_step default :=
  ⟨isMul_zero _, isMul_zero _⟩

theorem getD_rowOK {qty_step price_step : ℚ} {l : List GridRow}
    (h : ∀ r ∈ l, rowOK qty_step price_step r) (n : ℕ) :
    rowOK qty_step price_step (l.getD n default) := by
  rw [List.getD_eq_getElem?_getD]
  cases hx : l[n]? with
  | none => exact rowOK_default qty_step price_step
  | some r =>
    simp only [Option.getD_some]
    exact h r (List.getElem?_mem hx)

theorem eval_long_grid_go_rows {balance : ℚ} {inverse : Bool}
    {qty_step min_qty min_cost c_mult eprice_pprice_diff weighting price_step : ℚ}
    (hqz : ∃ z : ℤ, qty_step * 10 ^ 10 = (z : ℚ)) :
    ∀ (ps : List ℚ), (∀ p ∈ ps, isMul price_step p) → ∀ (psize pprice we : ℚ),
      ∀ r ∈ eval_long_entry_grid_go balance inverse qty_step min_qty min_cost c_mult
        eprice_pprice_diff weighting ps psize pprice we, rowOK qty_step price_step r := by
  intro ps
  induction ps with
  | nil => intro _ psize pprice we r hr; simp [eval_long_entry_grid_go] at hr
  | cons p rest ih =>
    intro hps psize pprice we r hr
    simp only [eval_long_entry_grid_go] at hr
    rcases List.mem_cons.mp hr with hr | hr
    · subst hr
      refine ⟨?_, hps p (List.mem_cons_self p rest)⟩
      split
      · exact isMul_zero _
      · exact isMul_round_ hqz _
    · exact ih (fun q hq => hps q (List.mem_cons_of_mem p hq)) _ _ _ r hr

theorem eval_short_grid_go_rows {balance : ℚ} {inverse : Bool}
    {qty_step min_qty min_cost c_mult eprice_pprice_diff weighting price_step : ℚ}
    (hqz : ∃ z : ℤ, qty_step * 10 ^ 10 = (z : ℚ)) :
    ∀ (ps : List ℚ), (∀ p ∈ ps, isMul price_step p) → ∀ (psize pprice we : ℚ),
      ∀ r ∈ eval_short_entry_grid_go balance inverse qty_step min_qty min_cost c_mult
        eprice_pprice_diff weighting ps psize pprice we, rowOK qty_step price_step r := by
  intro ps
  induction ps with
  | nil => intro _ psize pprice we r hr; simp [eval_short_entry_grid_go] at hr
  | cons p rest ih =>
    intro hps psize pprice we r hr
    simp only [eval_short_entry_grid_go] at hr
    rcases List.mem_cons.mp hr with hr | hr
    · subst hr
      refine ⟨?_, hps p (List.mem_cons_self p rest)⟩
      split
      · exact isMul_zero _
      · exact isMul_round_ hqz _
    · exact ih (fun q hq => hps q (List.mem_cons_of_mem p hq)) _ _ _ r hr

theorem eval_long_grid_on_rows {balance initial_entry_price : ℚ} {inverse : Bool}
    {qty_step min_qty min_cost c_mult wallet_exposure_limit : ℚ}
    {initial_qty_pct eprice_pprice_diff weighting price_step : ℚ} {prev_pprice : Option ℚ}
    (hqz : ∃ z : ℤ, qty_step * 10 ^ 10 = (z : ℚ)) (hmq : isMul qty_step min_qty)
    (ps : List ℚ) (hps : ∀ p ∈ ps, isMul price_step p) :
    ∀ r ∈ eval_long_entry_grid_on balance initial_entry_price inverse qty_step min_qty
      min_cost c_mult wallet_exposure_limit initial_qty_pct eprice_pprice_diff weighting
      prev_pprice ps, rowOK qty_step price_step r := by
  cases ps with
  | nil => intro r hr; simp [eval_long_entry_grid_on] at hr
  | cons p0 rest =>
    intro r hr
    simp only [eval_long_entry_grid_on] at hr
    rcases List.mem_cons.mp hr with hr | hr
    · subst hr
      exact ⟨isMul_max (isMul_calc_min_entry_qty hqz hmq _ _ _) (isMul_round_ hqz _),
        hps p0 (List.mem_cons_self p0 rest)⟩
    · exact eval_long_grid_go_rows hqz rest
        (fun q hq => hps q (List.mem_cons_of_mem p0 hq)) _ _ _ r hr

theorem eval_short_grid_on_rows {balance initial_entry_price : ℚ} {inverse : Bool}
    {qty_step min_qty min_cost c_mult wallet_exposure_limit : ℚ}
    {initial_qty_pct eprice_pprice_diff weighting price_step : ℚ} {prev_pprice : Option ℚ}
    (hqz : ∃ z : ℤ, qty_step * 10 ^ 10 = (z : ℚ)) (hmq : isMul qty_step min_qty)
    (ps : List ℚ) (hps : ∀ p ∈ ps, isMul price_step p) :
    ∀ r ∈ eval_short_entry_grid_on balance initial_entry_price inverse qty_step min_qty
      min_cost c_mult wallet_exposure_limit initial_qty_pct eprice_pprice_diff weighting
      prev_pprice ps, rowOK qty_step price_step r := by
  cases ps with
  | nil => intro r hr; simp [eval_short_entry_grid_on] at hr
  | cons p0 rest =>
    intro r hr
    simp only [eval_short_entry_grid_on] at hr
    rcases List.mem_cons.mp hr with hr | hr
    · subst hr
      exact ⟨isMul_neg (isMul_max (isMul_calc_min_entry_qty hqz hmq _ _ _)
        (isMul_round_ hqz _)), hps p0 (List.mem_cons_self p0 rest)⟩
    · exact eval_short_grid_go_rows hqz rest
        (fun q hq => hps q (List.mem_cons_of_mem p0 hq)) _ _ _ r hr

theorem eval_long_grid_rows {balance initial_entry_price : ℚ} {inverse : Bool}
    {qty_step price_step min_qty min_cost c_mult grid_span wallet_exposure_limit : ℚ}
    {max_n_entry_orders : ℕ} {initial_qty_pct eprice_pprice_diff weighting base : ℚ}
    {prev_pprice : Option ℚ}
    (hqz : ∃ z : ℤ, qty_step * 10 ^ 10 = (z : ℚ))
    (hpz : ∃ z : ℤ, price_step * 10 ^ 10 = (z : ℚ)) (hmq : isMul qty_step min_qty) :
    ∀ r ∈ eval_long_entry_grid balance initial_entry_price inverse qty_step price_step
      min_qty min_cost c_mult grid_span wallet_exposure_limit max_n_entry_orders
      initial_qty_pct eprice_pprice_diff weighting base none prev_pprice,
      rowOK qty_step price_step r := by
  rw [eval_long_entry_grid]
  apply eval_long_grid_on_rows hqz hmq
  intro p hp
  rcases List.mem_map.mp hp with ⟨q, _, hq⟩
  rw [← hq]
  exact isMul_round_dn hpz q

theorem eval_short_grid_rows {balance initial_entry_price : ℚ} {inverse : Bool}
    {qty_step price_step min_qty min_cost c_mult grid_span wallet_exposure_limit : ℚ}
    {max_n_entry_orders : ℕ} {initial_qty_pct eprice_pprice_diff weighting base : ℚ}
    {prev_pprice : Option ℚ}
    (hqz : ∃ z : ℤ, qty_step * 10 ^ 10 = (z : ℚ))
    (hpz : ∃ z : ℤ, price_step * 10 ^ 10 = (z : ℚ)) (hmq : isMul qty_step min_qty) :
    ∀ r ∈ eval_short_entry_grid balance initial_entry_price inverse qty_step price_step
      min_qty min_cost c_mult grid_span wallet_exposure_limit max_n_entry_orders
      initial_qty_pct eprice_pprice_diff weighting base none prev_pprice,
      rowOK qty_step price_step r := by
  rw [eval_short_entry_grid]
  apply eval_short_grid_on_rows hqz hmq
  intro p hp
  rcases List.mem_map.mp hp with ⟨q, _, hq⟩
  rw [← hq]
  exact isMul_round_up hpz q

theorem calc_whole_long_core_rows {balance initial_entry_price : ℚ} {inverse : Bool}
    {qty_step price_step min_qty min_cost c_mult grid_span wallet_exposure_limit : ℚ}
    {max_n_entry_orders : ℕ} {initial_qty_pct eprice_pprice_diff sa spd base : ℚ}
    {prev_pprice : Option ℚ} {g : List GridRow}
    (hqz : ∃ z : ℤ, qty_step * 10 ^ 10 = (z : ℚ))
    (hpz : ∃ z : ℤ, price_step * 10 ^ 10 = (z : ℚ)) (hmq : isMul qty_step min_qty)
    (h : calc_whole_long_entry_grid_core balance initial_entry_price inverse qty_step
      price_step min_qty min_cost c_mult grid_span wallet_exposure_limit max_n_entry_orders
      initial_qty_pct eprice_pprice_diff sa spd base none prev_pprice = Except.ok g) :
    ∀ r ∈ g, rowOK qty_step price_step r := by
  rw [calc_whole_long_entry_grid_core] at h
  cases hw : find_eprice_pprice_diff_wallet_exposure_weighting true balance
      initial_entry_price inverse qty_step price_step min_qty min_cost c_mult grid_span
      (wallet_exposure_limit * (1 - sa)) max_n_entry_orders (initial_qty_pct / (1 - sa))
      eprice_pprice_diff base 20 (1/100) none prev_pprice with
  | error e =>
    rw [hw] at h
    simp only [bind, Except.bind] at h
    exact absurd h (by simp)
  | ok w =>
    rw [hw] at h
    simp only [bind, Except.bind] at h
    split at h
    · cases hl : (eval_long_entry_grid balance initial_entry_price inverse qty_step
          price_step min_qty min_cost c_mult grid_span (wallet_exposure_limit * (1 - sa))
          max_n_entry_orders (initial_qty_pct / (1 - sa)) eprice_pprice_diff w base none
          prev_pprice).getLast? with
      | none => rw [hl] at h; exact absurd h (by simp)
      | some lastRow =>
        rw [hl] at h
        injection h with h
        subst h
        intro r hr
        have hr' := List.mem_of_mem_filter hr
        rcases List.mem_append.mp hr' with hr' | hr'
        · exact eval_long_grid_rows hqz hpz hmq r hr'
        · have hlast := List.mem_of_getLast?_eq_some hl
          have hrow := eval_long_grid_rows hqz hpz hmq _ hlast
          rcases List.mem_singleton.mp hr' with rfl
          exact ⟨find_entry_qty_isMul hqz, isMul_min (isMul_round_dn hpz _) hrow.2⟩
    · injection h with h
      subst h
      intro r hr
      exact eval_long_grid_rows hqz hpz hmq r (List.mem_of_mem_filter hr)

theorem calc_whole_short_core_rows {balance initial_entry_price : ℚ} {inverse : Bool}
    {qty_step price_step min_qty min_cost c_mult grid_span wallet_exposure_limit : ℚ}
    {max_n_entry_orders : ℕ} {initial_qty_pct eprice_pprice_diff sa spd base : ℚ}
    {prev_pprice : Option ℚ} {g : List GridRow}
    (hqz : ∃ z : ℤ, qty_step * 10 ^ 10 = (z : ℚ))
    (hpz : ∃ z : ℤ, price_step * 10 ^ 10 = (z : ℚ)) (hmq : isMul qty_step min_qty)
    (h : calc_whole_short_entry_grid_core balance initial_entry_price inverse qty_step
      price_step min_qty min_cost c_mult grid_span wallet_exposure_limit max_n_entry_orders
      initial_qty_pct eprice_pprice_diff sa spd base none prev_pprice = Except.ok g) :
    ∀ r ∈ g, rowOK qty_step price_step r := by
  rw [calc_whole_short_entry_grid_core] at h
  cases hw : find_eprice_pprice_diff_wallet_exposure_weighting false balance
      initial_entry_price inverse qty_step price_step min_qty min_cost c_mult grid_span
      (wallet_exposure_limit * (1 - sa)) max_n_entry_orders (initial_qty_pct / (1 - sa))
      eprice_pprice_diff base 20 (1/100) none prev_pprice with
  | error e =>
    rw [hw] at h
    simp only [bind, Except.bind] at h
    exact absurd h (by simp)
  | ok w =>
    rw [hw] at h
    simp only [bind, Except.bind] at h
    split at h
    · cases hl : (eval_short_entry_grid balance initial_entry_price inverse qty_step
          price_step min_qty min_cost c_mult grid_span (wallet_exposure_limit * (1 - sa))
          max_n_entry_orders (initial_qty_pct / (1 - sa)) eprice_pprice_diff w base none
          prev_pprice).getLast? with
      | none => rw [hl] at h; exact absurd h (by simp)
      | some lastRow =>
        rw [hl] at h
        injection h with h
        subst h
        intro r hr
        have hr' := List.mem_of_mem_filter hr
        rcases List.mem_append.mp hr' with hr' | hr'
        · exact eval_short_grid_rows hqz hpz hmq r hr'
        · have hlast := List.mem_of_getLast?_eq_some hl
          have hrow := eval_short_grid_rows hqz hpz hmq _ hlast
          rcases List.mem_singleton.mp hr' with rfl
          exact ⟨isMul_neg (find_entry_qty_isMul hqz),
            isMul_max (isMul_round_up hpz _) hrow.2⟩
    · injection h with h
      subst h
      intro r hr
      exact eval_short_grid_rows hqz hpz hmq r (List.mem_of_mem_filter hr)

theorem calc_whole_long_rows {balance initial_entry_price : ℚ} {inverse : Bool}
    {qty_step price_step min_qty min_cost c_mult grid_span wallet_exposure_limit : ℚ}
    {max_n_entry_orders : ℕ} {initial_qty_pct eprice_pprice_diff sa spd base : ℚ}
    {prev_pprice : Option ℚ} {g : List GridRow}
    (hqz : ∃ z : ℤ, qty_step * 10 ^ 10 = (z : ℚ))
    (hpz : ∃ z : ℤ, price_step * 10 ^ 10 = (z : ℚ)) (hmq : isMul qty_step min_qty)
    (h : calc_whole_long_entry_grid balance initial_entry_price inverse qty_step price_step
      min_qty min_cost c_mult grid_span wallet_exposure_limit max_n_entry_orders
      initial_qty_pct eprice_pprice_diff sa spd base none prev_pprice = Except.ok g) :
    ∀ r ∈ g, rowOK qty_step price_step r := by
  rw [calc_whole_long_entry_grid] at h
  split at h
  · exact calc_whole_long_core_rows hqz hpz hmq h
  · split at h
    · exact absurd h (by simp)
    · exact calc_whole_long_core_rows hqz hpz hmq h

theorem calc_whole_short_rows {balance initial_entry_price : ℚ} {inverse : Bool}
    {qty_step price_step min_qty min_cost c_mult grid_span wallet_exposure_limit : ℚ}
    {max_n_entry_orders : ℕ} {initial_qty_pct eprice_pprice_diff sa spd base : ℚ}
    {prev_pprice : Option ℚ} {g : List GridRow}
    (hqz : ∃ z : ℤ, qty_step * 10 ^ 10 = (z : ℚ))
    (hpz : ∃ z : ℤ, price_step * 10 ^ 10 = (z : ℚ)) (hmq : isMul qty_step min_qty)
    (h : calc_whole_short_entry_grid balance initial_entry_price inverse qty_step price_step
      min_qty min_cost c_mult grid_span wallet_exposure_limit max_n_entry_orders
      initial_qty_pct eprice_pprice_diff sa spd base none prev_pprice = Except.ok g) :
    ∀ r ∈ g, rowOK qty_step price_step r := by
  rw [calc_whole_short_entry_grid] at h
  split at h
  · exact calc_whole_short_core_rows hqz hpz hmq h
  · split at h
    · exact absurd h (by simp)
    · exact calc_whole_short_core_rows hqz hpz hmq h

theorem along_eval_rows {balance : ℚ} {inverse : Bool}
    {qty_step price_step min_qty min_cost c_mult grid_span wallet_exposure_limit : ℚ}
    {max_n_entry_orders : ℕ} {initial_qty_pct eprice_pprice_diff sa spd base : ℚ}
    {guess psz : ℚ} {out : List GridRow × ℚ × ℕ}
    (hqz : ∃ z : ℤ, qty_step * 10 ^ 10 = (z : ℚ))
    (hpz : ∃ z : ℤ, price_step * 10 ^ 10 = (z : ℚ)) (hmq : isMul qty_step min_qty)
    (h : along_eval balance inverse qty_step price_step min_qty min_cost c_mult grid_span
      wallet_exposure_limit max_n_entry_orders initial_qty_pct eprice_pprice_diff sa spd
      base guess psz = Except.ok out) :
    ∀ r ∈ out.1, rowOK qty_step price_step r := by
  rw [along_eval] at h
  cases hw : calc_whole_long_entry_grid balance (round_ guess price_step) inverse qty_step
      price_step min_qty min_cost c_mult grid_span wallet_exposure_limit max_n_entry_orders
      initial_qty_pct eprice_pprice_diff sa spd base none none with
  | error e =>
    rw [hw] at h
    simp only [bind, Except.bind] at h
    exact absurd h (by simp)
  | ok grid =>
    rw [hw] at h
    simp only [bind, Except.bind] at h
    cases grid with
    | nil => exact absurd h (by simp)
    | cons a t =>
      injection h with h
      subst h
      exact calc_whole_long_rows hqz hpz hmq hw

theorem ashort_eval_rows {balance : ℚ} {inverse : Bool}
    {qty_step price_step min_qty min_cost c_mult grid_span wallet_exposure_limit : ℚ}
    {max_n_entry_orders : ℕ} {initial_qty_pct eprice_pprice_diff sa spd base : ℚ}
    {guess psz : ℚ} {out : List GridRow × ℚ × ℕ}
    (hqz : ∃ z : ℤ, qty_step * 10 ^ 10 = (z : ℚ))
    (hpz : ∃ z : ℤ, price_step * 10 ^ 10 = (z : ℚ)) (hmq : isMul qty_step min_qty)
    (h : ashort_eval balance inverse qty_step price_step min_qty min_cost c_mult grid_span
      wallet_exposure_limit max_n_entry_orders initial_qty_pct eprice_pprice_diff sa spd
      base guess psz = Except.ok out) :
    ∀ r ∈ out.1, rowOK qty_step price_step r := by
  rw [ashort_eval] at h
  cases hw : calc_whole_short_entry_grid balance (round_ guess price_step) inverse qty_step
      price_step min_qty min_cost c_mult grid_span wallet_exposure_limit max_n_entry_orders
      initial_qty_pct eprice_pprice_diff sa spd base none none with
  | error e =>
    rw [hw] at h
    simp only [bind, Except.bind] at h
    exact absurd h (by simp)
  | ok grid =>
    rw [hw] at h
    simp only [bind, Except.bind] at h
    cases grid with
    | nil => exact absurd h (by simp)
    | cons a t =>
      injection h with h
      subst h
      exact calc_whole_short_rows hqz hpz hmq hw

theorem along_loop_rows {balance psize pprice : ℚ} {inverse : Bool}
    {qty_step price_step min_qty min_cost c_mult grid_span wallet_exposure_limit : ℚ}
    {max_n_entry_orders : ℕ} {initial_qty_pct eprice_pprice_diff sa spd base : ℚ}
    (hqz : ∃ z : ℤ, qty_step * 10 ^ 10 = (z : ℚ))
    (hpz : ∃ z : ℤ, price_step * 10 ^ 10 = (z : ℚ)) (hmq : isMul qty_step min_qty) :
    ∀ (fuel : ℕ) (grid : List GridRow) (k : ℕ) (out : List GridRow × ℕ),
      (∀ r ∈ grid, rowOK qty_step price_step r) →
      along_loop balance psize pprice inverse qty_step price_step min_qty min_cost c_mult
        grid_span wallet_exposure_limit max_n_entry_orders initial_qty_pct
        eprice_pprice_diff sa spd base fuel grid k = Except.ok out →
      ∀ r ∈ out.1, rowOK qty_step price_step r := by
  intro fuel
  induction fuel with
  | zero =>
    intro grid k out hgrid h
    rw [along_loop] at h
    injection h with h
    subst h
    exact hgrid
  | succ n ih =>
    intro grid k out hgrid h
    rw [along_loop] at h
    cases h1 : along_eval balance inverse qty_step price_step min_qty min_cost c_mult
        grid_span wallet_exposure_limit max_n_entry_orders initial_qty_pct
        eprice_pprice_diff sa spd base
        (calc_new_psize_pprice psize pprice
          (round_ ((grid.getD k default).psize - psize) qty_step)
          (grid.getD k default).price qty_step).2
        (calc_new_psize_pprice psize pprice
          (round_ ((grid.getD k default).psize - psize) qty_step)
          (grid.getD k default).price qty_step).1 with
    | error e =>
      rw [h1] at h
      simp only [bind, Except.bind] at h
      exact absurd h (by simp)
    | ok r1 =>
      rw [h1] at h
      simp only [bind, Except.bind] at h
      have hr1 := along_eval_rows hqz hpz hmq h1
      split at h
      · exact ih r1.1 (r1.1.length - 1) out hr1 h
      · cases h2 : along_eval balance inverse qty_step price_step min_qty min_cost c_mult
            grid_span wallet_exposure_limit max_n_entry_orders initial_qty_pct
            eprice_pprice_diff sa spd base
            ((calc_new_psize_pprice psize pprice
              (round_ ((grid.getD k default).psize - psize) qty_step)
              (grid.getD k default).price qty_step).2 *
              ((calc_new_psize_pprice psize pprice
                (round_ ((grid.getD k default).psize - psize) qty_step)
                (grid.getD k default).price qty_step).2 / (r1.1.getD k default).pprice))
            (calc_new_psize_pprice psize pprice
              (round_ ((grid.getD k default).psize - psize) qty_step)
              (grid.getD k default).price qty_step).1 with
        | error e =>
          rw [h2] at h
          simp only [bind, Except.bind] at h
          exact absurd h (by simp)
        | ok r2 =>
          rw [h2] at h
          simp only [bind, Except.bind] at h
          exact ih r2.1 (scanK r2.1 psize) out (along_eval_rows hqz hpz hmq h2) h

theorem ashort_loop_rows {balance psize pprice : ℚ} {inverse : Bool}
    {qty_step price_step min_qty min_cost c_mult grid_span wallet_exposure_limit : ℚ}
    {max_n_entry_orders : ℕ} {initial_qty_pct eprice_pprice_diff sa spd base : ℚ}
    (hqz : ∃ z : ℤ, qty_step * 10 ^ 10 = (z : ℚ))
    (hpz : ∃ z : ℤ, price_step * 10 ^ 10 = (z : ℚ)) (hmq : isMul qty_step min_qty) :
    ∀ (fuel : ℕ) (grid : List GridRow) (k : ℕ) (out : List GridRow × ℕ),
      (∀ r ∈ grid, rowOK qty_step price_step r) →
      ashort_loop balance psize pprice inverse qty_step price_step min_qty min_cost c_mult
        grid_span wallet_exposure_limit max_n_entry_orders initial_qty_pct
        eprice_pprice_diff sa spd base fuel grid k = Except.ok out →
      ∀ r ∈ out.1, rowOK qty_step price_step r := by
  intro fuel
  induction fuel with
  | zero =>
    intro grid k out hgrid h
    rw [ashort_loop] at h
    injection h with h
    subst h
    exact hgrid
  | succ n ih =>
    intro grid k out hgrid h
    rw [ashort_loop] at h
    cases h1 : ashort_eval balance inverse qty_step price_step min_qty min_cost c_mult
        grid_span wallet_exposure_limit max_n_entry_orders initial_qty_pct
        eprice_pprice_diff sa spd base
        (calc_new_psize_pprice psize pprice
          (round_ ((grid.getD k default).psize - psize) qty_step)
          (grid.getD k default).price qty_step).2
        (calc_new_psize_pprice psize pprice
          (round_ ((grid.getD k default).psize - psize) qty_step)
          (grid.getD k default).price qty_step).1 with
    | error e =>
      rw [h1] at h
      simp only [bind, Except.bind] at h
      exact absurd h (by simp)
    | ok r1 =>
      rw [h1] at h
      simp only [bind, Except.bind] at h
      have hr1 := ashort_eval_rows hqz hpz hmq h1
      split at h
      · exact ih r1.1 (r1.1.length - 1) out hr1 h
      · cases h2 : ashort_eval balance inverse qty_step price_step min_qty min_cost c_mult
            grid_span wallet_exposure_limit max_n_entry_orders initial_qty_pct
            eprice_pprice_diff sa spd base
            ((calc_new_psize_pprice psize pprice
              (round_ ((grid.getD k default).psize - psize) qty_step)
              (grid.getD k default).price qty_step).2 *
              ((calc_new_psize_pprice psize pprice
                (round_ ((grid.getD k default).psize - psize) qty_step)
                (grid.getD k default).price qty_step).2 / (r1.1.getD k default).pprice))
            (calc_new_psize_pprice psize pprice
              (round_ ((grid.getD k default).psize - psize) qty_step)
              (grid.getD k default).price qty_step).1 with
        | error e =>
          rw [h2] at h
          simp only [bind, Except.bind] at h
          exact absurd h (by simp)
        | ok r2 =>
          rw [h2] at h
          simp only [bind, Except.bind] at h
          exact ih r2.1 (scanKShort r2.1 |psize|) out (ashort_eval_rows hqz hpz hmq h2) h

theorem mem_ite_drop {g : List GridRow} {r : GridRow} {crop : Bool} {n : ℕ}
    (hr : r ∈ (if crop then g.drop n else g)) : r ∈ g := by
  split at hr
  · exact List.drop_subset n g hr
  · exact hr

theorem approximate_long_rows {balance psize pprice : ℚ} {inverse : Bool}
    {qty_step price_step min_qty min_cost c_mult grid_span wallet_exposure_limit : ℚ}
    {max_n_entry_orders : ℕ} {initial_qty_pct eprice_pprice_diff sa spd base : ℚ}
    {crop : Bool} {g : List GridRow}
    (hqz : ∃ z : ℤ, qty_step * 10 ^ 10 = (z : ℚ))
    (hpz : ∃ z : ℤ, price_step * 10 ^ 10 = (z : ℚ)) (hmq : isMul qty_step min_qty)
    (h : approximate_long_grid balance psize pprice inverse qty_step price_step min_qty
      min_cost c_mult grid_span wallet_exposure_limit max_n_entry_orders initial_qty_pct
      eprice_pprice_diff sa spd base crop = Except.ok g) :
    ∀ r ∈ g, rowOK qty_step price_step r := by
  rw [approximate_long_grid] at h
  split at h
  · exact absurd h (by simp)
  · split at h
    · exact calc_whole_long_rows hqz hpz hmq h
    · cases ha : along_eval balance inverse qty_step price_step min_qty min_cost c_mult
          grid_span wallet_exposure_limit max_n_entry_orders initial_qty_pct
          eprice_pprice_diff sa spd base pprice psize with
      | error e =>
        rw [ha] at h
        simp only [bind, Except.bind] at h
        exact absurd h (by simp)
      | ok ra =>
        rw [ha] at h
        simp only [bind, Except.bind] at h
        cases hb : along_eval balance inverse qty_step price_step min_qty min_cost c_mult
            grid_span wallet_exposure_limit max_n_entry_orders initial_qty_pct
            eprice_pprice_diff sa spd base
            (pprice * (pprice / (ra.1.getD ra.2.2 default).pprice)) psize with
        | error e =>
          rw [hb] at h
          simp only [bind, Except.bind] at h
          exact absurd h (by simp)
        | ok rb =>
          rw [hb] at h
          simp only [bind, Except.bind] at h
          have hrb := along_eval_rows hqz hpz hmq hb
          split at h
          · cases hc : along_eval balance inverse qty_step price_step min_qty min_cost
                c_mult grid_span wallet_exposure_limit max_n_entry_orders initial_qty_pct
                eprice_pprice_diff sa spd base
                ((rb.1.headD default).price * (pprice / (rb.1.getD rb.2.2 default).pprice))
                psize with
            | error e =>
              rw [hc] at h
              simp only [bind, Except.bind] at h
              exact absurd h (by simp)
            | ok rc =>
              rw [hc] at h
              simp only [bind, Except.bind] at h
              injection h with h
              subst h
              intro r hr
              exact along_eval_rows hqz hpz hmq hc r (mem_ite_drop hr)
          · split at h
            · cases hb1 : rb.1 with
              | nil => rw [hb1] at h; exact absurd h (by simp)
              | cons r0 rest =>
                rw [hb1] at h
                injection h with h
                subst h
                intro r hr
                have hrb' : ∀ r ∈ r0 :: rest, rowOK qty_step price_step r := by
                  rw [← hb1]; exact hrb
                rcases List.mem_cons.mp hr with hr | hr
                · subst hr
                  exact ⟨isMul_max (isMul_calc_min_entry_qty hqz hmq _ _ _)
                    (isMul_round_ hqz _), (hrb' r0 (List.mem_cons_self r0 rest)).2⟩
                · exact hrb' r (List.mem_cons_of_mem r0 hr)
            · split at h
              · injection h with h
                subst h
                intro r hr
                split at hr
                · simp at hr
                · exact hrb r hr
              · cases hl : along_loop balance psize pprice inverse qty_step price_step
                    min_qty min_cost c_mult grid_span wallet_exposure_limit
                    max_n_entry_orders initial_qty_pct eprice_pprice_diff sa spd base
                    5 rb.1 (scanK rb.1 psize) with
                | error e =>
                  rw [hl] at h
                  simp only [bind, Except.bind] at h
                  exact absurd h (by simp)
                | ok rl =>
                  rw [hl] at h
                  simp only [bind, Except.bind] at h
                  injection h with h
                  subst h
                  intro r hr
                  have hrl := along_loop_rows hqz hpz hmq 5 rb.1 (scanK rb.1 psize) rl hrb hl
                  have hmem := mem_ite_drop hr
                  rcases List.mem_or_eq_of_mem_set hmem with hmem | hmem
                  · exact hrl r hmem
                  · subst hmem
                    have hrk := getD_rowOK hrl rl.2
                    exact ⟨isMul_max (isMul_calc_min_entry_qty hqz hmq _ _ _)
                      (isMul_round_ hqz _), hrk.2⟩

theorem approximate_short_rows {balance psize pprice : ℚ} {inverse : Bool}
    {qty_step price_step min_qty min_cost c_mult grid_span wallet_exposure_limit : ℚ}
    {max_n_entry_orders : ℕ} {initial_qty_pct eprice_pprice_diff sa spd base : ℚ}
    {crop : Bool} {g : List GridRow}
    (hqz : ∃ z : ℤ, qty_step * 10 ^ 10 = (z : ℚ))
    (hpz : ∃ z : ℤ, price_step * 10 ^ 10 = (z : ℚ)) (hmq : isMul qty_step min_qty)
    (h : approximate_short_grid balance psize pprice inverse qty_step price_step min_qty
      min_cost c_mult grid_span wallet_exposure_limit max_n_entry_orders initial_qty_pct
      eprice_pprice_diff sa spd base crop = Except.ok g) :
    ∀ r ∈ g, rowOK qty_step price_step r := by
  rw [approximate_short_grid] at h
  split at h
  · exact absurd h (by simp)
  · split at h
    · exact calc_whole_short_rows hqz hpz hmq h
    · cases ha : ashort_eval balance inverse qty_step price_step min_qty min_cost c_mult
          grid_span wallet_exposure_limit max_n_entry_orders initial_qty_pct
          eprice_pprice_diff sa spd base pprice psize with
      | error e =>
        rw [ha] at h
        simp only [bind, Except.bind] at h
        exact absurd h (by simp)
      | ok ra =>
        rw [ha] at h
        simp only [bind, Except.bind] at h
        cases hb : ashort_eval balance inverse qty_step price_step min_qty min_cost c_mult
            grid_span wallet_exposure_limit max_n_entry_orders initial_qty_pct
            eprice_pprice_diff sa spd base
            (pprice * (pprice / (ra.1.getD ra.2.2 default).pprice)) psize with
        | error e =>
          rw [hb] at h
          simp only [bind, Except.bind] at h
          exact absurd h (by simp)
        | ok rb =>
          rw [hb] at h
          simp only [bind, Except.bind] at h
          have hrb := ashort_eval_rows hqz hpz hmq hb
          split at h
          · cases hc : ashort_eval balance inverse qty_step price_step min_qty min_cost
                c_mult grid_span wallet_exposure_limit max_n_entry_orders initial_qty_pct
                eprice_pprice_diff sa spd base
                ((rb.1.headD default).price * (pprice / (rb.1.getD rb.2.2 default).pprice))
                psize with
            | error e =>
              rw [hc] at h
              simp only [bind, Except.bind] at h
              exact absurd h (by simp)
            | ok rc =>
              rw [hc] at h
              simp only [bind, Except.bind] at h
              injection h with h
              subst h
              intro r hr
              exact ashort_eval_rows hqz hpz hmq hc r (mem_ite_drop hr)
          · split at h
            · cases hb1 : rb.1 with
              | nil => rw [hb1] at h; exact absurd h (by simp)
              | cons r0 rest =>
                rw [hb1] at h
                injection h with h
                subst h
                intro r hr
                have hrb' : ∀ r ∈ r0 :: rest, rowOK qty_step price_step r := by
                  rw [← hb1]; exact hrb
                rcases List.mem_cons.mp hr with hr | hr
                · subst hr
                  exact ⟨isMul_neg (isMul_max (isMul_calc_min_entry_qty hqz hmq _ _ _)
                    (isMul_round_ hqz _)), (hrb' r0 (List.mem_cons_self r0 rest)).2⟩
                · exact hrb' r (List.mem_cons_of_mem r0 hr)
            · split at h
              · injection h with h
                subst h
                intro r hr
                split at hr
                · simp at hr
                · exact hrb r hr
              · cases hl : ashort_loop balance psize pprice inverse qty_step price_step
                    min_qty min_cost c_mult grid_span wallet_exposure_limit
                    max_n_entry_orders initial_qty_pct eprice_pprice_diff sa spd base
                    5 rb.1 (scanKShort rb.1 |psize|) with
                | error e =>
                  rw [hl] at h
                  simp only [bind, Except.bind] at h
                  exact absurd h (by simp)
                | ok rl =>
                  rw [hl] at h
                  simp only [bind, Except.bind] at h
                  injection h with h
                  subst h
                  intro r hr
                  have hrl := ashort_loop_rows hqz hpz hmq 5 rb.1 (scanKShort rb.1 |psize|)
                    rl hrb hl
                  have hmem := mem_ite_drop hr
                  rcases List.mem_or_eq_of_mem_set hmem with hmem | hmem
                  · exact hrl r hmem
                  · subst hmem
                    have hrk := getD_rowOK hrl rl.2
                    exact ⟨isMul_neg (isMul_max (isMul_calc_min_entry_qty hqz hmq _ _ _)
                      (isMul_round_ hqz _)), hrk.2⟩

/-- Orders whose quantity and price are exact step multiples. -/
def ordOK (qty_step price_step : ℚ) (o : Order) : Prop :=
  isMul qty_step o.qty ∧ isMul price_step o.price

theorem ordOK_empty (qty_step price_step : ℚ) : ordOK qty_step price_step (Order.mk 0 0 "") :=
  ⟨isMul_zero _, isMul_zero _⟩

theorem getLastD_ord_isMul {qty_step price_step : ℚ} {l : List Order}
    (h : ∀ o ∈ l, ordOK qty_step price_step o) {o : Order} (hl : l.getLast? = some o) :
    ordOK qty_step price_step o :=
  h o (List.mem_of_getLast?_eq_some hl)

theorem getLast_q_isMul {step : ℚ} {l : List ℚ} (h : ∀ x ∈ l, isMul step x) :
    isMul step (l.getLast?.getD 0) := by
  cases hl : l.getLast? with
  | none => exact isMul_zero _
  | some x =>
    simp only [Option.getD_some]
    exact h x (List.mem_of_getLast?_eq_some hl)

theorem lcg_unstuck_inl_ok {balance psize pprice lowest_ask ema_band_upper : ℚ}
    {inverse : Bool}
    {qty_step price_step min_qty min_cost c_mult exposure_limit aut aud head psize_ : ℚ}
    (hqz : ∃ z : ℤ, qty_step * 10 ^ 10 = (z : ℚ))
    (hpz : ∃ z : ℤ, price_step * 10 ^ 10 = (z : ℚ)) (hask : isMul price_step lowest_ask)
    {ret : List Order}
    (h : lcg_unstuck balance psize pprice lowest_ask ema_band_upper inverse qty_step
      price_step min_qty min_cost c_mult exposure_limit aut aud head psize_ = Sum.inl ret) :
    ∀ o ∈ ret, ordOK qty_step price_step o := by
  simp only [lcg_unstuck] at h
  split at h
  · split at h
    · split at h
      · split at h
        · injection h with h
          subst h
          intro o ho
          rcases List.mem_singleton.mp ho with rfl
          exact ⟨isMul_neg (isMul_round_dn hqz _), isMul_max hask (isMul_round_up hpz _)⟩
        · exact absurd h (by simp)
      · exact absurd h (by simp)
    · exact absurd h (by simp)
  · exact absurd h (by simp)

theorem lcg_unstuck_inr_ok {balance psize pprice lowest_ask ema_band_upper : ℚ}
    {inverse : Bool}
    {qty_step price_step min_qty min_cost c_mult exposure_limit aut aud head psize_ : ℚ}
    (hqz : ∃ z : ℤ, qty_step * 10 ^ 10 = (z : ℚ))
    (hpz : ∃ z : ℤ, price_step * 10 ^ 10 = (z : ℚ)) (hask : isMul price_step lowest_ask)
    (hps : isMul qty_step psize_) {cp : List Order × ℚ}
    (h : lcg_unstuck balance psize pprice lowest_ask ema_band_upper inverse qty_step
      price_step min_qty min_cost c_mult exposure_limit aut aud head psize_ = Sum.inr cp) :
    (∀ o ∈ cp.1, ordOK qty_step price_step o) ∧ isMul qty_step cp.2 := by
  simp only [lcg_unstuck] at h
  split at h
  · split at h
    · split at h
      · split at h
        · exact absurd h (by simp)
        · injection h with h
          subst h
          refine ⟨?_, isMul_round_ hqz _⟩
          intro o ho
          rcases List.mem_singleton.mp ho with rfl
          exact ⟨isMul_neg (find_long_close_qty_isMul hqz hps),
            isMul_max hask (isMul_round_up hpz _)⟩
      · injection h with h
        subst h
        exact ⟨by simp, hps⟩
    · injection h with h
      subst h
      exact ⟨by simp, hps⟩
  · injection h with h
    subst h
    exact ⟨by simp, hps⟩

theorem lcg_ladder_ok {inverse : Bool}
    {qty_step price_step min_qty min_cost default_close_qty : ℚ}
    (hqz : ∃ z : ℤ, qty_step * 10 ^ 10 = (z : ℚ)) (hmq : isMul qty_step min_qty)
    (hdq : isMul qty_step default_close_qty) :
    ∀ (ps : List ℚ), (∀ p ∈ ps, isMul price_step p) → ∀ (psz : ℚ), isMul qty_step psz →
      ∀ (acc : List Order), (∀ o ∈ acc, ordOK qty_step price_step o) →
      (∀ o ∈ (lcg_ladder inverse qty_step min_qty min_cost default_close_qty ps psz acc).1,
        ordOK qty_step price_step o) ∧
        isMul qty_step (lcg_ladder inverse qty_step min_qty min_cost default_close_qty
          ps psz acc).2 := by
  intro ps
  induction ps with
  | nil => intro _ psz hpsz acc hacc; exact ⟨hacc, hpsz⟩
  | cons p rest ih =>
    intro hps psz hpsz acc hacc
    rw [lcg_ladder]
    split
    · exact ⟨hacc, hpsz⟩
    · apply ih (fun q hq => hps q (List.mem_cons_of_mem p hq)) _ (isMul_round_ hqz _)
      intro o ho
      rcases List.mem_append.mp ho with ho | ho
      · exact hacc o ho
      · rcases List.mem_singleton.mp ho with rfl
        exact ⟨isMul_neg (isMul_min hpsz (isMul_max
          (isMul_calc_min_entry_qty hqz hmq _ _ _) hdq)),
          hps p (List.mem_cons_self p rest)⟩

theorem calc_long_close_grid_orders {balance psize pprice lowest_ask ema_band_upper : ℚ}
    {inverse : Bool}
    {qty_step price_step min_qty min_cost c_mult exposure_limit min_markup markup_range : ℚ}
    {n_close_orders : ℕ} {aut aud : ℚ}
    (hqz : ∃ z : ℤ, qty_step * 10 ^ 10 = (z : ℚ))
    (hpz : ∃ z : ℤ, price_step * 10 ^ 10 = (z : ℚ)) (hmq : isMul qty_step min_qty)
    (hpsize : isMul qty_step psize) (hask : isMul price_step lowest_ask) :
    ∀ o ∈ calc_long_close_grid balance psize pprice lowest_ask ema_band_upper inverse
      qty_step price_step min_qty min_cost c_mult exposure_limit min_markup markup_range
      n_close_orders aut aud, ordOK qty_step price_step o := by
  simp only [calc_long_close_grid]
  set CP := ((linspace (pprice * (1 + min_markup))
    (pprice * (1 + min_markup + markup_range)) n_close_orders).map
      (fun p => round_up p price_step)).filter (fun p => lowest_ask ≤ p) with hCP
  have hcp : ∀ p ∈ CP, isMul price_step p := by
    intro p hp
    rw [hCP] at hp
    have hp' := List.mem_of_mem_filter hp
    rcases List.mem_map.mp hp' with ⟨q, _, hq⟩
    rw [← hq]
    exact isMul_round_up hpz q
  split
  · intro o ho
    rcases List.mem_singleton.mp ho with rfl
    exact ordOK_empty _ _
  · split
    · intro o ho
      rcases List.mem_singleton.mp ho with rfl
      exact ⟨isMul_neg hpsize, hask⟩
    · cases hu : lcg_unstuck balance psize pprice lowest_ask ema_band_upper inverse qty_step
          price_step min_qty min_cost c_mult exposure_limit aut aud (CP.headD 0)
          (round_dn psize qty_step) with
      | inl ret =>
        exact lcg_unstuck_inl_ok hqz hpz hask hu
      | inr cp =>
        have hcp0 := lcg_unstuck_inr_ok hqz hpz hask (isMul_round_dn hqz psize) hu
        have hhead := headD_isMul hcp
        split
        · rename_i ret heq
          exact absurd heq (by simp)
        rename_i cp2 heq
        injection heq with heq
        subst heq
        split
        · split
          · intro o ho
            rcases List.mem_append.mp ho with ho | ho
            · exact hcp0.1 o ho
            · rcases List.mem_singleton.mp ho with rfl
              exact ⟨isMul_neg hcp0.2, hhead⟩
          · exact hcp0.1
        · have hlad := @lcg_ladder_ok inverse qty_step price_step min_qty min_cost
            (round_dn (cp.2 / (CP.length : ℚ)) qty_step) hqz hmq
            (isMul_round_dn hqz (cp.2 / (CP.length : ℚ))) CP.dropLast
            (fun q hq => hcp q (List.dropLast_subset _ hq)) cp.2 hcp0.2 cp.1 hcp0.1
          have hlastp := getLast_q_isMul hcp
          split
          · intro o ho
            rcases List.mem_append.mp ho with ho | ho
            · exact hlad.1 o ho
            · rcases List.mem_singleton.mp ho with rfl
              exact ⟨isMul_neg hlad.2, hlastp⟩
          · cases hlc : (lcg_ladder inverse qty_step min_qty min_cost
                (round_dn (cp.2 / (CP.length : ℚ)) qty_step) CP.dropLast cp.2 cp.1).1.getLast?
              with
            | none =>
              exact hlad.1
            | some lastc =>
              have hlastc := getLastD_ord_isMul hlad.1 hlc
              intro o ho
              rcases List.mem_append.mp ho with ho | ho
              · exact hlad.1 o (List.dropLast_subset _ ho)
              · rcases List.mem_singleton.mp ho with rfl
                exact ⟨isMul_neg (isMul_round_ hqz _), hlastc.2⟩


theorem scg_unstuck_ok (balance short_psize short_pprice highest_bid ema_band_lower : ℚ)
    (inverse : Bool)
    (qty_step price_step min_qty min_cost c_mult wallet_exposure_limit aut aud p0 abs0 : ℚ)
    (hqz : ∃ z : ℤ, qty_step * 10 ^ 10 = (z : ℚ))
    (hpz : ∃ z : ℤ, price_step * 10 ^ 10 = (z : ℚ)) (hbid : isMul price_step highest_bid)
    (hsp : isMul qty_step short_psize) (habs : isMul qty_step abs0) :
    (∀ o ∈ (scg_unstuck balance short_psize short_pprice highest_bid ema_band_lower inverse
      qty_step price_step min_qty min_cost c_mult wallet_exposure_limit aut aud p0 abs0).1,
        ordOK qty_step price_step o) ∧
      isMul qty_step (scg_unstuck balance short_psize short_pprice highest_bid ema_band_lower
        inverse qty_step price_step min_qty min_cost c_mult wallet_exposure_limit aut aud
        p0 abs0).2 := by
  simp only [scg_unstuck]
  split
  · split
    · split
      · refine ⟨?_, isMul_max (isMul_zero _) (isMul_round_ hqz _)⟩
        intro o ho
        rcases List.mem_singleton.mp ho with rfl
        exact ⟨find_short_close_qty_isMul hqz hsp, isMul_min hbid (isMul_round_dn hpz _)⟩
      · exact ⟨by simp, habs⟩
    · exact ⟨by simp, habs⟩
  · exact ⟨by simp, habs⟩

theorem scg_ladder_ok (balance : ℚ) (inverse : Bool)
    (qty_step price_step c_mult wallet_exposure_limit initial_qty_pct min_close_qty
      default_qty : ℚ)
    (hqz : ∃ z : ℤ, qty_step * 10 ^ 10 = (z : ℚ)) (hmcq : isMul qty_step min_close_qty)
    (hdq : isMul qty_step default_qty) :
    ∀ (ps : List ℚ), (∀ p ∈ ps, isMul price_step p) → ∀ (rem : ℚ), isMul qty_step rem →
      ∀ (acc : List Order), (∀ o ∈ acc, ordOK qty_step price_step o) →
      (∀ o ∈ (scg_ladder balance inverse qty_step c_mult wallet_exposure_limit
        initial_qty_pct min_close_qty default_qty ps rem acc).1,
          ordOK qty_step price_step o) ∧
        isMul qty_step (scg_ladder balance inverse qty_step c_mult wallet_exposure_limit
          initial_qty_pct min_close_qty default_qty ps rem acc).2 := by
  intro ps
  induction ps with
  | nil => intro _ rem hrem acc hacc; exact ⟨hacc, hrem⟩
  | cons p rest ih =>
    intro hps rem hrem acc hacc
    rw [scg_ladder]
    split
    · exact ⟨hacc, hrem⟩
    · apply ih (fun q hq => hps q (List.mem_cons_of_mem p hq)) _ (isMul_round_ hqz _)
      intro o ho
      rcases List.mem_append.mp ho with ho | ho
      · exact hacc o ho
      · rcases List.mem_singleton.mp ho with rfl
        exact ⟨isMul_min hrem (isMul_max hdq hmcq), hps p (List.mem_cons_self p rest)⟩

theorem calc_short_close_grid_orders
    {balance short_psize short_pprice highest_bid ema_band_lower : ℚ} {spot inverse : Bool}
    {qty_step price_step min_qty min_cost c_mult wallet_exposure_limit initial_qty_pct
      min_markup markup_range : ℚ} {n_close_orders : ℕ} {aut aud : ℚ}
    (hqz : ∃ z : ℤ, qty_step * 10 ^ 10 = (z : ℚ))
    (hpz : ∃ z : ℤ, price_step * 10 ^ 10 = (z : ℚ)) (hmq : isMul qty_step min_qty)
    (hsp : isMul qty_step short_psize) (hbid : isMul price_step highest_bid) :
    ∀ o ∈ calc_short_close_grid balance short_psize short_pprice highest_bid ema_band_lower
      spot inverse qty_step price_step min_qty min_cost c_mult wallet_exposure_limit
      initial_qty_pct min_markup markup_range n_close_orders aut aud,
      ordOK qty_step price_step o := by
  simp only [calc_short_close_grid]
  set CP := ((linspace (short_pprice * (1 - min_markup))
    (short_pprice * (1 - min_markup - markup_range)) n_close_orders).map
      (fun p => round_dn p price_step)).filter (fun p => p ≤ highest_bid) with hCP
  have hcp : ∀ p ∈ CP, isMul price_step p := by
    intro p hp
    rw [hCP] at hp
    rcases List.mem_map.mp (List.mem_of_mem_filter hp) with ⟨q, _, hq⟩
    rw [← hq]
    exact isMul_round_dn hpz q
  clear_value CP
  split
  · intro o ho
    rcases List.mem_singleton.mp ho with rfl
    exact ordOK_empty _ _
  · split
    · intro o ho
      rcases List.mem_singleton.mp ho with rfl
      exact ordOK_empty _ _
    · split
      · intro o ho
        rcases List.mem_singleton.mp ho with rfl
        exact ⟨isMul_round_ hqz _, isMul_min hbid (isMul_round_dn hpz _)⟩
      · split
        · intro o ho
          rcases List.mem_singleton.mp ho with rfl
          exact ⟨isMul_round_ hqz _, hbid⟩
        · rename_i p
          have hp : isMul price_step p := hcp p (List.mem_cons_self _ _)
          intro o ho
          rcases List.mem_singleton.mp ho with rfl
          exact ⟨isMul_round_ hqz _, hp⟩
        · rename_i p0 a rest
          have hp0 : isMul price_step p0 := hcp p0 (List.mem_cons_self _ _)
          set UR := scg_unstuck balance short_psize short_pprice highest_bid ema_band_lower
            inverse qty_step price_step min_qty min_cost c_mult wallet_exposure_limit aut aud
            p0 |short_psize| with hUR
          have hur : (∀ o ∈ UR.1, ordOK qty_step price_step o) ∧ isMul qty_step UR.2 :=
            scg_unstuck_ok balance short_psize short_pprice highest_bid ema_band_lower
              inverse qty_step price_step min_qty min_cost c_mult wallet_exposure_limit aut
              aud p0 |short_psize| hqz hpz hbid hsp (isMul_abs hsp)
          split
          · intro o ho
            rcases List.mem_singleton.mp ho with rfl
            exact ⟨isMul_round_ hqz _, hp0⟩
          · have hmcq0 := isMul_calc_min_entry_qty hqz hmq p0 inverse min_cost
            have hlad := scg_ladder_ok balance inverse qty_step price_step c_mult
              wallet_exposure_limit initial_qty_pct
              (calc_min_entry_qty p0 inverse qty_step min_qty min_cost)
              (max (calc_min_entry_qty p0 inverse qty_step min_qty min_cost)
                (round_dn (UR.2 / ((p0 :: a :: rest).length : ℚ)) qty_step))
              hqz hmcq0 (isMul_max hmcq0
                (isMul_round_dn hqz (UR.2 / ((p0 :: a :: rest).length : ℚ))))
              (p0 :: a :: rest) hcp (round_ UR.2 qty_step) (isMul_round_ hqz _) UR.1 hur.1
            split
            · exact hlad.1
            · cases hlc : (scg_ladder balance inverse qty_step c_mult wallet_exposure_limit
                  initial_qty_pct (calc_min_entry_qty p0 inverse qty_step min_qty min_cost)
                  (max (calc_min_entry_qty p0 inverse qty_step min_qty min_cost)
                    (round_dn (UR.2 / ((p0 :: a :: rest).length : ℚ)) qty_step))
                  (p0 :: a :: rest) (round_ UR.2 qty_step) UR.1).1.getLast? with
              | none =>
                intro o ho
                rcases List.mem_singleton.mp ho with rfl
                exact ⟨hur.2, hp0⟩
              | some lastc =>
                have hlastc := getLastD_ord_isMul hlad.1 hlc
                intro o ho
                rcases List.mem_append.mp ho with ho | ho
                · exact hlad.1 o (List.dropLast_subset _ ho)
                · rcases List.mem_singleton.mp ho with rfl
                  exact ⟨isMul_round_ hqz _, hlastc.2⟩


theorem isMul_calc_initial_entry_qty {qty_step min_qty : ℚ}
    (hqz : ∃ z : ℤ, qty_step * 10 ^ 10 = (z : ℚ)) (hmq : isMul qty_step min_qty)
    (balance price : ℚ) (inverse : Bool) (min_cost c_mult wel iqp : ℚ) :
    isMul qty_step (calc_initial_entry_qty balance price inverse qty_step min_qty min_cost
      c_mult wel iqp) := by
  rw [calc_initial_entry_qty]
  exact isMul_max (isMul_calc_min_entry_qty hqz hmq _ _ _) (isMul_round_ hqz _)

theorem mem_ite_or {α : Type} {c : Prop} [Decidable c] {a b : List α} {x : α}
    (h : x ∈ if c then a else b) : x ∈ a ∨ x ∈ b := by
  split at h
  · exact Or.inl h
  · exact Or.inr h

theorem long_grid_walk_orders
    {highest_bid pprice psize wallet_exposure_limit secondary_allocation : ℚ}
    {inverse : Bool} {qty_step price_step min_qty min_cost : ℚ} {n : ℕ}
    (hqz : ∃ z : ℤ, qty_step * 10 ^ 10 = (z : ℚ)) (hmq : isMul qty_step min_qty)
    (hbid : isMul price_step highest_bid) :
    ∀ (rows : List GridRow), (∀ r ∈ rows, rowOK qty_step price_step r) →
      ∀ (i : ℕ) (acc : List Order), (∀ o ∈ acc, ordOK qty_step price_step o) →
      ∀ o ∈ long_grid_walk highest_bid pprice psize wallet_exposure_limit
        secondary_allocation inverse qty_step min_qty min_cost n i rows acc,
        ordOK qty_step price_step o := by
  intro rows
  induction rows with
  | nil =>
    intro _ i acc hacc
    rw [long_grid_walk]
    exact hacc
  | cons r rest ih =>
    intro hrows i acc hacc
    rw [long_grid_walk]
    split
    · exact ih (fun q hq => hrows q (List.mem_cons_of_mem r hq)) (i + 1) acc hacc
    · split
      · exact hacc
      · have hr := hrows r (List.mem_cons_self r rest)
        have hq' : isMul qty_step (max (calc_min_entry_qty (min highest_bid r.price)
            inverse qty_step min_qty min_cost) r.qty) :=
          isMul_max (isMul_calc_min_entry_qty hqz hmq _ _ _) hr.1
        have hp' : isMul price_step (min highest_bid r.price) := isMul_min hbid hr.2
        apply ih (fun q hq => hrows q (List.mem_cons_of_mem r hq)) (i + 1)
        cases hlast : acc.getLast? with
        | none =>
          intro o ho
          rcases List.mem_append.mp ho with ho | ho
          · exact hacc o ho
          · rcases List.mem_singleton.mp ho with rfl
            exact ⟨hq', hp'⟩
        | some lastO =>
          intro o ho
          rcases mem_ite_or ho with ho | ho
          · rcases List.mem_append.mp ho with ho | ho
            · exact hacc o ho
            · rcases List.mem_singleton.mp ho with rfl
              exact ⟨hq', hp'⟩
          · exact hacc o ho

theorem short_grid_walk_orders
    {lowest_ask pprice psize wallet_exposure_limit secondary_allocation : ℚ}
    {inverse : Bool} {qty_step price_step min_qty min_cost : ℚ} {n : ℕ}
    (hqz : ∃ z : ℤ, qty_step * 10 ^ 10 = (z : ℚ)) (hmq : isMul qty_step min_qty)
    (hask : isMul price_step lowest_ask) :
    ∀ (rows : List GridRow), (∀ r ∈ rows, rowOK qty_step price_step r) →
      ∀ (i : ℕ) (acc : List Order), (∀ o ∈ acc, ordOK qty_step price_step o) →
      ∀ o ∈ short_grid_walk lowest_ask pprice psize wallet_exposure_limit
        secondary_allocation inverse qty_step min_qty min_cost n i rows acc,
        ordOK qty_step price_step o := by
  intro rows
  induction rows with
  | nil =>
    intro _ i acc hacc
    rw [short_grid_walk]
    exact hacc
  | cons r rest ih =>
    intro hrows i acc hacc
    rw [short_grid_walk]
    split
    · exact ih (fun q hq => hrows q (List.mem_cons_of_mem r hq)) (i + 1) acc hacc
    · have hr := hrows r (List.mem_cons_self r rest)
      have hq' : isMul qty_step (-(max (calc_min_entry_qty (max lowest_ask r.price)
          inverse qty_step min_qty min_cost) |r.qty|)) :=
        isMul_neg (isMul_max (isMul_calc_min_entry_qty hqz hmq _ _ _) (isMul_abs hr.1))
      have hp' : isMul price_step (max lowest_ask r.price) := isMul_max hask hr.2
      apply ih (fun q hq => hrows q (List.mem_cons_of_mem r hq)) (i + 1)
      cases hlast : acc.getLast? with
      | none =>
        intro o ho
        rcases List.mem_append.mp ho with ho | ho
        · exact hacc o ho
        · rcases List.mem_singleton.mp ho with rfl
          exact ⟨hq', hp'⟩
      | some lastO =>
        intro o ho
        rcases mem_ite_or ho with ho | ho
        · rcases List.mem_append.mp ho with ho | ho
          · exact hacc o ho
          · rcases List.mem_singleton.mp ho with rfl
            exact ⟨hq', hp'⟩
        · exact hacc o ho

theorem calc_long_entry_grid_orders
    {balance psize pprice highest_bid ema_band_lower : ℚ} {inverse do_long : Bool}
    {qty_step price_step min_qty min_cost c_mult grid_span wallet_exposure_limit : ℚ}
    {max_n_entry_orders : ℕ}
    {iqp ied epd sa spd base aut aud : ℚ} {orders : List Order}
    (hqz : ∃ z : ℤ, qty_step * 10 ^ 10 = (z : ℚ))
    (hpz : ∃ z : ℤ, price_step * 10 ^ 10 = (z : ℚ)) (hmq : isMul qty_step min_qty)
    (hbid : isMul price_step highest_bid)
    (h : calc_long_entry_grid balance psize pprice highest_bid ema_band_lower inverse
      do_long qty_step price_step min_qty min_cost c_mult grid_span wallet_exposure_limit
      max_n_entry_orders iqp ied epd sa spd base aut aud = Except.ok orders) :
    ∀ o ∈ orders, ordOK qty_step price_step o := by
  simp only [calc_long_entry_grid] at h
  split at h
  · split at h
    · injection h with h
      subst h
      intro o ho
      rcases List.mem_singleton.mp ho with rfl
      exact ⟨isMul_calc_initial_entry_qty hqz hmq _ _ _ _ _ _ _,
        isMul_min hbid (isMul_round_dn hpz _)⟩
    · split at h
      · injection h with h
        subst h
        intro o ho
        rcases List.mem_singleton.mp ho with rfl
        exact ordOK_empty _ _
      · split at h
        · injection h with h
          subst h
          intro o ho
          rcases List.mem_singleton.mp ho with rfl
          exact ⟨find_entry_qty_isMul hqz, isMul_min hbid (isMul_round_dn hpz _)⟩
        · split at h
          · exact absurd h (by simp)
          · injection h with h
            subst h
            intro o ho
            rcases List.mem_singleton.mp ho with rfl
            exact ordOK_empty _ _
          · rename_i r0 rest hap
            have hrows := approximate_long_rows hqz hpz hmq hap
            split at h
            · injection h with h
              subst h
              intro o ho
              rcases List.mem_singleton.mp ho with rfl
              refine ⟨isMul_max (isMul_calc_min_entry_qty hqz hmq _ _ _)
                (isMul_min (isMul_round_ hqz _) ?_), isMul_min hbid (isMul_round_dn hpz _)⟩
              exact (hrows r0 (List.mem_cons_self r0 rest)).1
            · injection h with h
              subst h
              split
              · intro o ho
                rcases List.mem_singleton.mp ho with rfl
                exact ordOK_empty _ _
              · exact long_grid_walk_orders hqz hmq hbid (r0 :: rest) hrows 0 []
                  (by simp)
  · injection h with h
    subst h
    intro o ho
    rcases List.mem_singleton.mp ho with rfl
    exact ordOK_empty _ _

theorem calc_short_entry_grid_orders
    {balance psize pprice lowest_ask ema_band_upper : ℚ} {inverse do_short : Bool}
    {qty_step price_step min_qty min_cost c_mult grid_span wallet_exposure_limit : ℚ}
    {max_n_entry_orders : ℕ}
    {iqp ied epd sa spd base aut aud : ℚ} {orders : List Order}
    (hqz : ∃ z : ℤ, qty_step * 10 ^ 10 = (z : ℚ))
    (hpz : ∃ z : ℤ, price_step * 10 ^ 10 = (z : ℚ)) (hmq : isMul qty_step min_qty)
    (hask : isMul price_step lowest_ask)
    (h : calc_short_entry_grid balance psize pprice lowest_ask ema_band_upper inverse
      do_short qty_step price_step min_qty min_cost c_mult grid_span wallet_exposure_limit
      max_n_entry_orders iqp ied epd sa spd base aut aud = Except.ok orders) :
    ∀ o ∈ orders, ordOK qty_step price_step o := by
  simp only [calc_short_entry_grid] at h
  split at h
  · split at h
    · injection h with h
      subst h
      intro o ho
      rcases List.mem_singleton.mp ho with rfl
      exact ⟨isMul_neg (isMul_calc_initial_entry_qty hqz hmq _ _ _ _ _ _ _),
        isMul_max hask (isMul_round_up hpz _)⟩
    · split at h
      · injection h with h
        subst h
        intro o ho
        rcases List.mem_singleton.mp ho with rfl
        exact ordOK_empty _ _
      · split at h
        · injection h with h
          subst h
          intro o ho
          rcases List.mem_singleton.mp ho with rfl
          exact ⟨isMul_neg (find_entry_qty_isMul hqz),
            isMul_max hask (isMul_round_up hpz _)⟩
        · split at h
          · exact absurd h (by simp)
          · injection h with h
            subst h
            intro o ho
            rcases List.mem_singleton.mp ho with rfl
            exact ordOK_empty _ _
          · rename_i r0 rest hap
            have hrows := approximate_short_rows hqz hpz hmq hap
            split at h
            · injection h with h
              subst h
              intro o ho
              rcases List.mem_singleton.mp ho with rfl
              refine ⟨isMul_neg (isMul_max (isMul_calc_min_entry_qty hqz hmq _ _ _)
                (isMul_min (isMul_round_ hqz _) ?_)),
                isMul_max hask (isMul_round_up hpz _)⟩
              exact isMul_abs (hrows r0 (List.mem_cons_self r0 rest)).1
            · injection h with h
              subst h
              split
              · intro o ho
                rcases List.mem_singleton.mp ho with rfl
                exact ordOK_empty _ _
              · exact short_grid_walk_orders hqz hmq hask (r0 :: rest) hrows 0 []
                  (by simp)
  · injection h with h
    subst h
    intro o ho
    rcases List.mem_singleton.mp ho with rfl
    exact ordOK_empty _ _


/-! ### Claim C4: every planned order is on the step grids -/

/-- Claim C4: for every admissible input (step sizes exact at the 1e-10 rounding
scale, `min_qty` on the qty grid, the current position size on the qty grid and
the book price on the price grid), every order emitted by the four planners
(`calc_long_entry_grid`, `calc_short_entry_grid`, `calc_long_close_grid`,
`calc_short_close_grid`) with non-zero qty has qty an exact multiple of
`qty_step` and price an exact multiple of `price_step`. -/
theorem C4_step_multiples :
    (∀ (balance psize pprice highest_bid ema_band_lower : ℚ) (inverse do_long : Bool)
      (qty_step price_step min_qty min_cost c_mult grid_span wallet_exposure_limit : ℚ)
      (max_n_entry_orders : ℕ) (iqp ied epd sa spd base aut aud : ℚ)
      (orders : List Order),
      (∃ z : ℤ, qty_step * 10 ^ 10 = (z : ℚ)) → (∃ z : ℤ, price_step * 10 ^ 10 = (z : ℚ)) →
      isMul qty_step min_qty → isMul price_step highest_bid →
      calc_long_entry_grid balance psize pprice highest_bid ema_band_lower inverse do_long
        qty_step price_step min_qty min_cost c_mult grid_span wallet_exposure_limit
        max_n_entry_orders iqp ied epd sa spd base aut aud = Except.ok orders →
      ∀ o ∈ orders, o.qty ≠ 0 → isMul qty_step o.qty ∧ isMul price_step o.price) ∧
    (∀ (balance psize pprice lowest_ask ema_band_upper : ℚ) (inverse do_short : Bool)
      (qty_step price_step min_qty min_cost c_mult grid_span wallet_exposure_limit : ℚ)
      (max_n_entry_orders : ℕ) (iqp ied epd sa spd base aut aud : ℚ)
      (orders : List Order),
      (∃ z : ℤ, qty_step * 10 ^ 10 = (z : ℚ)) → (∃ z : ℤ, price_step * 10 ^ 10 = (z : ℚ)) →
      isMul qty_step min_qty → isMul price_step lowest_ask →
      calc_short_entry_grid balance psize pprice lowest_ask ema_band_upper inverse do_short
        qty_step price_step min_qty min_cost c_mult grid_span wallet_exposure_limit
        max_n_entry_orders iqp ied epd sa spd base aut aud = Except.ok orders →
      ∀ o ∈ orders, o.qty ≠ 0 → isMul qty_step o.qty ∧ isMul price_step o.price) ∧
    (∀ (balance psize pprice lowest_ask ema_band_upper : ℚ) (inverse : Bool)
      (qty_step price_step min_qty min_cost c_mult exposure_limit min_markup
        markup_range : ℚ) (n_close_orders : ℕ) (aut aud : ℚ),
      (∃ z : ℤ, qty_step * 10 ^ 10 = (z : ℚ)) → (∃ z : ℤ, price_step * 10 ^ 10 = (z : ℚ)) →
      isMul qty_step min_qty → isMul qty_step psize → isMul price_step lowest_ask →
      ∀ o ∈ calc_long_close_grid balance psize pprice lowest_ask ema_band_upper inverse
        qty_step price_step min_qty min_cost c_mult exposure_limit min_markup markup_range
        n_close_orders aut aud,
        o.qty ≠ 0 → isMul qty_step o.qty ∧ isMul price_step o.price) ∧
    (∀ (balance short_psize short_pprice highest_bid ema_band_lower : ℚ)
      (spot inverse : Bool)
      (qty_step price_step min_qty min_cost c_mult wallet_exposure_limit initial_qty_pct
        min_markup markup_range : ℚ) (n_close_orders : ℕ) (aut aud : ℚ),
      (∃ z : ℤ, qty_step * 10 ^ 10 = (z : ℚ)) → (∃ z : ℤ, price_step * 10 ^ 10 = (z : ℚ)) →
      isMul qty_step min_qty → isMul qty_step short_psize → isMul price_step highest_bid →
      ∀ o ∈ calc_short_close_grid balance short_psize short_pprice highest_bid
        ema_band_lower spot inverse qty_step price_step min_qty min_cost c_mult
        wallet_exposure_limit initial_qty_pct min_markup markup_range n_close_orders
        aut aud,
        o.qty ≠ 0 → isMul qty_step o.qty ∧ isMul price_step o.price) := by
  refine ⟨?_, ?_, ?_, ?_⟩
  · intro balance psize pprice highest_bid ema_band_lower inverse do_long qty_step
      price_step min_qty min_cost c_mult grid_span wel mneo iqp ied epd sa spd base aut aud
      orders hqz hpz hmq hbid h o ho _
    exact calc_long_entry_grid_orders hqz hpz hmq hbid h o ho
  · intro balance psize pprice lowest_ask ema_band_upper inverse do_short qty_step
      price_step min_qty min_cost c_mult grid_span wel mneo iqp ied epd sa spd base aut aud
      orders hqz hpz hmq hask h o ho _
    exact calc_short_entry_grid_orders hqz hpz hmq hask h o ho
  · intro balance psize pprice lowest_ask ema_band_upper inverse qty_step price_step
      min_qty min_cost c_mult el mm mr nco aut aud hqz hpz hmq hps hask o ho _
    exact calc_long_close_grid_orders hqz hpz hmq hps hask o ho
  · intro balance psize pprice highest_bid ema_band_lower spot inverse qty_step price_step
      min_qty min_cost c_mult wel iqp mm mr nco aut aud hqz hpz hmq hps hbid o ho _
    exact calc_short_close_grid_orders hqz hpz hmq hps hbid o ho

set_option maxRecDepth 100000 in
theorem C4_step_multiples_witness :
    isMul (1/1000 : ℚ) (3/20 : ℚ) ∧ isMul (1/100 : ℚ) (100 : ℚ) :=
  C4_step_multiples.1 1000 0 0 100 100 false true (1/1000) (1/100) (1/1000) 5 1 (3/10)
    (3/10) 10 (1/20) 0 (1/100) 0 0 (809017/500000) 0 0
    [Order.mk (3/20) 100 "long_ientry"]
    ⟨10 ^ 7, by norm_num⟩ ⟨10 ^ 8, by norm_num⟩ ⟨1, by norm_num⟩ ⟨10 ^ 4, by norm_num⟩
    (by decide) (Order.mk (3/20) 100 "long_ientry") (List.mem_singleton.mpr rfl)
    (by norm_num)


/-! ### Claim C5: flat-account initial long entry -/

/-- Claim C5: with `psize == 0` and the long side enabled, the long entry
planner emits exactly one `long_ientry` at
`min(highest_bid, round_dn(ema_band_lower * (1 - initial_eprice_ema_dist), price_step))`
with quantity
`max(min_entry_qty, round(cost_to_qty(balance * wallet_exposure_limit * initial_qty_pct, price), qty_step))`;
in particular the spec's scenario 1 yields qty `0.15` at price `100.00`. -/
theorem C5_initial_long_entry :
    (∀ (balance pprice highest_bid ema_band_lower : ℚ) (inverse : Bool)
      (qty_step price_step min_qty min_cost c_mult grid_span wallet_exposure_limit : ℚ)
      (max_n_entry_orders : ℕ) (iqp ied epd sa spd base aut aud : ℚ),
      calc_long_entry_grid balance 0 pprice highest_bid ema_band_lower inverse true qty_step
        price_step min_qty min_cost c_mult grid_span wallet_exposure_limit max_n_entry_orders
        iqp ied epd sa spd base aut aud =
        Except.ok [Order.mk
          (max (calc_min_entry_qty
              (min highest_bid (round_dn (ema_band_lower * (1 - ied)) price_step))
              inverse qty_step min_qty min_cost)
            (round_ (cost_to_qty (balance * wallet_exposure_limit * iqp)
              (min highest_bid (round_dn (ema_band_lower * (1 - ied)) price_step))
              inverse c_mult) qty_step))
          (min highest_bid (round_dn (ema_band_lower * (1 - ied)) price_step))
          "long_ientry"]) ∧
      calc_long_entry_grid 1000 0 0 100 100 false true (1/1000) (1/100) (1/1000) 5 1 (3/10)
        (3/10) 10 (1/20) 0 (1/100) 0 0 (809017/500000) 0 0 =
        Except.ok [Order.mk (3/20) 100 "long_ientry"] := by
  constructor
  · intro balance pprice highest_bid ema_band_lower inverse qty_step price_step min_qty
      min_cost c_mult grid_span wallet_exposure_limit max_n_entry_orders iqp ied epd sa spd
      base aut aud
    simp only [calc_long_entry_grid, calc_initial_entry_qty]
    rw [if_pos (Or.inl trivial), if_pos trivial]
  · decide

/-- Witness for C5: the general statement applied at the spec's scenario-1
inputs reproduces the concrete order. -/
theorem C5_initial_long_entry_witness :
    calc_long_entry_grid 1000 0 0 100 100 false true (1/1000) (1/100) (1/1000) 5 1 (3/10)
      (3/10) 10 (1/20) 0 (1/100) 0 0 (809017/500000) 0 0 =
      Except.ok [Order.mk
        (max (calc_min_entry_qty (min 100 (round_dn (100 * (1 - 0)) (1/100))) false (1/1000)
          (1/1000) 5)
          (round_ (cost_to_qty (1000 * (3/10) * (1/20))
            (min 100 (round_dn (100 * (1 - 0)) (1/100))) false 1) (1/1000)))
        (min 100 (round_dn (100 * (1 - 0)) (1/100)))
        "long_ientry"] :=
  C5_initial_long_entry.1 1000 0 100 100 false (1/1000) (1/100) (1/1000) 5 1 (3/10) (3/10)
    10 (1/20) 0 (1/100) 0 0 (809017/500000) 0 0

/-! ### Claim C8: exposure at or above the limit blocks further entries -/

/-- Claim C8: with a non-empty position whose wallet exposure is at or above
`wallet_exposure_limit`, both entry planners return exactly the single empty
order `(0.0, 0.0, "")`. -/
theorem C8_exposure_cap_blocks_entries
    (balance psize pprice highest_bid ema_band_lower : ℚ) (inverse do_long : Bool)
    (qty_step price_step min_qty min_cost c_mult grid_span wallet_exposure_limit : ℚ)
    (max_n_entry_orders : ℕ) (iqp ied epd sa spd base aut aud : ℚ)
    (sbalance spsize spprice lowest_ask ema_band_upper : ℚ) (sinverse do_short : Bool)
    (sqty_step sprice_step smin_qty smin_cost sc_mult sgrid_span swel : ℚ)
    (smax_n : ℕ) (siqp sied sepd ssa sspd sbase saut saud : ℚ)
    (hps : psize ≠ 0)
    (hwe : wallet_exposure_limit ≤ qty_to_cost psize pprice inverse c_mult / balance)
    (hsps : spsize ≠ 0)
    (hswe : swel ≤ qty_to_cost spsize spprice sinverse sc_mult / sbalance) :
    calc_long_entry_grid balance psize pprice highest_bid ema_band_lower inverse do_long
      qty_step price_step min_qty min_cost c_mult grid_span wallet_exposure_limit
      max_n_entry_orders iqp ied epd sa spd base aut aud = Except.ok [Order.mk 0 0 ""] ∧
    calc_short_entry_grid sbalance spsize spprice lowest_ask ema_band_upper sinverse do_short
      sqty_step sprice_step smin_qty smin_cost sc_mult sgrid_span swel smax_n siqp sied sepd
      ssa sspd sbase saut saud = Except.ok [Order.mk 0 0 ""] := by
  constructor
  · simp only [calc_long_entry_grid]
    by_cases hcond : do_long = true ∨
        calc_min_entry_qty highest_bid inverse qty_step min_qty min_cost < psize
    · rw [if_pos hcond, if_neg hps, if_pos hwe]
    · rw [if_neg hcond]
  · simp only [calc_short_entry_grid]
    by_cases hcond : do_short = true ∨
        calc_min_entry_qty lowest_ask sinverse sqty_step smin_qty smin_cost < |spsize|
    · rw [if_pos hcond, if_neg hsps, if_pos hswe]
    · rw [if_neg hcond]

/-- Witness for C8: a long position of size 1 at price 100 on balance 1000
has wallet exposure `1/10 = wallet_exposure_limit`, and a short position of
size `-1` likewise; both planners emit the empty order. -/
theorem C8_exposure_cap_blocks_entries_witness :
    calc_long_entry_grid 1000 1 100 100 100 false true (1/1000) (1/100) (1/1000) 5 1 (3/10)
      (1/10) 10 (1/20) 0 (1/100) 0 0 (809017/500000) 0 0 = Except.ok [Order.mk 0 0 ""] ∧
    calc_short_entry_grid 1000 (-1) 100 100 100 false true (1/1000) (1/100) (1/1000) 5 1
      (3/10) (1/10) 10 (1/20) 0 (1/100) 0 0 (809017/500000) 0 0 =
      Except.ok [Order.mk 0 0 ""] :=
  C8_exposure_cap_blocks_entries 1000 1 100 100 100 false true (1/1000) (1/100) (1/1000) 5 1
    (3/10) (1/10) 10 (1/20) 0 (1/100) 0 0 (809017/500000) 0 0
    1000 (-1) 100 100 100 false true (1/1000) (1/100) (1/1000) 5 1 (3/10) (1/10) 10 (1/20) 0
    (1/100) 0 0 (809017/500000) 0 0
    (by norm_num) (by norm_num [qty_to_cost]) (by norm_num) (by norm_num [qty_to_cost])

/-! ### Claim C10: entry-solver division guard -/

/-- Claim C10: the wallet exposure feeding the entry solver's first guess is
strictly positive whenever `psize ≠ 0`, `pprice > 0`, `balance > 0` (with a
positive contract multiplier); with `psize = 0` the exposure is `0`, so for a
positive target the `wallet_exposure >= target * 0.99` early-return guard does
not fire and the first guess divides `abs(psize) * target = 0` by the zero
exposure: the division-guard precondition is `psize ≠ 0`. -/
theorem C10_entry_solver_guard (balance psize pprice wallet_exposure_target : ℚ)
    (inverse : Bool) (qty_step c_mult : ℚ)
    (hb : 0 < balance) (hpp : 0 < pprice) (hcm : 0 < c_mult) :
    (psize ≠ 0 → 0 < qty_to_cost psize pprice inverse c_mult / balance) ∧
      (psize = 0 → qty_to_cost psize pprice inverse c_mult / balance = 0 ∧
        (0 < wallet_exposure_target →
          ¬ wallet_exposure_target * (99/100) ≤ qty_to_cost psize pprice inverse c_mult / balance)
        ∧ |psize| * wallet_exposure_target = 0) ∧
      fewe_first_guess balance psize pprice wallet_exposure_target inverse qty_step c_mult =
        round_ (|psize| * wallet_exposure_target /
          (qty_to_cost psize pprice inverse c_mult / balance)) qty_step := by
  refine ⟨fun hps => ?_, fun hps => ?_, rfl⟩
  · apply div_pos _ hb
    unfold qty_to_cost
    cases inverse
    · simp only [Bool.false_eq_true, if_false]
      have : psize * pprice ≠ 0 := mul_ne_zero hps (ne_of_gt hpp)
      exact abs_pos.mpr this
    · simp only [if_true, if_pos hpp]
      apply mul_pos _ hcm
      apply abs_pos.mpr
      exact div_ne_zero hps (ne_of_gt hpp)
  · subst hps
    have hq0 : qty_to_cost 0 pprice inverse c_mult = 0 := by
      unfold qty_to_cost
      cases inverse <;> simp
    rw [hq0]
    refine ⟨by simp, fun ht => ?_, by simp⟩
    rw [zero_div]
    push_neg
    positivity

/-- Witness for C10: concrete instance `balance = 1000`, `psize = 1/2`,
`pprice = 100`, target `3/10`, linear mode. -/
theorem C10_entry_solver_guard_witness :
    0 < qty_to_cost (1/2) 100 false 1 / 1000 :=
  (C10_entry_solver_guard 1000 (1/2) 100 (3/10) false (1/1000) 1 (by norm_num) (by norm_num)
    (by norm_num)).1 (by norm_num)

/-! ### Claim C6: cost/qty round trip -/

/-- Claim C6 as stated is false: for a negative cost the round trip returns
the absolute value, and in inverse mode a negative `c_mult` flips the sign.
Concretely `qty_to_cost (cost_to_qty (-1) 1) 1 = 1 ≠ -1` in linear mode
(relative error 2), and in inverse mode with `c_mult = -1`,
`qty_to_cost (cost_to_qty 1 1) 1 = -1 ≠ 1`. -/
theorem C6_counterexample :
    qty_to_cost (cost_to_qty (-1) 1 false 1) 1 false 1 = 1 ∧
      ¬ |qty_to_cost (cost_to_qty (-1) 1 false 1) 1 false 1 - (-1)| ≤ (1 / 10 ^ 9) * |(-1 : ℚ)| ∧
      qty_to_cost (cost_to_qty 1 1 true (-1)) 1 true (-1) = -1 ∧
      ¬ |qty_to_cost (cost_to_qty 1 1 true (-1)) 1 true (-1) - 1| ≤ (1 / 10 ^ 9) * |(1 : ℚ)| := by
  refine ⟨by norm_num [qty_to_cost, cost_to_qty], ?_, by norm_num [qty_to_cost, cost_to_qty], ?_⟩
  · norm_num [qty_to_cost, cost_to_qty]
  · norm_num [qty_to_cost, cost_to_qty]

/-- Claim C6, amended: for every cost `c ≥ 0` and price `p > 0`, the round
trip `qty_to_cost (cost_to_qty c p) p` returns `c` exactly (hence within
`1e-9` relative) in linear mode, and in inverse mode whenever `c_mult > 0`. -/
theorem C6_cost_qty_roundtrip (c p c_mult : ℚ) (hp : 0 < p) (hc : 0 ≤ c) :
    qty_to_cost (cost_to_qty c p false c_mult) p false c_mult = c ∧
      |qty_to_cost (cost_to_qty c p false c_mult) p false c_mult - c| ≤ (1 / 10 ^ 9) * |c| ∧
      (0 < c_mult →
        qty_to_cost (cost_to_qty c p true c_mult) p true c_mult = c ∧
          |qty_to_cost (cost_to_qty c p true c_mult) p true c_mult - c| ≤ (1 / 10 ^ 9) * |c|) := by
  have hlin : qty_to_cost (cost_to_qty c p false c_mult) p false c_mult = c := by
    simp only [cost_to_qty, qty_to_cost, if_pos hp, if_neg (Bool.false_ne_true), Bool.false_eq_true,
      if_false]
    rw [div_mul_cancel₀ _ (ne_of_gt hp)]
    exact abs_of_nonneg hc
  refine ⟨hlin, ?_, fun hcm => ?_⟩
  · rw [hlin, sub_self, abs_zero]
    positivity
  · have hinv : qty_to_cost (cost_to_qty c p true c_mult) p true c_mult = c := by
      simp only [cost_to_qty, qty_to_cost, if_pos hp, if_true]
      have h1 : c * p / c_mult / p = c / c_mult := by
        field_simp
        ring
      rw [h1, abs_div, abs_of_nonneg hc, abs_of_pos hcm,
        div_mul_cancel₀ _ (ne_of_gt hcm)]
    refine ⟨hinv, ?_⟩
    rw [hinv, sub_self, abs_zero]
    positivity

/-- Witness for C6: concrete instance with `c = 5`, `p = 2`, `c_mult = 3`. -/
theorem C6_cost_qty_roundtrip_witness :
    qty_to_cost (cost_to_qty 5 2 false 3) 2 false 3 = 5 ∧
      qty_to_cost (cost_to_qty 5 2 true 3) 2 true 3 = 5 := by
  have h := C6_cost_qty_roundtrip 5 2 3 (by norm_num) (by norm_num)
  exact ⟨h.1, (h.2.2 (by norm_num)).1⟩

/-! ### Claim C7: position round trip -/

/-- Claim C7: opening a position of size `q` (a multiple of `qty_step`) from
a flat `(0, 0)` state and then closing it with `-q` at any price returns the
position to exactly `(0, 0)`. -/
theorem C7_psize_pprice_roundtrip (qty_step q p p' : ℚ) (hs : 0 < qty_step)
    (hz : ∃ z : ℤ, qty_step * 10 ^ 10 = (z : ℚ)) (hm : isMul qty_step q) :
    calc_new_psize_pprice (calc_new_psize_pprice 0 0 q p qty_step).1
      (calc_new_psize_pprice 0 0 q p qty_step).2 (-q) p' qty_step = (0, 0) := by
  have hr0 : round_ 0 qty_step = 0 := round_eq_self_of_isMul hs hz (isMul_zero _)
  by_cases hq : q = 0
  · subst hq
    simp [calc_new_psize_pprice]
  · have hrq : round_ (0 + q) qty_step = q := by
      rw [zero_add]
      exact round_eq_self_of_isMul hs hz hm
    have h1 : calc_new_psize_pprice 0 0 q p qty_step = (q, p) := by
      rw [calc_new_psize_pprice, if_neg hq]
      simp only [hrq, if_neg hq]
      simp [nan_to_0, div_self hq]
    rw [h1]
    have hq' : -q ≠ 0 := neg_ne_zero.mpr hq
    rw [calc_new_psize_pprice, if_neg hq']
    simp [hr0]

/-- Witness for C7: concrete instance `qty_step = 1/1000`, `q = 3/1000`. -/
theorem C7_psize_pprice_roundtrip_witness :
    calc_new_psize_pprice (calc_new_psize_pprice 0 0 (3/1000) 50 (1/1000)).1
      (calc_new_psize_pprice 0 0 (3/1000) 50 (1/1000)).2 (-(3/1000)) 60 (1/1000) = (0, 0) :=
  C7_psize_pprice_roundtrip (1/1000) (3/1000) 50 60 (by norm_num)
    ⟨10 ^ 7, by norm_num⟩ ⟨3, by norm_num⟩

/-! ### Simulator claims: fill equity, liquidation, stats cadence (C1, C2, C3, C9) -/

theorem ema_step_fills (p : BTParams) (alL al_L alS al_S : ℚ × ℚ × ℚ) (st : BState)
    (price : ℚ) : (ema_step p alL al_L alS al_S st price).fills = st.fills := by
  simp only [ema_step]
  split
  · split
    · rfl
    · rfl
  · split
    · rfl
    · rfl

theorem ema_step_stats (p : BTParams) (alL al_L alS al_S : ℚ × ℚ × ℚ) (st : BState)
    (price : ℚ) : (ema_step p alL al_L alS al_S st price).stats = st.stats := by
  simp only [ema_step]
  split
  · split
    · rfl
    · rfl
  · split
    · rfl
    · rfl

/-- Claim C9: every `*_bankruptcy` fill appended by the liquidation block has
qty field `0` (the position is zeroed before the record is built), while its
`pnl` and `fee` fields are computed from the pre-wipe position size and
price. -/
theorem C9_bankruptcy_fill_fields (p : BTParams) (k : ℕ) (ts price : ℚ) (st : BState) :
    ∀ f ∈ (liq_wipe p k ts price st).fills, f ∉ st.fills →
      f.qty = 0 ∧
      (f.tag = "long_bankruptcy" ∨ f.tag = "short_bankruptcy") ∧
      (f.tag = "long_bankruptcy" →
        f.pnl = calc_long_pnl st.long_pprice price (-st.long_psize) p.inverse p.c_mult ∧
        f.fee = -(qty_to_cost st.long_psize st.long_pprice p.inverse p.c_mult)
          * p.maker_fee) ∧
      (f.tag = "short_bankruptcy" →
        f.pnl = calc_short_pnl st.short_pprice price (-st.short_psize) p.inverse p.c_mult ∧
        f.fee = -(qty_to_cost st.short_psize st.short_pprice p.inverse p.c_mult)
          * p.maker_fee) := by
  intro f hf hnew
  simp only [liq_wipe] at hf
  split at hf
  · split at hf
    · rcases List.mem_append.mp hf with hf | hf
      · rcases List.mem_append.mp hf with hf | hf
        · exact absurd hf hnew
        · rcases List.mem_singleton.mp hf with rfl
          refine ⟨neg_zero, Or.inl rfl, fun _ => ⟨rfl, rfl⟩, fun h => absurd h (by simp)⟩
      · rcases List.mem_singleton.mp hf with rfl
        exact ⟨neg_zero, Or.inr rfl, fun h => absurd h (by simp), fun _ => ⟨rfl, rfl⟩⟩
    · rcases List.mem_append.mp hf with hf | hf
      · exact absurd hf hnew
      · rcases List.mem_singleton.mp hf with rfl
        refine ⟨neg_zero, Or.inl rfl, fun _ => ⟨rfl, rfl⟩, fun h => absurd h (by simp)⟩
  · split at hf
    · rcases List.mem_append.mp hf with hf | hf
      · exact absurd hf hnew
      · rcases List.mem_singleton.mp hf with rfl
        exact ⟨neg_zero, Or.inr rfl, fun h => absurd h (by simp), fun _ => ⟨rfl, rfl⟩⟩
    · exact absurd hf hnew

/-- Claim C1 (corrected): for the two long fill sweeps every appended fill
records `equity = calc_equity(balance, long pair, short pair, price)`; for the
two SHORT fill sweeps the source instead passes the short pair twice, so every
appended short fill records
`equity = calc_equity(balance, short pair, short pair, price)` (which in
linear mode collapses to `balance`), not the spec's
`balance + longPnL + shortPnL`. -/
theorem C1_fill_equity :
    (∀ (p : BTParams) (k : ℕ) (ts price : ℚ) (es : List Order) (st : BState),
      ∀ f ∈ (long_entry_sweep p k ts price es st).fills, f ∈ st.fills ∨
        f.equity = calc_equity f.balance f.psize f.pprice st.short_psize st.short_pprice
          price p.inverse p.c_mult) ∧
    (∀ (p : BTParams) (k : ℕ) (ts price : ℚ) (es : List Order) (st : BState),
      ∀ f ∈ (short_entry_sweep p k ts price es st).fills, f ∈ st.fills ∨
        f.equity = calc_equity f.balance f.psize f.pprice f.psize f.pprice price
          p.inverse p.c_mult) ∧
    (∀ (p : BTParams) (k : ℕ) (ts price : ℚ) (cs : List Order) (st : BState),
      ∀ f ∈ (long_close_sweep p k ts price cs st).fills, f ∈ st.fills ∨
        f.equity = calc_equity f.balance f.psize f.pprice st.short_psize st.short_pprice
          price p.inverse p.c_mult) ∧
    (∀ (p : BTParams) (k : ℕ) (ts price : ℚ) (cs : List Order) (st : BState),
      ∀ f ∈ (short_close_sweep p k ts price cs st).fills, f ∈ st.fills ∨
        f.equity = calc_equity f.balance f.psize f.pprice f.psize f.pprice price
          p.inverse p.c_mult) := by
  refine ⟨?_, ?_, ?_, ?_⟩
  · intro p k ts price es
    induction es with
    | nil => intro st f hf; exact Or.inl hf
    | cons e rest ih =>
      intro st f hf
      rw [long_entry_sweep] at hf
      split at hf
      · rcases ih _ f hf with hold | heq
        · rcases List.mem_append.mp hold with h | h
          · exact Or.inl h
          · rcases List.mem_singleton.mp h with rfl
            exact Or.inr rfl
        · exact Or.inr heq
      · exact Or.inl hf
  · intro p k ts price es
    induction es with
    | nil => intro st f hf; exact Or.inl hf
    | cons e rest ih =>
      intro st f hf
      rw [short_entry_sweep] at hf
      split at hf
      · rcases ih _ f hf with hold | heq
        · rcases List.mem_append.mp hold with h | h
          · exact Or.inl h
          · rcases List.mem_singleton.mp h with rfl
            exact Or.inr rfl
        · exact Or.inr heq
      · exact Or.inl hf
  · intro p k ts price cs
    induction cs with
    | nil => intro st f hf; exact Or.inl hf
    | cons c rest ih =>
      intro st f hf
      rw [long_close_sweep] at hf
      split at hf
      · rcases ih _ f hf with hold | heq
        · rcases List.mem_append.mp hold with h | h
          · exact Or.inl h
          · rcases List.mem_singleton.mp h with rfl
            exact Or.inr rfl
        · exact Or.inr heq
      · exact Or.inl hf
  · intro p k ts price cs
    induction cs with
    | nil => intro st f hf; exact Or.inl hf
    | cons c rest ih =>
      intro st f hf
      rw [short_close_sweep] at hf
      split at hf
      · rcases ih _ f hf with hold | heq
        · rcases List.mem_append.mp hold with h | h
          · exact Or.inl h
          · rcases List.mem_singleton.mp h with rfl
            exact Or.inr rfl
        · exact Or.inr heq
      · exact Or.inl hf

/-- Claim C3 (corrected): at a stats tick with
`equity / starting_balance ≥ 0.2` the 14-field record is appended and the
timer re-armed; at a stats tick with `equity / starting_balance < 0.2` the
iteration signals early termination, the accumulated `(fills, stats)` are
returned, and NO record is appended for that tick. -/
theorem C3_stats_cadence :
    (∀ (p : BTParams) (st : BState) (ts price : ℚ),
      st.next_stats_update ≤ ts →
      ¬((st.balance + calc_upnl st.long_psize st.long_pprice st.short_psize
          st.short_pprice price p.inverse p.c_mult) / p.starting_balance < 1/5) →
      (stats_step p st ts price).1 = false ∧
      (stats_step p st ts price).2.stats = st.stats ++ [Stats.mk ts st.balance
        (st.balance + calc_upnl st.long_psize st.long_pprice st.short_psize
          st.short_pprice price p.inverse p.c_mult)
        st.bkr_price st.long_psize st.long_pprice st.short_psize st.short_pprice price
        st.closest_bkr st.balance_long st.balance_short
        (st.balance_long + calc_long_pnl st.long_pprice price st.long_psize p.inverse
          p.c_mult)
        (st.balance_short + calc_short_pnl st.short_pprice price st.short_psize p.inverse
          p.c_mult)] ∧
      (stats_step p st ts price).2.next_stats_update = ts + 60 * 1000) ∧
    (∀ (p : BTParams) (alL al_L alS al_S : ℚ × ℚ × ℚ) (k : ℕ)
      (ts qty price prev_price : ℚ) (st st1 : BState),
      qty ≠ 0 →
      st1 = { ema_step p alL al_L alS al_S st price with
        closest_bkr := min (ema_step p alL al_L alS al_S st price).closest_bkr
          (calc_diff (ema_step p alL al_L alS al_S st price).bkr_price price) } →
      st1.next_stats_update ≤ ts →
      (st1.balance + calc_upnl st1.long_psize st1.long_pprice st1.short_psize
        st1.short_pprice price p.inverse p.c_mult) / p.starting_balance < 1/5 →
      backtest_tick p alL al_L alS al_S k ts qty price prev_price st =
        Except.ok (TickResult.stop st.fills st.stats) ∧
      (stats_step p st1 ts price).2.stats = st1.stats) := by
  constructor
  · intro p st ts price h1 h2
    simp only [stats_step]
    rw [if_pos h1, if_neg h2]
    exact ⟨rfl, rfl, rfl⟩
  · intro p alL al_L alS al_S k ts qty price prev_price st st1 hqty hst1 h1 h2
    have hr : stats_step p st1 ts price = (true, { st1 with
        equity := st1.balance + calc_upnl st1.long_psize st1.long_pprice st1.short_psize
          st1.short_pprice price p.inverse p.c_mult }) := by
      simp only [stats_step]
      rw [if_pos h1, if_pos h2]
    refine ⟨?_, ?_⟩
    · simp only [backtest_tick]
      rw [if_neg hqty, ← hst1, hr]
      have hfills : st1.fills = st.fills := by
        rw [hst1]
        exact ema_step_fills p alL al_L alS al_S st price
      have hstats : st1.stats = st.stats := by
        rw [hst1]
        exact ema_step_stats p alL al_L alS al_S st price
      simp [hfills, hstats]
    · rw [hr]

/-- Claim C2: when, after the stats and grid blocks of a tick, the tracked
`closest_bkr` is below `0.06`, the tick stops the run returning the wiped
state's `(fills, stats)`; the wipe appends one `*_bankruptcy` fill per side
with non-zero position, zeroes balance and equity and both position pairs, and
appends no stats record. -/
theorem C2_liquidation_terminates (p : BTParams) (alL al_L alS al_S : ℚ × ℚ × ℚ) (k : ℕ)
    (ts qty price prev_price : ℚ) (st st2 st3 : BState)
    (hqty : qty ≠ 0)
    (hst2 : stats_step p { ema_step p alL al_L alS al_S st price with
      closest_bkr := min (ema_step p alL al_L alS al_S st price).closest_bkr
        (calc_diff (ema_step p alL al_L alS al_S st price).bkr_price price) } ts price
      = (false, st2))
    (hst3 : grids_step p ts prev_price st2 = Except.ok st3)
    (hbkr : st3.closest_bkr < 6/100)
    (hpos : st3.long_psize ≠ 0 ∨ st3.short_psize ≠ 0)
    (hlp : st3.long_psize = 0 → st3.long_pprice = 0)
    (hsp : st3.short_psize = 0 → st3.short_pprice = 0) :
    backtest_tick p alL al_L alS al_S k ts qty price prev_price st =
      Except.ok (TickResult.stop (liq_wipe p k ts price st3).fills
        (liq_wipe p k ts price st3).stats) ∧
    (liq_wipe p k ts price st3).fills = (st3.fills
      ++ (if st3.long_psize ≠ 0 then
            [Fill.mk k ts
              (calc_long_pnl st3.long_pprice price (-st3.long_psize) p.inverse p.c_mult)
              (-(qty_to_cost st3.long_psize st3.long_pprice p.inverse p.c_mult)
                * p.maker_fee) 0 0 0 price 0 0 "long_bankruptcy"]
          else []))
      ++ (if st3.short_psize ≠ 0 then
            [Fill.mk k ts
              (calc_short_pnl st3.short_pprice price (-st3.short_psize) p.inverse p.c_mult)
              (-(qty_to_cost st3.short_psize st3.short_pprice p.inverse p.c_mult)
                * p.maker_fee) 0 0 0 price 0 0 "short_bankruptcy"]
          else []) ∧
    (liq_wipe p k ts price st3).stats = st3.stats ∧
    (liq_wipe p k ts price st3).balance = 0 ∧
    (liq_wipe p k ts price st3).equity = 0 ∧
    (liq_wipe p k ts price st3).long_psize = 0 ∧
    (liq_wipe p k ts price st3).long_pprice = 0 ∧
    (liq_wipe p k ts price st3).short_psize = 0 ∧
    (liq_wipe p k ts price st3).short_pprice = 0 := by
  refine ⟨?_, ?_⟩
  · simp only [backtest_tick]
    rw [if_neg hqty, hst2]
    simp only [Bool.false_eq_true, if_false]
    rw [hst3]
    simp only
    rw [if_pos hbkr]
  · by_cases hl : st3.long_psize = 0 <;> by_cases hs : st3.short_psize = 0
    · rcases hpos with h | h
      · exact absurd hl h
      · exact absurd hs h
    · simp [liq_wipe, hl, hs, hlp hl]
    · simp [liq_wipe, hl, hs, hsp hs]
    · simp [liq_wipe, hl, hs]

/-! ### Concrete runs exercising the simulator theorems -/

/-- Concrete parameter vector: linear USDT-margined instrument
(`qty_step = 0.001`, `price_step = 0.01`, `min_qty = 0.001`, `min_cost = 5`,
`c_mult = 1`), short side only, zero maker fee, auto-unstuck disabled. -/
def P0 : BTParams where
  starting_balance := 1000
  latency_simulation_ms := 1000
  maker_fee := 0
  spot := false
  hedge_mode := false
  inverse := false
  do_long := false
  do_short := true
  qty_step := 1/1000
  price_step := 1/100
  min_qty := 1/1000
  min_cost := 5
  c_mult := 1
  ema_span_max := (1, 1)
  ema_span_min := (1, 1)
  eprice_exp_base := (2, 2)
  eprice_pprice_diff := (1/100, 1/100)
  grid_span := (3/10, 3/10)
  initial_eprice_ema_dist := (0, 0)
  initial_qty_pct := (1/20, 1/20)
  markup_range := (3/100, 3/100)
  max_n_entry_orders := (10, 10)
  min_markup := (1/100, 1/100)
  n_close_orders := (5, 5)
  wallet_exposure_limit := (3/10, 3/10)
  secondary_allocation := (0, 0)
  secondary_pprice_diff := (0, 0)
  auto_unstuck_ema_dist := (0, 0)
  auto_unstuck_wallet_exposure_threshold := (0, 0)

/-- Quiet base state: flat book, all timers far in the future. -/
def S0 : BState where
  balance := 1000
  balance_long := 1000
  balance_short := 1000
  equity := 1000
  long_psize := 0
  long_pprice := 0
  short_psize := 0
  short_pprice := 0
  fills := []
  stats := []
  long_entries := [Order.mk 0 0 ""]
  long_closes := [Order.mk 0 0 ""]
  short_entries := [Order.mk 0 0 ""]
  short_closes := [Order.mk 0 0 ""]
  bkr_price := 0
  next_entry_ts_long := 10 ^ 9
  next_entry_ts_short := 10 ^ 9
  next_close_ts_long := 10 ^ 9
  next_close_ts_short := 10 ^ 9
  next_stats_update := 10 ^ 9
  closest_bkr := 1/100
  emas_long := (0, 0, 0)
  emas_short := (0, 0, 0)
  long_wallet_exposure := 0
  short_wallet_exposure := 0

/-- Tick tape: 60 burn-in samples at price 100, then two live ticks at 100
and 102. -/
def CT1 : List (ℚ × ℚ × ℚ) :=
  List.replicate 60 ((0 : ℚ), (0 : ℚ), (100 : ℚ))
    ++ [(1000000, 1, 100), (1000500, 1, 102)]

/-- `CT1` extended with a third live tick one stats period later at a price
that pushes equity below 20% of the starting balance. -/
def CT3 : List (ℚ × ℚ × ℚ) :=
  List.replicate 60 ((0 : ℚ), (0 : ℚ), (100 : ℚ))
    ++ [(1000000, 1, 100), (1000500, 1, 102), (1061000, 1, 6000)]

/-- The single fill of the `CT1` run: the short initial entry of `0.15` at
`100` executed at `k = 61`, price `102`. -/
def F1 : Fill := Fill.mk 61 1000500 0 0 1000 1000 (-(3/20)) 100 (-(3/20)) 100 "short_ientry"

/-- The single stats record of the `CT1` run (the `k = 60` stats tick). -/
def S1 : Stats := Stats.mk 1000000 1000 1000 0 0 0 0 0 100 1 1000 1000 1000 1000

set_option maxRecDepth 1000000 in
/-- Counterexample to claim C1 as stated: in the concrete `CT1` run the single
appended fill is the short entry `F1`, whose recorded equity (`1000`) differs
from `calc_equity(balance, long pair, short pair, tick price)` (`999.7`): the
short sweep passed the short pair in the long slots. -/
theorem C1_counterexample :
    njit_backtest CT1 P0 = Except.ok ([F1], [S1]) ∧
    F1.equity ≠ calc_equity F1.balance 0 0 F1.psize F1.pprice 102 P0.inverse P0.c_mult := by
  constructor
  · decide
  · decide

set_option maxRecDepth 1000000 in
/-- Witness for C1: the short-entry sweep of the `CT1` scenario appends `F1`,
and `F1` records the double-short-pair equity. -/
theorem C1_fill_equity_witness :
    F1 ∈ S0.fills ∨
    F1.equity = calc_equity F1.balance F1.psize F1.pprice F1.psize F1.pprice 102
      P0.inverse P0.c_mult :=
  C1_fill_equity.2.1 P0 61 1000500 102 [Order.mk (-(3/20)) 100 "short_ientry"] S0 F1
    (by decide)

set_option maxRecDepth 1000000 in
/-- Counterexample to claim C3 as stated: the `CT3` run terminates early at
the stats tick `ts = 1061000` (equity ratio `0.115 < 0.2`), and the returned
stats hold NO record for that tick — only the one from `ts = 1000000`. -/
theorem C3_counterexample :
    njit_backtest CT3 P0 = Except.ok ([F1], [S1]) ∧ S1.ts ≠ 1061000 := by
  constructor
  · decide
  · decide

set_option maxRecDepth 1000000 in
/-- Witness for C3: a concrete stats tick appends its record (part one), and a
concrete sub-20% stats tick stops the run with the accumulated lists
(part two). -/
theorem C3_stats_cadence_witness :
    (stats_step P0 { S0 with long_psize := 1, long_pprice := 90, next_stats_update := 0 }
      1000000 100).1 = false ∧
    backtest_tick P0 (0, 0, 0) (1, 1, 1) (0, 0, 0) (1, 1, 1) 62 1000000 1 100 100
      { S0 with long_psize := 1, long_pprice := 90, next_stats_update := 0, balance := 100 }
      =
      Except.ok (TickResult.stop
        ({ S0 with long_psize := 1, long_pprice := 90, next_stats_update := 0, balance := (100 : ℚ) } : BState).fills
        ({ S0 with long_psize := 1, long_pprice := 90, next_stats_update := 0, balance := (100 : ℚ) } : BState).stats) :=
  ⟨(C3_stats_cadence.1 P0 { S0 with long_psize := 1, long_pprice := 90, next_stats_update := 0 }
      1000000 100 (by decide) (by decide)).1,
    (C3_stats_cadence.2 P0 (0, 0, 0) (1, 1, 1) (0, 0, 0) (1, 1, 1) 62 1000000 1 100 100
      { S0 with long_psize := 1, long_pprice := 90, next_stats_update := 0, balance := 100 }
      { S0 with long_psize := 1, long_pprice := 90, next_stats_update := 0, balance := 100 }
      (by decide) (by decide) (by decide) (by decide)).1⟩

set_option maxRecDepth 1000000 in
/-- Witness for C2: a concrete tick with a long position and
`closest_bkr = 0.01 < 0.06` stops the run with the wiped state's lists. -/
theorem C2_liquidation_terminates_witness :
    backtest_tick P0 (0, 0, 0) (1, 1, 1) (0, 0, 0) (1, 1, 1) 62 1000000 1 100 100
      { S0 with long_psize := 1, long_pprice := 90 } =
      Except.ok (TickResult.stop
        (liq_wipe P0 62 1000000 100 { S0 with long_psize := 1, long_pprice := 90 }).fills
        (liq_wipe P0 62 1000000 100
          { S0 with long_psize := 1, long_pprice := 90 }).stats) :=
  (C2_liquidation_terminates P0 (0, 0, 0) (1, 1, 1) (0, 0, 0) (1, 1, 1) 62 1000000 1 100
    100 { S0 with long_psize := 1, long_pprice := 90 }
    { S0 with long_psize := 1, long_pprice := 90 }
    { S0 with long_psize := 1, long_pprice := 90 }
    (by decide) (by decide) (by decide) (by decide) (by decide) (by decide)
    (by decide)).1

set_option maxRecDepth 1000000 in
/-- Witness for C9: wiping a long-only state appends one `long_bankruptcy`
fill whose qty field is zero. -/
theorem C9_bankruptcy_fill_fields_witness :
    (Fill.mk 62 1000000 10 0 0 0 (-(0 : ℚ)) 100 0 0 "long_bankruptcy").qty = 0 :=
  (C9_bankruptcy_fill_fields P0 62 1000000 100 { S0 with long_psize := 1, long_pprice := 90 }
    (Fill.mk 62 1000000 10 0 0 0 (-(0 : ℚ)) 100 0 0 "long_bankruptcy") (by decide)
    (by decide)).1

end Passivbot
